import Mathlib

/-!
# Credential and token lifecycle of the authorization service

A shallow embedding of `internal/utils` (hash.go, jwt.go, uuid.go),
`internal/store` (token_repo.go, user_repo.go), `internal/model`,
`internal/service/auth_service.go`, `internal/config/config.go`,
`internal/pkg/response` and the refresh handler of `internal/handler/auth_handler.go`,
followed by theorems about them.

Conventions of the embedding.

* A Go `string` is a Lean `String`; a Go `[]byte` is a `List Byte`.
* A Go `(T, error)` result is an `Except GoError T`.
* A `time.Time` is an `Int` (nanoseconds since the Unix epoch), a `time.Duration` an
  `Int` (nanoseconds).
* Everything a function reads from outside the program (the clock, the
  entropy source, a failure reported by the database driver) is an explicit
  argument, listed in the order in which the Go code reads it.
* Third-party code that is not part of the repository (argon2, SHA-256, HMAC)
  is a function argument; the standard-library codecs (base64, hex) and the
  parts of golang-jwt and GORM the service relies on are written out.
-/

namespace Authorization

/-! ## Go basics -/

/-- A Go byte. -/
abbrev Byte := UInt8

/-- The conversion `[]byte(s)` of a Go string: its UTF-8 bytes. -/
def bytesOf (s : String) : List Byte := s.toUTF8.data.toList

/-- Go error values that the embedded code creates or passes on. -/
inductive GoError where
  /-- An error made by `fmt.Errorf(msg)` with a constant message. -/
  | errorf (msg : String)
  /-- An error made by `fmt.Errorf(msg + ": %w", cause)`. -/
  | wrapf (msg : String) (cause : GoError)
  /-- The error `base64.CorruptInputError`. -/
  | corruptInput
  /-- The error `gorm.ErrRecordNotFound`. -/
  | recordNotFound
  /-- A violated primary-key or unique-index constraint reported by the database. -/
  | duplicateKey
  /-- A validation error of golang-jwt; `kinds` are the sentinel errors it matches under `errors.Is`. -/
  | jwt (kinds : List String)
  /-- Any other failure of an external collaborator (entropy source, database driver). -/
  | external (msg : String)
  deriving DecidableEq, Repr

deriving instance DecidableEq for Except

/-- The test `errors.Is(err, gorm.ErrRecordNotFound)`: the error is the sentinel or wraps it with `%w`. -/
def GoError.isRecordNotFound : GoError → Bool
  | .recordNotFound => true
  | .wrapf _ cause => cause.isRecordNotFound
  | _ => false

/-! ## encoding/base64, `StdEncoding` -/

namespace base64

/-- The alphabet of `base64.StdEncoding`. -/
def encodeStd : List Char :=
  "ABCDEFGHIJKLMNOPQRSTUVWXYZabcdefghijklmnopqrstuvwxyz0123456789+/".toList

/-- The padding character of `base64.StdEncoding`. -/
def padChar : Char := '='

/-- The character for a 6-bit value, `enc.encode[v & 0x3F]`. -/
def encodeChar (v : Nat) : Char := encodeStd.getD (v % 64) 'A'

/-- The 6-bit value of an alphabet character, `enc.decodeMap[c]`; `none` stands for `0xff`. -/
def decodeChar (c : Char) : Option Nat :=
  let i := encodeStd.indexOf c
  if i < 64 then some i else none

/-- The characters `Encoding.Encode` writes: three bytes become four characters, and a
final group of one or two bytes is padded with `=`. -/
def encodeChars : List Byte → List Char
  | [] => []
  | [a] =>
    let val := a.toNat * 65536
    [encodeChar (val / 262144), encodeChar (val / 4096), padChar, padChar]
  | [a, b] =>
    let val := a.toNat * 65536 + b.toNat * 256
    [encodeChar (val / 262144), encodeChar (val / 4096), encodeChar (val / 64), padChar]
  | a :: b :: c :: rest =>
    let val := a.toNat * 65536 + b.toNat * 256 + c.toNat
    encodeChar (val / 262144) :: encodeChar (val / 4096) :: encodeChar (val / 64)
      :: encodeChar val :: encodeChars rest

/-- The function `StdEncoding.EncodeToString`. -/
def EncodeToString (src : List Byte) : String := String.mk (encodeChars src)

/-- The quanta loop of `Encoding.Decode` on input from which `\r` and `\n` have been
removed: four alphabet characters give three bytes; `xx==` and `xxx=` may only end the
input and give one and two bytes; anything else is corrupt. Trailing bits of a padded
group are not checked (the encoding is not strict). -/
def decodeChars : List Char → Option (List Byte)
  | [] => some []
  | a :: b :: c :: d :: rest =>
    match decodeChar a, decodeChar b with
    | some x, some y =>
      if c = padChar then
        if d = padChar ∧ rest = [] then
          some [UInt8.ofNat ((x * 262144 + y * 4096) / 65536)]
        else none
      else
        match decodeChar c with
        | none => none
        | some z =>
          if d = padChar then
            if rest = [] then
              let val := x * 262144 + y * 4096 + z * 64
              some [UInt8.ofNat (val / 65536), UInt8.ofNat (val / 256)]
            else none
          else
            match decodeChar d with
            | none => none
            | some w =>
              let val := x * 262144 + y * 4096 + z * 64 + w
              match decodeChars rest with
              | none => none
              | some bs =>
                some (UInt8.ofNat (val / 65536) :: UInt8.ofNat (val / 256) :: UInt8.ofNat val :: bs)
    | _, _ => none
  | _ => none

/-- The function `StdEncoding.DecodeString`: carriage returns and line feeds are skipped. -/
def DecodeString (s : String) : Except GoError (List Byte) :=
  match decodeChars (s.toList.filter (fun c => c ≠ '\n' ∧ c ≠ '\r')) with
  | some bs => .ok bs
  | none => .error .corruptInput

end base64

/-! ## internal/utils/hash.go -/

/-- The constants of hash.go. -/
def argonTime : Nat := 1
def argonMemory : Nat := 64 * 1024
def argonThreads : Nat := 4
def argonKeyLen : Nat := 32
def saltLen : Nat := 16

/-- The type of `argon2.IDKey(password, salt, time, memory, threads, keyLen)`, taken as an
argument. The real function returns a key of `keyLen` bytes. -/
abbrev IDKey := List Byte → List Byte → Nat → Nat → Nat → Nat → List Byte

/-- The contract of `argon2.IDKey` used here: the key has the requested length. -/
def IDKey.HasKeyLen (idKey : IDKey) : Prop :=
  ∀ password salt t m th keyLen, (idKey password salt t m th keyLen).length = keyLen

/-- The function `HashPassword`. `randRead` is what `rand.Read(salt)` did to the
`saltLen`-byte buffer: an error, or the bytes it was filled with. -/
def HashPassword (idKey : IDKey) (randRead : Except GoError (List Byte)) (password : String) :
    Except GoError String :=
  match randRead with
  | .error err => .error err
  | .ok salt =>
    let hash := idKey (bytesOf password) salt argonTime argonMemory argonThreads argonKeyLen
    let combined := salt ++ hash
    .ok (base64.EncodeToString combined)

/-- The comparison loop at the end of `VerifyPassword`: `for i := range hash` returning
`false` at the first index where the bytes differ, `true` when the loop runs out. The
caller has checked that the lengths agree. -/
def compareLoop : List Byte → List Byte → Bool
  | h :: hash, c :: comparisonHash => if h ≠ c then false else compareLoop hash comparisonHash
  | _, _ => true

/-- The function `VerifyPassword`. -/
def VerifyPassword (idKey : IDKey) (password encodedHash : String) : Except GoError Bool :=
  match base64.DecodeString encodedHash with
  | .error err => .error err
  | .ok combined =>
    if combined.length ≠ saltLen + argonKeyLen then
      .error (.errorf "invalid hash format")
    else
      let salt := combined.take saltLen
      let hash := combined.drop saltLen
      let comparisonHash :=
        idKey (bytesOf password) salt argonTime argonMemory argonThreads argonKeyLen
      if hash.length ≠ comparisonHash.length then .ok false
      else .ok (compareLoop hash comparisonHash)

/-! ## time -/

/-! A `time.Time` is an `Int`: nanoseconds since the Unix epoch. A `time.Duration` is an
`Int`: nanoseconds. Monotonic readings and the range limits of the Go representations are
not modelled. -/

namespace time

/-- The constant `time.Second`. -/
def Second : Int := 1000000000

/-- Seconds from January 1, year 1 (the zero `time.Time`) to the Unix epoch. -/
def unixToInternal : Int := 62135596800

/-- The method `t.Add(d)`. -/
def Add (t : Int) (d : Int) : Int := t + d

/-- The method `t.Truncate(d)`: `t` rounded down to a multiple of `d` since the zero time;
`t` itself when `d <= 0`. -/
def Truncate (t : Int) (d : Int) : Int :=
  if d ≤ 0 then t else t - (t + unixToInternal * Second) % d

/-- The method `t.Before(u)`. -/
def Before (t u : Int) : Bool := decide (t < u)

/-- The method `t.After(u)`. -/
def After (t u : Int) : Bool := decide (t > u)

/-- The method `t.UnixMilli()`. -/
def UnixMilli (t : Int) : Int := t / 1000000

end time

/-! ## encoding/hex -/

namespace hex

/-- The digits `hextable`. -/
def hextable : List Char := "0123456789abcdef".toList

/-- The characters `hex.Encode` writes: two lower-case digits for each byte. -/
def encodeChars : List Byte → List Char
  | [] => []
  | v :: rest =>
    hextable.getD (v.toNat / 16) '0' :: hextable.getD (v.toNat % 16) '0' :: encodeChars rest

/-- The function `hex.EncodeToString`. -/
def EncodeToString (src : List Byte) : String := String.mk (encodeChars src)

end hex

/-! ## github.com/golang-jwt/jwt/v5, as far as jwt.go uses it -/

namespace jwt

/-- The package variable `jwt.TimePrecision`, initialised to `time.Second`; the program
never assigns it. -/
def TimePrecision : Int := time.Second

/-- The type `jwt.NumericDate`. -/
structure NumericDate where
  Time : Int
  deriving DecidableEq, Repr

/-- The function `jwt.NewNumericDate`: the time truncated to `TimePrecision`. -/
def NewNumericDate (t : Int) : NumericDate := ⟨time.Truncate t TimePrecision⟩

/-- The type `jwt.RegisteredClaims`. -/
structure RegisteredClaims where
  Issuer : String := ""
  Subject : String := ""
  Audience : List String := []
  ExpiresAt : Option NumericDate := none
  NotBefore : Option NumericDate := none
  IssuedAt : Option NumericDate := none
  ID : String := ""
  deriving DecidableEq, Repr

/-- The signing methods golang-jwt registers. -/
inductive SigningMethod where
  | HS256 | HS384 | HS512
  | RS256 | RS384 | RS512
  | PS256 | PS384 | PS512
  | ES256 | ES384 | ES512
  | EdDSA
  | NONE
  deriving DecidableEq, Repr

/-- The method `SigningMethod.Alg()`. -/
def SigningMethod.Alg : SigningMethod → String
  | .HS256 => "HS256" | .HS384 => "HS384" | .HS512 => "HS512"
  | .RS256 => "RS256" | .RS384 => "RS384" | .RS512 => "RS512"
  | .PS256 => "PS256" | .PS384 => "PS384" | .PS512 => "PS512"
  | .ES256 => "ES256" | .ES384 => "ES384" | .ES512 => "ES512"
  | .EdDSA => "EdDSA"
  | .NONE => "none"

/-- The function `jwt.GetSigningMethod`: the method registered under a header `alg`. -/
def GetSigningMethod (alg : String) : Option SigningMethod :=
  [SigningMethod.HS256, .HS384, .HS512, .RS256, .RS384, .RS512, .PS256, .PS384, .PS512,
    .ES256, .ES384, .ES512, .EdDSA, .NONE].find? (fun m => m.Alg = alg)

/-- Whether the method is a `*jwt.SigningMethodHMAC` (the three HS methods are). -/
def SigningMethod.isHMAC : SigningMethod → Bool
  | .HS256 | .HS384 | .HS512 => true
  | _ => false

end jwt

/-! ## internal/utils/jwt.go -/

/-- The type `Claims`, with `jwt.RegisteredClaims` embedded. -/
structure Claims extends jwt.RegisteredClaims where
  UserID : String := ""
  Username : String := ""
  deriving DecidableEq, Repr

namespace jwt

/-- The cryptography and the codec golang-jwt calls, taken as arguments:
`hmac m key msg` is the HMAC of `msg` under `key` with the hash of the HS method `m`;
`SigningString alg claims` is `Token.SigningString()`, the base64url-encoded JSON header
and payload joined by a dot. -/
structure Lib where
  hmac : SigningMethod → List Byte → List Byte → List Byte
  SigningString : String → Claims → List Byte

/-- A token string that splits into three base64url segments whose header and payload
parse as JSON, given by what the parser reads from it: the header `alg` (if it is a
string), the payload as `Claims`, the first two segments as written (the signing input)
and the decoded signature. -/
structure Compact where
  alg : Option String
  claims : Claims
  signingInput : List Byte
  signature : List Byte
  deriving DecidableEq, Repr

/-- A token string: one the parser cannot take apart, or a compact serialisation. -/
inductive TokenString where
  | malformed
  | compact (c : Compact)
  deriving DecidableEq, Repr

/-- The type `jwt.Token` as the key function and the caller see it. -/
structure Token where
  Method : SigningMethod
  HeaderAlg : String
  Claims : Claims
  Signature : List Byte
  Valid : Bool
  deriving DecidableEq, Repr

/-- The method `Token.SignedString(key)` for a `[]byte` key: the HS methods sign the
signing string; every other method refuses a `[]byte` key. -/
def SignedString (lib : Lib) (method : SigningMethod) (claims : Claims) (key : List Byte) :
    Except GoError TokenString :=
  let sstr := lib.SigningString method.Alg claims
  if method.isHMAC then
    .ok (.compact
      { alg := some method.Alg, claims := claims, signingInput := sstr,
        signature := lib.hmac method key sstr })
  else .error (.jwt ["ErrInvalidKeyType"])

/-- The method `SigningMethod.Verify(signingString, sig, key)` for a `[]byte` key:
`nil` (here `none`) when an HS method recomputes the same MAC. -/
def Verify (lib : Lib) (method : SigningMethod) (signingString sig key : List Byte) :
    Option GoError :=
  if method.isHMAC then
    if sig = lib.hmac method key signingString then none
    else some (.jwt ["ErrSignatureInvalid"])
  else some (.jwt ["ErrInvalidKeyType"])

/-- The method `Validator.Validate` with the default options: `exp`, when present, must
be after `now`; `nbf`, when present, must not be after `now`; nothing else is checked. -/
def Validate (now : Int) (claims : Claims) : List String :=
  (match claims.ExpiresAt with
    | some exp => if time.Before now exp.Time then [] else ["ErrTokenExpired"]
    | none => []) ++
  (match claims.NotBefore with
    | some nbf => if !time.Before now nbf.Time then [] else ["ErrTokenNotValidYet"]
    | none => [])

/-- The function `jwt.ParseWithClaims` with the default parser: split and decode, look
up the method named by the header, ask the key function for the key, verify the
signature, validate the claims at the clock reading `now`. -/
def ParseWithClaims (lib : Lib) (now : Int) (tokenString : TokenString)
    (keyFunc : Token → Except GoError (List Byte)) : Except GoError Token :=
  match tokenString with
  | .malformed => .error (.jwt ["ErrTokenMalformed"])
  | .compact c =>
    match c.alg with
    | none => .error (.jwt ["ErrTokenUnverifiable"])
    | some alg =>
      match GetSigningMethod alg with
      | none => .error (.jwt ["ErrTokenUnverifiable"])
      | some method =>
        let token : Token :=
          { Method := method, HeaderAlg := alg, Claims := c.claims,
            Signature := c.signature, Valid := false }
        match keyFunc token with
        | .error _ => .error (.jwt ["ErrTokenUnverifiable"])
        | .ok key =>
          match Verify lib method c.signingInput c.signature key with
          | some _ => .error (.jwt ["ErrTokenSignatureInvalid"])
          | none =>
            match Validate now c.claims with
            | [] => .ok { token with Valid := true }
            | errs => .error (.jwt ("ErrTokenInvalidClaims" :: errs))

end jwt

/-- The type `JWTManager`. -/
structure JWTManager where
  secret : String
  accessTokenExp : Int
  refreshTokenExp : Int
  deriving DecidableEq, Repr

/-- The method `JWTManager.GenerateAccessToken`. `now1` is the clock reading taken for
`expirationTime`, `now2` the one taken for `IssuedAt`. -/
def JWTManager.GenerateAccessToken (lib : jwt.Lib) (j : JWTManager) (now1 now2 : Int)
    (userID username : String) : Except GoError (jwt.TokenString × Int) :=
  let expirationTime := time.Add now1 j.accessTokenExp
  let claims : Claims :=
    { UserID := userID
      Username := username
      ExpiresAt := some (jwt.NewNumericDate expirationTime)
      IssuedAt := some (jwt.NewNumericDate now2)
      Subject := userID }
  match jwt.SignedString lib .HS256 claims (bytesOf j.secret) with
  | .error err => .error err
  | .ok tokenString => .ok (tokenString, expirationTime)

/-- The key function `ValidateAccessToken` hands to the parser. -/
def JWTManager.keyFunc (j : JWTManager) (token : jwt.Token) : Except GoError (List Byte) :=
  if !token.Method.isHMAC then
    .error (.errorf ("unexpected signing method: " ++ token.HeaderAlg))
  else .ok (bytesOf j.secret)

/-- The method `JWTManager.ValidateAccessToken`; `now` is the clock reading the
validator takes. -/
def JWTManager.ValidateAccessToken (lib : jwt.Lib) (j : JWTManager) (now : Int)
    (tokenString : jwt.TokenString) : Except GoError Claims :=
  match jwt.ParseWithClaims lib now tokenString j.keyFunc with
  | .error err => .error err
  | .ok token =>
    if token.Valid then .ok token.Claims
    else .error (.errorf "invalid token")

/-- The method `JWTManager.GetRefreshTokenExpiration`. -/
def JWTManager.GetRefreshTokenExpiration (j : JWTManager) : Int := j.refreshTokenExp

/-- The function `GenerateRefreshToken`. `randRead` is what `rand.Read(bytes)` did to the
32-byte buffer. -/
def GenerateRefreshToken (randRead : Except GoError (List Byte)) : Except GoError String :=
  match randRead with
  | .error err => .error err
  | .ok bytes => .ok (hex.EncodeToString bytes)

/-- The type of `sha256.Sum256`, taken as an argument. -/
abbrev Sum256 := List Byte → List Byte

/-- The function `HashRefreshToken`. -/
def HashRefreshToken (sum256 : Sum256) (token : String) : String :=
  let hash := sum256 (bytesOf token)
  hex.EncodeToString hash

/-! ## internal/utils/uuid.go -/

/-- The function `binary.BigEndian.PutUint64` on an 8-byte buffer. -/
def PutUint64 (v : Nat) : List Byte :=
  [UInt8.ofNat (v / 2 ^ 56), UInt8.ofNat (v / 2 ^ 48), UInt8.ofNat (v / 2 ^ 40),
    UInt8.ofNat (v / 2 ^ 32), UInt8.ofNat (v / 2 ^ 24), UInt8.ofNat (v / 2 ^ 16),
    UInt8.ofNat (v / 2 ^ 8), UInt8.ofNat v]

/-- The slice expression `bytes[lo:hi]`. -/
def slice (bytes : List Byte) (lo hi : Nat) : List Byte := (bytes.take hi).drop lo

/-- The function `formatUUID`: the verb `%x` prints a byte slice as lower-case hex. -/
def formatUUID (bytes : List Byte) : String :=
  hex.EncodeToString (slice bytes 0 4) ++ "-" ++ hex.EncodeToString (slice bytes 4 6) ++ "-"
    ++ hex.EncodeToString (slice bytes 6 8) ++ "-" ++ hex.EncodeToString (slice bytes 8 10)
    ++ "-" ++ hex.EncodeToString (slice bytes 10 16)

/-- The function `GenerateUUIDv7`. `now` is the clock reading; `randBytes` is the 2-byte
buffer after `rand.Read(randBytes)` and `randRest` the 7 bytes of `uuidBytes[9:]` after
`rand.Read(uuidBytes[9:])` (both calls ignore errors). The call
`copy(uuidBytes[:6], uuidBytes[:6])` copies a slice onto itself and changes nothing. -/
def GenerateUUIDv7 (now : Int) (randBytes randRest : List Byte) : String :=
  let timestamp := time.UnixMilli now
  let uuidBytes0 := PutUint64 (timestamp % 2 ^ 64).toNat ++ List.replicate 8 (0 : Byte)
  let uuidBytes1 := uuidBytes0.set 6 ((randBytes.getD 0 0 &&& 0x0f) ||| 0x70)
  let uuidBytes2 := uuidBytes1.set 8 ((randBytes.getD 1 0 &&& 0x3f) ||| 0x80)
  let uuidBytes3 := uuidBytes2.take 9 ++ (randRest ++ List.replicate 7 (0 : Byte)).take 7
  formatUUID uuidBytes3

/-! ## internal/constants/errors.go -/

namespace constants

/-- The error messages of errors.go that the service returns. -/
def MsgInvalidCredentials : String := "Invalid username or password"
def MsgInvalidToken : String := "Invalid token"
def MsgTokenExpired : String := "Token has expired"

end constants

/-! ## internal/model and internal/dto -/

namespace time

/-- The zero `time.Time`, January 1, year 1. -/
def zero : Int := -(unixToInternal * Second)

end time

/-- The type `model.BaseModel`. -/
structure BaseModel where
  ID : String := ""
  CreatedAt : Int := time.zero
  UpdatedAt : Int := time.zero
  DeletedAt : Option Int := none
  IsDeleted : Bool := false
  deriving DecidableEq, Repr

/-- The type `model.User`, with `BaseModel` embedded; also a row of the table `users`. -/
structure User extends BaseModel where
  Username : String := ""
  Email : String := ""
  PasswordHash : String := ""
  deriving DecidableEq, Repr

/-- The type `model.RefreshToken`. The field `User` is the association GORM fills on
`Preload`; it is not a column. -/
structure RefreshToken where
  ID : String := ""
  UserID : String := ""
  TokenHash : String := ""
  ExpiresAt : Int := time.zero
  CreatedAt : Int := time.zero
  Revoked : Bool := false
  User : User := {}
  deriving DecidableEq, Repr

/-- A row of the table `refresh_tokens`: the columns of `model.RefreshToken`. The tags
make `ID` the primary key and put a unique index on `TokenHash`. -/
structure RefreshTokenRow where
  ID : String
  UserID : String
  TokenHash : String
  ExpiresAt : Int
  CreatedAt : Int
  Revoked : Bool
  deriving DecidableEq, Repr

/-- The type `dto.RefreshRequest`. -/
structure RefreshRequest where
  RefreshToken : String
  deriving DecidableEq, Repr

/-- The type `dto.UserInfo`. -/
structure UserInfo where
  ID : String
  Username : String
  Email : String
  CreatedAt : Int
  deriving DecidableEq, Repr

/-- The type `dto.LoginResponse`. -/
structure LoginResponse where
  AccessToken : jwt.TokenString
  RefreshToken : String
  ExpiresAt : Int
  User : UserInfo
  deriving DecidableEq, Repr

/-! ## The database behind `*gorm.DB` -/

/-- The contents of the two tables the repositories read and write. -/
structure DB where
  users : List User
  refresh_tokens : List RefreshTokenRow
  deriving DecidableEq, Repr

/-- The row `First` returns from the rows a query matches: the one with the least primary
key (`ORDER BY id LIMIT 1`), `none` when nothing matches. -/
def firstByID : List RefreshTokenRow → Option RefreshTokenRow
  | [] => none
  | row :: rows =>
    match firstByID rows with
    | none => some row
    | some best => if best.ID.toList < row.ID.toList then some best else some row

/-- The declared constraints of `refresh_tokens`: no two rows share a primary key or a
token hash. -/
def DB.TokenKeysUnique (db : DB) : Prop :=
  db.refresh_tokens.Pairwise (fun a b => a.ID ≠ b.ID ∧ a.TokenHash ≠ b.TokenHash)

/-- The foreign key of `refresh_tokens`: every row belongs to a row of `users`. -/
def DB.TokenOwnersExist (db : DB) : Prop :=
  ∀ row ∈ db.refresh_tokens, ∃ u ∈ db.users, u.ID = row.UserID

/-! ## internal/store/token_repo.go

Each method takes `fault`, the error the database driver reports for the statement
(`none` when the statement is executed); a statement that fails changes nothing. -/

namespace TokenRepository

/-- The method `TokenRepository.Create`. GORM fills a zero `CreatedAt` with its clock
reading `now`; the insert is refused when the primary key or the token hash is taken. -/
def Create (db : DB) (fault : Option GoError) (now : Int) (token : RefreshToken) :
    DB × Option GoError :=
  match fault with
  | some err => (db, some err)
  | none =>
    if db.refresh_tokens.any (fun row => row.ID = token.ID ∨ row.TokenHash = token.TokenHash)
    then (db, some .duplicateKey)
    else
      let row : RefreshTokenRow :=
        { ID := token.ID, UserID := token.UserID, TokenHash := token.TokenHash,
          ExpiresAt := token.ExpiresAt,
          CreatedAt := if token.CreatedAt = time.zero then now else token.CreatedAt,
          Revoked := token.Revoked }
      ({ db with refresh_tokens := db.refresh_tokens ++ [row] }, none)

/-- The method `TokenRepository.GetByTokenHash`: the first row with this hash that is
not revoked, with its user preloaded (a zero `User` when the user row is missing). -/
def GetByTokenHash (db : DB) (fault : Option GoError) (tokenHash : String) :
    Except GoError RefreshToken :=
  match fault with
  | some err => .error err
  | none =>
    match firstByID (db.refresh_tokens.filter
        (fun row => row.TokenHash = tokenHash ∧ row.Revoked = false)) with
    | none => .error .recordNotFound
    | some row =>
      .ok { ID := row.ID, UserID := row.UserID, TokenHash := row.TokenHash,
            ExpiresAt := row.ExpiresAt, CreatedAt := row.CreatedAt, Revoked := row.Revoked,
            User := (db.users.find? (fun u => u.ID = row.UserID)).getD {} }

/-- The method `TokenRepository.RevokeToken`: set `revoked` on every row with this hash;
no row matching is not an error. -/
def RevokeToken (db : DB) (fault : Option GoError) (tokenHash : String) :
    DB × Option GoError :=
  match fault with
  | some err => (db, some err)
  | none =>
    ({ db with
        refresh_tokens := db.refresh_tokens.map
          (fun row => if row.TokenHash = tokenHash then { row with Revoked := true } else row) },
      none)

/-- The method `TokenRepository.IsTokenValid`; `now` is its clock reading. -/
def IsTokenValid (db : DB) (fault : Option GoError) (now : Int) (tokenHash : String) :
    Except GoError Bool :=
  match fault with
  | some err => if err = .recordNotFound then .ok false else .error err
  | none =>
    match firstByID (db.refresh_tokens.filter
        (fun row => row.TokenHash = tokenHash ∧ row.Revoked = false ∧ row.ExpiresAt > now)) with
    | none => .ok false
    | some _ => .ok true

end TokenRepository

/-- The row the update of `RevokeToken` turns a row into. -/
def revokeRow (tokenHash : String) (row : RefreshTokenRow) : RefreshTokenRow :=
  if row.TokenHash = tokenHash then { row with Revoked := true } else row

/-! ## internal/service/auth_service.go -/

/-- The type `AuthService`; both repositories share the one database. -/
structure AuthService where
  jwtManager : JWTManager
  deriving DecidableEq, Repr

/-- What one call of `AuthService.RefreshToken` reads from outside, in program order. -/
structure RefreshEnv where
  /-- The driver error of the `GetByTokenHash` query. -/
  getFault : Option GoError := none
  /-- The clock reading of the expiry check. -/
  nowCheck : Int
  /-- The driver error of `RevokeToken` on the expired branch. -/
  revokeExpiredFault : Option GoError := none
  /-- The two clock readings of `GenerateAccessToken`. -/
  nowAccess : Int
  nowIssued : Int
  /-- The outcome of `rand.Read` in `GenerateRefreshToken`. -/
  randRefresh : Except GoError (List Byte)
  /-- The driver error of `RevokeToken` on the rotation branch. -/
  revokeFault : Option GoError := none
  /-- The clock reading and the random bytes of `GenerateUUIDv7`. -/
  uuidNow : Int
  uuidRand : List Byte
  uuidRandRest : List Byte
  /-- The clock reading for the new `ExpiresAt`. -/
  nowExpires : Int
  /-- The driver error of `Create` and the clock reading GORM takes for `CreatedAt`. -/
  createFault : Option GoError := none
  nowCreate : Int

/-- The method `AuthService.RefreshToken`: the result and the database afterwards. -/
def AuthService.RefreshToken (lib : jwt.Lib) (sum256 : Sum256) (s : AuthService)
    (env : RefreshEnv) (db : DB) (req : RefreshRequest) :
    Except GoError LoginResponse × DB :=
  let tokenHash := HashRefreshToken sum256 req.RefreshToken
  match TokenRepository.GetByTokenHash db env.getFault tokenHash with
  | .error err =>
    if err.isRecordNotFound then (.error (.errorf constants.MsgInvalidToken), db)
    else (.error (.wrapf "error getting refresh token" err), db)
  | .ok refreshToken =>
    if time.After env.nowCheck refreshToken.ExpiresAt then
      let revoked := TokenRepository.RevokeToken db env.revokeExpiredFault tokenHash
      (.error (.errorf constants.MsgTokenExpired), revoked.1)
    else
      match s.jwtManager.GenerateAccessToken lib env.nowAccess env.nowIssued
          refreshToken.User.ID refreshToken.User.Username with
      | .error err => (.error (.wrapf "error generating access token" err), db)
      | .ok (accessToken, expiresAt) =>
        match GenerateRefreshToken env.randRefresh with
        | .error err => (.error (.wrapf "error generating refresh token" err), db)
        | .ok newRefreshTokenStr =>
          let newRefreshTokenHash := HashRefreshToken sum256 newRefreshTokenStr
          match TokenRepository.RevokeToken db env.revokeFault tokenHash with
          | (db1, some err) => (.error (.wrapf "error revoking old refresh token" err), db1)
          | (db1, none) =>
            let newRefreshToken : Authorization.RefreshToken :=
              { ID := GenerateUUIDv7 env.uuidNow env.uuidRand env.uuidRandRest
                UserID := refreshToken.User.ID
                TokenHash := newRefreshTokenHash
                ExpiresAt := time.Add env.nowExpires s.jwtManager.GetRefreshTokenExpiration }
            match TokenRepository.Create db1 env.createFault env.nowCreate newRefreshToken with
            | (db2, some err) => (.error (.wrapf "error saving refresh token" err), db2)
            | (db2, none) =>
              (.ok
                { AccessToken := accessToken
                  RefreshToken := newRefreshTokenStr
                  ExpiresAt := expiresAt
                  User :=
                    { ID := refreshToken.User.ID
                      Username := refreshToken.User.Username
                      Email := refreshToken.User.Email
                      CreatedAt := refreshToken.User.CreatedAt } },
                db2)

/-- The method `AuthService.Logout`; `fault` is the driver error of its `RevokeToken`. -/
def AuthService.Logout (sum256 : Sum256) (_s : AuthService) (fault : Option GoError)
    (db : DB) (refreshToken : String) : DB × Option GoError :=
  let tokenHash := HashRefreshToken sum256 refreshToken
  TokenRepository.RevokeToken db fault tokenHash

/-! ## internal/store/user_repo.go and the rest of internal/dto

As in token_repo.go, each method takes the error the driver reports for its statement. -/

namespace constants

/-- Further messages of errors.go. -/
def MsgUserAlreadyExists : String := "User already exists"
def MsgRegisterSuccess : String := "User registered successfully"

end constants

/-- The type `dto.RegisterRequest`. -/
structure RegisterRequest where
  Username : String
  Email : String
  Password : String
  deriving DecidableEq, Repr

/-- The type `dto.LoginRequest`. -/
structure LoginRequest where
  Username : String
  Password : String
  deriving DecidableEq, Repr

/-- The type `dto.RegisterResponse`. -/
structure RegisterResponse where
  Message : String
  User : UserInfo
  deriving DecidableEq, Repr

/-- The row `First` returns from the user rows a query matches: least primary key. -/
def firstUserByID : List User → Option User
  | [] => none
  | row :: rows =>
    match firstUserByID rows with
    | none => some row
    | some best => if best.ID.toList < row.ID.toList then some best else some row

/-- The declared constraints of `users`: the primary key is unique, and among the rows
with `is_deleted = false` so are the username and the email (the two partial unique
indexes of the model tags). -/
def DB.UserKeysUnique (db : DB) : Prop :=
  db.users.Pairwise (fun a b => a.ID ≠ b.ID ∧
    (a.IsDeleted = false → b.IsDeleted = false →
      a.Username ≠ b.Username ∧ a.Email ≠ b.Email))

namespace UserRepository

/-- The method `UserRepository.Create`. The `BeforeCreate` hook of `BaseModel` gives an
empty `ID` the value `hookID` (the `uuid.New().String()` it draws); GORM fills a zero
`CreatedAt` and `UpdatedAt` with its clock reading `now`; the insert is refused when the
primary key is taken or, for a row that is not deleted, when a row that is not deleted
has the username or the email. The struct is returned as the call leaves it. -/
def Create (db : DB) (fault : Option GoError) (hookID : String) (now : Int) (user : User) :
    (DB × User) × Option GoError :=
  let user1 : User :=
    { user with
      ID := if user.ID = "" then hookID else user.ID
      CreatedAt := if user.CreatedAt = time.zero then now else user.CreatedAt
      UpdatedAt := if user.UpdatedAt = time.zero then now else user.UpdatedAt }
  match fault with
  | some err => ((db, user1), some err)
  | none =>
    if db.users.any (fun row => row.ID = user1.ID ∨
        (user1.IsDeleted = false ∧ row.IsDeleted = false ∧
          (row.Username = user1.Username ∨ row.Email = user1.Email)))
    then ((db, user1), some .duplicateKey)
    else (({ db with users := db.users ++ [user1] }, user1), none)

/-- The method `UserRepository.GetByUsername`. -/
def GetByUsername (db : DB) (fault : Option GoError) (username : String) :
    Except GoError User :=
  match fault with
  | some err => .error err
  | none =>
    match firstUserByID (db.users.filter
        (fun row => row.Username = username ∧ row.IsDeleted = false)) with
    | none => .error .recordNotFound
    | some row => .ok row

/-- The method `UserRepository.ExistsByUsername`: `count > 0` and the error. -/
def ExistsByUsername (db : DB) (fault : Option GoError) (username : String) :
    Bool × Option GoError :=
  match fault with
  | some err => (false, some err)
  | none =>
    (decide ((db.users.filter
      (fun row => row.Username = username ∧ row.IsDeleted = false)).length > 0), none)

/-- The method `UserRepository.ExistsByEmail`: `count > 0` and the error. -/
def ExistsByEmail (db : DB) (fault : Option GoError) (email : String) :
    Bool × Option GoError :=
  match fault with
  | some err => (false, some err)
  | none =>
    (decide ((db.users.filter
      (fun row => row.Email = email ∧ row.IsDeleted = false)).length > 0), none)

end UserRepository

/-! ## internal/service/auth_service.go: Register and Login -/

/-- What one call of `AuthService.Register` reads from outside, in program order. -/
structure RegisterEnv where
  /-- The driver errors of the two existence queries. -/
  existsUsernameFault : Option GoError := none
  existsEmailFault : Option GoError := none
  /-- The outcome of `rand.Read(salt)` in `HashPassword`. -/
  randSalt : Except GoError (List Byte)
  /-- The clock reading and the random bytes of `GenerateUUIDv7`. -/
  uuidNow : Int
  uuidRand : List Byte
  uuidRandRest : List Byte
  /-- The driver error of `Create`, the identifier the `BeforeCreate` hook would draw and
  the clock reading GORM takes for the timestamps. -/
  createFault : Option GoError := none
  hookID : String
  nowCreate : Int

/-- The method `AuthService.Register`: the result and the database afterwards. -/
def AuthService.Register (idKey : IDKey) (_s : AuthService) (env : RegisterEnv) (db : DB)
    (req : RegisterRequest) : Except GoError RegisterResponse × DB :=
  match UserRepository.ExistsByUsername db env.existsUsernameFault req.Username with
  | (_, some err) => (.error (.wrapf "error checking username" err), db)
  | (true, none) => (.error (.errorf constants.MsgUserAlreadyExists), db)
  | (false, none) =>
    match UserRepository.ExistsByEmail db env.existsEmailFault req.Email with
    | (_, some err) => (.error (.wrapf "error checking email" err), db)
    | (true, none) => (.error (.errorf "email already exists"), db)
    | (false, none) =>
      match HashPassword idKey env.randSalt req.Password with
      | .error err => (.error (.wrapf "error hashing password" err), db)
      | .ok passwordHash =>
        let user0 : User :=
          { Username := req.Username
            Email := req.Email
            PasswordHash := passwordHash }
        let user : User :=
          { user0 with ID := GenerateUUIDv7 env.uuidNow env.uuidRand env.uuidRandRest }
        match UserRepository.Create db env.createFault env.hookID env.nowCreate user with
        | ((db1, _), some err) => (.error (.wrapf "error creating user" err), db1)
        | ((db1, user1), none) =>
          (.ok
            { Message := constants.MsgRegisterSuccess
              User :=
                { ID := user1.ID
                  Username := user1.Username
                  Email := user1.Email
                  CreatedAt := user1.CreatedAt } },
            db1)

/-- What one call of `AuthService.Login` reads from outside, in program order. -/
structure LoginEnv where
  /-- The driver error of the `GetByUsername` query. -/
  getUserFault : Option GoError := none
  /-- The two clock readings of `GenerateAccessToken`. -/
  nowAccess : Int
  nowIssued : Int
  /-- The outcome of `rand.Read` in `GenerateRefreshToken`. -/
  randRefresh : Except GoError (List Byte)
  /-- The clock reading and the random bytes of `GenerateUUIDv7`. -/
  uuidNow : Int
  uuidRand : List Byte
  uuidRandRest : List Byte
  /-- The clock reading for `ExpiresAt`. -/
  nowExpires : Int
  /-- The driver error of `Create` and the clock reading GORM takes for `CreatedAt`. -/
  createFault : Option GoError := none
  nowCreate : Int

/-- The method `AuthService.Login`: the result and the database afterwards. -/
def AuthService.Login (idKey : IDKey) (lib : jwt.Lib) (sum256 : Sum256) (s : AuthService)
    (env : LoginEnv) (db : DB) (req : LoginRequest) : Except GoError LoginResponse × DB :=
  match UserRepository.GetByUsername db env.getUserFault req.Username with
  | .error err =>
    if err.isRecordNotFound then (.error (.errorf constants.MsgInvalidCredentials), db)
    else (.error (.wrapf "error getting user" err), db)
  | .ok user =>
    match VerifyPassword idKey req.Password user.PasswordHash with
    | .error err => (.error (.wrapf "error verifying password" err), db)
    | .ok valid =>
      if !valid then (.error (.errorf constants.MsgInvalidCredentials), db)
      else
        match s.jwtManager.GenerateAccessToken lib env.nowAccess env.nowIssued
            user.ID user.Username with
        | .error err => (.error (.wrapf "error generating access token" err), db)
        | .ok (accessToken, expiresAt) =>
          match GenerateRefreshToken env.randRefresh with
          | .error err => (.error (.wrapf "error generating refresh token" err), db)
          | .ok refreshTokenStr =>
            let refreshTokenHash := HashRefreshToken sum256 refreshTokenStr
            let refreshToken : Authorization.RefreshToken :=
              { ID := GenerateUUIDv7 env.uuidNow env.uuidRand env.uuidRandRest
                UserID := user.ID
                TokenHash := refreshTokenHash
                ExpiresAt := time.Add env.nowExpires s.jwtManager.GetRefreshTokenExpiration }
            match TokenRepository.Create db env.createFault env.nowCreate refreshToken with
            | (db1, some err) => (.error (.wrapf "error saving refresh token" err), db1)
            | (db1, none) =>
              (.ok
                { AccessToken := accessToken
                  RefreshToken := refreshTokenStr
                  ExpiresAt := expiresAt
                  User :=
                    { ID := user.ID
                      Username := user.Username
                      Email := user.Email
                      CreatedAt := user.CreatedAt } },
                db1)

/-! ## Sequences of calls and the states a rotation goes through -/

/-- One call of a service operation together with what it reads from outside. -/
inductive Call where
  | register (env : RegisterEnv) (req : RegisterRequest)
  | login (env : LoginEnv) (req : LoginRequest)
  | refresh (env : RefreshEnv) (req : RefreshRequest)
  | logout (fault : Option GoError) (refreshToken : String)

/-- The database after one call. -/
def AuthService.call (idKey : IDKey) (lib : jwt.Lib) (sum256 : Sum256) (s : AuthService)
    (db : DB) : Call → DB
  | .register env req => (s.Register idKey env db req).2
  | .login env req => (s.Login idKey lib sum256 env db req).2
  | .refresh env req => (s.RefreshToken lib sum256 env db req).2
  | .logout fault refreshToken => (s.Logout sum256 fault db refreshToken).1

/-- The database after a sequence of calls, one after the other. -/
def AuthService.calls (idKey : IDKey) (lib : jwt.Lib) (sum256 : Sum256) (s : AuthService)
    (db : DB) (cs : List Call) : DB :=
  cs.foldl (s.call idKey lib sum256) db

/-- A record as it may be found later: unchanged, or with `revoked` set. -/
def RowKept (before after : RefreshTokenRow) : Prop :=
  after = before ∨ after = { before with Revoked := true }

/-- A later table keeps an earlier one: every earlier record is still there, in its
place, unchanged or with `revoked` set, followed by the records added since. -/
def RowsKept (before after : List RefreshTokenRow) : Prop :=
  ∃ kept added, after = kept ++ added ∧ List.Forall₂ RowKept before kept

/-- The successive contents of the database during one call of
`AuthService.RefreshToken`: the initial one, then the one after each statement of the
call that writes (the `RevokeToken` of either branch, the `Create`). -/
def AuthService.RefreshTokenStates (lib : jwt.Lib) (sum256 : Sum256) (s : AuthService)
    (env : RefreshEnv) (db : DB) (req : RefreshRequest) : List DB :=
  let tokenHash := HashRefreshToken sum256 req.RefreshToken
  match TokenRepository.GetByTokenHash db env.getFault tokenHash with
  | .error _ => [db]
  | .ok refreshToken =>
    if time.After env.nowCheck refreshToken.ExpiresAt then
      [db, (TokenRepository.RevokeToken db env.revokeExpiredFault tokenHash).1]
    else
      match s.jwtManager.GenerateAccessToken lib env.nowAccess env.nowIssued
          refreshToken.User.ID refreshToken.User.Username with
      | .error _ => [db]
      | .ok _ =>
        match GenerateRefreshToken env.randRefresh with
        | .error _ => [db]
        | .ok newRefreshTokenStr =>
          let newRefreshTokenHash := HashRefreshToken sum256 newRefreshTokenStr
          match TokenRepository.RevokeToken db env.revokeFault tokenHash with
          | (db1, some _) => [db, db1]
          | (db1, none) =>
            let newRefreshToken : Authorization.RefreshToken :=
              { ID := GenerateUUIDv7 env.uuidNow env.uuidRand env.uuidRandRest
                UserID := refreshToken.User.ID
                TokenHash := newRefreshTokenHash
                ExpiresAt := time.Add env.nowExpires s.jwtManager.GetRefreshTokenExpiration }
            [db, db1,
              (TokenRepository.Create db1 env.createFault env.nowCreate newRefreshToken).1]

/-! ## internal/utils/hash.go: the comparison loop with its comparisons counted -/

/-- The loop of `compareLoop` together with the number of times it evaluates
`hash[i] != comparisonHash[i]`. -/
def compareLoopCount : List Byte → List Byte → Bool × Nat
  | h :: hash, c :: comparisonHash =>
    if h ≠ c then (false, 1)
    else ((compareLoopCount hash comparisonHash).1, (compareLoopCount hash comparisonHash).2 + 1)
  | _, _ => (true, 0)

/-- The function `VerifyPassword` together with the number of byte comparisons it makes
(none on the paths that return before the loop). -/
def VerifyPasswordCount (idKey : IDKey) (password encodedHash : String) :
    Except GoError (Bool × Nat) :=
  match base64.DecodeString encodedHash with
  | .error err => .error err
  | .ok combined =>
    if combined.length ≠ saltLen + argonKeyLen then
      .error (.errorf "invalid hash format")
    else
      let salt := combined.take saltLen
      let hash := combined.drop saltLen
      let comparisonHash :=
        idKey (bytesOf password) salt argonTime argonMemory argonThreads argonKeyLen
      if hash.length ≠ comparisonHash.length then .ok (false, 0)
      else .ok (compareLoopCount hash comparisonHash)

/-! ## strings -/

namespace strings

/-- Whether `substr` occurs in `s` at some position. -/
def containsChars : List Char → List Char → Bool
  | [], substr => substr.isPrefixOf []
  | c :: s, substr => substr.isPrefixOf (c :: s) || containsChars s substr

/-- The function `strings.Contains`. -/
def Contains (s substr : String) : Bool := containsChars s.toList substr.toList

end strings

/-! ## internal/config/config.go -/

namespace config

/-- The type `DatabaseConfig`. -/
structure DatabaseConfig where
  Host : String
  Port : Int
  User : String
  Password : String
  Name : String
  URL : String
  deriving DecidableEq, Repr

/-- The type `JWTConfig`. -/
structure JWTConfig where
  Secret : String
  AccessTokenExp : Int
  RefreshTokenExp : Int
  deriving DecidableEq, Repr

/-- The type `Config`. -/
structure Config where
  AppEnv : String
  Port : String
  Database : DatabaseConfig
  JWT : JWTConfig
  deriving DecidableEq, Repr

/-- The environment of the process: the value of each variable that is set. -/
abbrev Environ := String → Option String

/-- The function `os.Getenv`: the empty string for a variable that is not set. -/
def Getenv (env : Environ) (key : String) : String := (env key).getD ""

/-- The function `godotenv.Load()`: when the file `.env` can be read (`dotenv` is its
parsed content), each of its variables that the process environment does not have is
set; variables that are set, even to the empty string, are kept. Its error is ignored. -/
def godotenvLoad (dotenv : Option (String → Option String)) (env : Environ) : Environ :=
  match dotenv with
  | none => env
  | some file => fun key =>
    match env key with
    | some v => some v
    | none => file key

/-- The function `getEnv`. -/
def getEnv (env : Environ) (key defaultValue : String) : String :=
  if Getenv env key ≠ "" then Getenv env key else defaultValue

/-- The function `Load`. `Atoi` and `ParseDuration` are `strconv.Atoi` and
`time.ParseDuration`; `dotenv` and `procEnv` are the file `.env` and the environment the
process starts with. -/
def Load (Atoi ParseDuration : String → Except GoError Int)
    (dotenv : Option (String → Option String)) (procEnv : Environ) :
    Except GoError Config :=
  let env := godotenvLoad dotenv procEnv
  match Atoi (getEnv env "DB_PORT" "5432") with
  | .error err => .error (.wrapf "invalid DB_PORT" err)
  | .ok dbPort =>
    match ParseDuration (getEnv env "ACCESS_TOKEN_EXP" "15m") with
    | .error err => .error (.wrapf "invalid ACCESS_TOKEN_EXP" err)
    | .ok accessTokenExp =>
      match ParseDuration (getEnv env "REFRESH_TOKEN_EXP" "168h") with
      | .error err => .error (.wrapf "invalid REFRESH_TOKEN_EXP" err)
      | .ok refreshTokenExp =>
        let cfg : Config :=
          { AppEnv := getEnv env "APP_ENV" "development"
            Port := getEnv env "PORT" "8080"
            Database :=
              { Host := getEnv env "DB_HOST" "localhost"
                Port := dbPort
                User := getEnv env "DB_USER" "postgres"
                Password := getEnv env "DB_PASS" "postgres"
                Name := getEnv env "DB_NAME" "go_login"
                URL := getEnv env "DATABASE_URL" "" }
            JWT :=
              { Secret := getEnv env "JWT_SECRET" ""
                AccessTokenExp := accessTokenExp
                RefreshTokenExp := refreshTokenExp } }
        if cfg.Database.URL = "" then .error (.errorf "DATABASE_URL is required")
        else if cfg.JWT.Secret = "" then .error (.errorf "JWT_SECRET is required")
        else .ok cfg

end config

/-! ## encoding/hex: decoding -/

namespace hex

/-- The entry `reverseHexTable[c]` for a hex digit of either case; `none` stands for an
entry above `0x0f`. -/
def fromHexChar (c : Char) : Option Nat :=
  let i := "0123456789abcdef".toList.indexOf c
  let j := "0123456789ABCDEF".toList.indexOf c
  if i < 16 then some i else if j < 16 then some j else none

/-- The loop of `hex.Decode`: two digits give one byte; an invalid digit or a digit left
over is an error. -/
def decodeChars : List Char → Option (List Byte)
  | [] => some []
  | [_] => none
  | p :: q :: rest =>
    match fromHexChar p, fromHexChar q with
    | some a, some b =>
      match decodeChars rest with
      | some bs => some (UInt8.ofNat (a * 16 + b) :: bs)
      | none => none
    | _, _ => none

/-- The function `hex.DecodeString`. -/
def DecodeString (s : String) : Except GoError (List Byte) :=
  match decodeChars s.toList with
  | some bs => .ok bs
  | none => .error (.external "encoding/hex: invalid byte or odd length hex string")

end hex

/-! ## The text of an error -/

/-- The method `err.Error()`. `text` gives the message of the errors whose wording a
library or the database driver chooses (`base64.CorruptInputError`, a constraint
violation, a golang-jwt validation error). -/
def GoError.Error (text : GoError → String) : GoError → String
  | .errorf msg => msg
  | .wrapf msg cause => msg ++ ": " ++ cause.Error text
  | .recordNotFound => "record not found"
  | .external msg => msg
  | .corruptInput => text .corruptInput
  | .duplicateKey => text .duplicateKey
  | .jwt kinds => text (.jwt kinds)

/-! ## internal/pkg/response and internal/handler/auth_handler.go -/

namespace constants

/-- The message errors.go keeps for internal failures. -/
def MsgInternalError : String := "Internal server error"

end constants

namespace http

/-- The status codes of net/http that the handler uses. -/
def StatusOK : Nat := 200
def StatusBadRequest : Nat := 400
def StatusUnauthorized : Nat := 401
def StatusInternalServerError : Nat := 500

end http

/-- The type `dto.ErrorResponse`, without the optional details. -/
structure ErrorResponse where
  Error : String
  Code : String
  deriving DecidableEq, Repr

/-- What a handler hands to `response.JSON` as data. -/
inductive ResponseData where
  | error (e : ErrorResponse)
  | login (resp : LoginResponse)
  deriving DecidableEq, Repr

/-- What a handler writes to the `http.ResponseWriter`: the status code and the data that
is encoded as the body. -/
structure HTTPResponse where
  StatusCode : Nat
  Data : ResponseData
  deriving DecidableEq, Repr

namespace response

/-- The function `response.JSON`. -/
def JSON (statusCode : Nat) (data : ResponseData) : HTTPResponse :=
  { StatusCode := statusCode, Data := data }

/-- The function `response.Success`. -/
def Success (data : ResponseData) : HTTPResponse := JSON http.StatusOK data

/-- The function `response.Error`. -/
def Error (statusCode : Nat) (code message : String) : HTTPResponse :=
  JSON statusCode (.error { Error := message, Code := code })

/-- The function `response.BadRequest`. -/
def BadRequest (message : String) : HTTPResponse :=
  Error http.StatusBadRequest "BAD_REQUEST" message

/-- The function `response.Unauthorized`. -/
def Unauthorized (message : String) : HTTPResponse :=
  Error http.StatusUnauthorized "UNAUTHORIZED" message

/-- The function `response.InternalError`. -/
def InternalError (message : String) : HTTPResponse :=
  Error http.StatusInternalServerError "INTERNAL_ERROR" message

end response

/-- The type `AuthHandler`. -/
structure AuthHandler where
  authService : AuthService
  deriving DecidableEq, Repr

/-- The method `AuthHandler.RefreshToken`: the response written and the database
afterwards. `decoded` is what `json.NewDecoder(r.Body).Decode(&req)` made of the body. -/
def AuthHandler.RefreshToken (text : GoError → String) (lib : jwt.Lib) (sum256 : Sum256)
    (h : AuthHandler) (decoded : Except GoError RefreshRequest) (env : RefreshEnv)
    (db : DB) : HTTPResponse × DB :=
  match decoded with
  | .error _ => (response.BadRequest "Invalid request body", db)
  | .ok req =>
    if req.RefreshToken = "" then (response.BadRequest "Refresh token is required", db)
    else
      match h.authService.RefreshToken lib sum256 env db req with
      | (.error err, db1) =>
        if strings.Contains (err.Error text) "invalid" ||
            strings.Contains (err.Error text) "expired" then
          (response.Unauthorized (err.Error text), db1)
        else (response.InternalError constants.MsgInternalError, db1)
      | (.ok resp, db1) => (response.Success (.login resp), db1)

/-! ## Concrete instances used in examples -/

/-- A stand-in for `argon2.IDKey` that meets its length contract. -/
def zeroKey : IDKey := fun _ _ _ _ _ keyLen => List.replicate keyLen 0

/-- A stand-in for the HMAC and the codec of golang-jwt: the tag is the key followed by
the message, the signing string is the bytes of the header algorithm. -/
def sampleLib : jwt.Lib :=
  { hmac := fun _ key msg => key ++ msg
    SigningString := fun alg _ => bytesOf alg }

/-- A manager with a 15-minute access-token lifetime and a 7-day refresh-token lifetime,
as in the tests of the service. -/
def sampleManager : JWTManager :=
  { secret := "test-secret"
    accessTokenExp := 15 * 60 * time.Second
    refreshTokenExp := 7 * 24 * 3600 * time.Second }

/-- A stand-in for `sha256.Sum256`: the identity. -/
def sampleSum256 : Sum256 := fun b => b

/-- The service of the tests. -/
def sampleService : AuthService := { jwtManager := sampleManager }

/-- A database with one user and one refresh token of hers that is not revoked and
expires at the instant 100. -/
def sampleDB : DB :=
  { users := [{ ID := "u1", Username := "alice", Email := "alice@x.com" }]
    refresh_tokens :=
      [{ ID := "t1", UserID := "u1", TokenHash := HashRefreshToken sampleSum256 "raw",
         ExpiresAt := 100, CreatedAt := 0, Revoked := false }] }

/-- A call environment without failures whose clock reads `now` throughout. -/
def sampleEnv (now : Int) : RefreshEnv :=
  { nowCheck := now
    nowAccess := now
    nowIssued := now
    randRefresh := .ok [1, 2, 3]
    uuidNow := now
    uuidRand := [0, 0]
    uuidRandRest := [1, 2, 3, 4, 5, 6, 7]
    nowExpires := now
    nowCreate := now }

/-- A stand-in for `argon2.IDKey` that meets its length contract and depends on the
password: the first `keyLen` bytes of password, salt and padding. -/
def sampleKey : IDKey :=
  fun password salt _ _ _ keyLen => (password ++ salt ++ List.replicate keyLen 0).take keyLen

/-- A salt of `saltLen` bytes. -/
def sampleSalt : List Byte := List.replicate 16 7

/-- The encoded hash `HashPassword` gives the password `secret1` with `sampleSalt`. -/
def sampleHash : String :=
  base64.EncodeToString (sampleSalt ++
    sampleKey (bytesOf "secret1") sampleSalt argonTime argonMemory argonThreads argonKeyLen)

/-- A database with the user `alice`, registered with the password `secret1`, and no
refresh token. -/
def sampleCredDB : DB :=
  { users := [{ ID := "u1", Username := "alice", Email := "alice@x.com",
                PasswordHash := sampleHash }]
    refresh_tokens := [] }

/-- A `Login` environment without failures whose clock reads `now` throughout. -/
def sampleLoginEnv (now : Int) : LoginEnv :=
  { nowAccess := now
    nowIssued := now
    randRefresh := .ok (List.replicate 32 9)
    uuidNow := now
    uuidRand := [0, 0]
    uuidRandRest := [1, 2, 3, 4, 5, 6, 7]
    nowExpires := now
    nowCreate := now }

/-- A `Register` environment without failures whose clock reads `now` throughout. -/
def sampleRegisterEnv (now : Int) : RegisterEnv :=
  { randSalt := .ok sampleSalt
    uuidNow := now
    uuidRand := [0, 0]
    uuidRandRest := [1, 2, 3, 4, 5, 6, 7]
    hookID := "hook"
    nowCreate := now }

/-- The sample environment with the insert of the rotation failing at the driver. -/
def sampleEnvCreateFails (now : Int) : RefreshEnv :=
  { sampleEnv now with createFault := some (.external "connection lost") }

/-- A process environment in which only `DATABASE_URL` is set. -/
def sampleEnviron : config.Environ :=
  fun key => if key = "DATABASE_URL" then some "postgres://localhost/go_login" else none

/-- A stand-in for `strconv.Atoi` and `time.ParseDuration` that accepts every string. -/
def sampleParse : String → Except GoError Int := fun _ => .ok 0

/-- The handler of the tests' service. -/
def sampleHandler : AuthHandler := { authService := sampleService }

/-- A stand-in for the wording of library and driver errors. -/
def sampleText : GoError → String := fun _ => "driver error"

/-- A stand-in for `sha256.Sum256` that returns 32 bytes and depends on its input: the
first 32 bytes of input and padding. -/
def sampleSum32 : Sum256 := fun b => (b ++ List.replicate 32 0).take 32

/-! ## Theorems: base64 -/

namespace base64

theorem decodeChar_encodeChar (v : Nat) : decodeChar (encodeChar v) = some (v % 64) := by
  have h : ∀ i : Fin 64, decodeChar (encodeStd.getD i.val 'A') = some i.val := by decide
  exact h ⟨v % 64, Nat.mod_lt _ (by decide)⟩

theorem encodeChar_ne_pad (v : Nat) : encodeChar v ≠ padChar := by
  have h : ∀ i : Fin 64, encodeStd.getD i.val 'A' ≠ padChar := by decide
  exact h ⟨v % 64, Nat.mod_lt _ (by decide)⟩

theorem encodeChar_keep (v : Nat) : encodeChar v ≠ '\n' ∧ encodeChar v ≠ '\r' := by
  have h : ∀ i : Fin 64, encodeStd.getD i.val 'A' ≠ '\n' ∧ encodeStd.getD i.val 'A' ≠ '\r' := by
    decide
  exact h ⟨v % 64, Nat.mod_lt _ (by decide)⟩

theorem ofNat_toNat (a : Byte) : UInt8.ofNat a.toNat = a := by
  cases a with
  | mk v => simp [UInt8.ofNat, UInt8.toNat, Fin.ofNat]

theorem ofNat_mod (n : Nat) : UInt8.ofNat (n % 256) = UInt8.ofNat n := by
  unfold UInt8.ofNat
  congr 1
  apply BitVec.eq_of_toNat_eq
  simp

theorem toNat_lt (a : Byte) : a.toNat < 256 := UInt8.toNat_lt_size a

/-- A full group of three bytes survives encoding to sextets and reassembly. -/
theorem group3 (a b c : Byte) :
    let val := a.toNat * 65536 + b.toNat * 256 + c.toNat
    let val2 := (val / 262144 % 64) * 262144 + (val / 4096 % 64) * 4096
      + (val / 64 % 64) * 64 + val % 64
    UInt8.ofNat (val2 / 65536) = a ∧ UInt8.ofNat (val2 / 256) = b ∧ UInt8.ofNat val2 = c := by
  intro val val2
  have ha := toNat_lt a
  have hb := toNat_lt b
  have hc := toNat_lt c
  have hv : val2 = val := by omega
  have h1 : val / 65536 = a.toNat := by omega
  have h2 : val / 256 % 256 = b.toNat := by omega
  have h3 : val % 256 = c.toNat := by omega
  refine ⟨?_, ?_, ?_⟩
  · rw [hv, h1, ofNat_toNat]
  · rw [hv, ← ofNat_mod, h2, ofNat_toNat]
  · rw [hv, ← ofNat_mod, h3, ofNat_toNat]

/-- A final group of two bytes survives encoding to three sextets and reassembly. -/
theorem group2 (a b : Byte) :
    let val := a.toNat * 65536 + b.toNat * 256
    let val2 := (val / 262144 % 64) * 262144 + (val / 4096 % 64) * 4096 + (val / 64 % 64) * 64
    UInt8.ofNat (val2 / 65536) = a ∧ UInt8.ofNat (val2 / 256) = b := by
  intro val val2
  have ha := toNat_lt a
  have hb := toNat_lt b
  have hv : val2 = val := by omega
  have h1 : val / 65536 = a.toNat := by omega
  have h2 : val / 256 % 256 = b.toNat := by omega
  refine ⟨?_, ?_⟩
  · rw [hv, h1, ofNat_toNat]
  · rw [hv, ← ofNat_mod, h2, ofNat_toNat]

/-- A final group of one byte survives encoding to two sextets and reassembly. -/
theorem group1 (a : Byte) :
    let val := a.toNat * 65536
    let val2 := (val / 262144 % 64) * 262144 + (val / 4096 % 64) * 4096
    UInt8.ofNat (val2 / 65536) = a := by
  intro val val2
  have ha := toNat_lt a
  have h1 : val2 / 65536 = a.toNat := by omega
  rw [h1, ofNat_toNat]

/-- Decoding undoes encoding, group by group. -/
theorem decodeChars_encodeChars : ∀ bs : List Byte, decodeChars (encodeChars bs) = some bs
  | [] => by simp [encodeChars, decodeChars]
  | [a] => by
    have h := group1 a
    simp only [encodeChars, decodeChars, decodeChar_encodeChar, encodeChar_ne_pad]
    simpa using h
  | [a, b] => by
    have h := group2 a b
    simp only [encodeChars, decodeChars, decodeChar_encodeChar, encodeChar_ne_pad]
    simpa using h
  | a :: b :: c :: rest => by
    have ih := decodeChars_encodeChars rest
    have h := group3 a b c
    simp only [encodeChars, decodeChars, decodeChar_encodeChar, encodeChar_ne_pad, ih]
    simpa using h

/-- Encoding never writes a carriage return or a line feed. -/
theorem filter_encodeChars : ∀ bs : List Byte,
    (encodeChars bs).filter (fun c => c ≠ '\n' ∧ c ≠ '\r') = encodeChars bs
  | [] => by simp [encodeChars]
  | [a] => by
    have h1 := encodeChar_keep (a.toNat * 65536 / 262144)
    have h2 := encodeChar_keep (a.toNat * 65536 / 4096)
    simp [encodeChars, padChar, h1, h2]
  | [a, b] => by
    have h1 := encodeChar_keep ((a.toNat * 65536 + b.toNat * 256) / 262144)
    have h2 := encodeChar_keep ((a.toNat * 65536 + b.toNat * 256) / 4096)
    have h3 := encodeChar_keep ((a.toNat * 65536 + b.toNat * 256) / 64)
    simp [encodeChars, padChar, h1, h2, h3]
  | a :: b :: c :: rest => by
    have ih := filter_encodeChars rest
    have h1 := encodeChar_keep ((a.toNat * 65536 + b.toNat * 256 + c.toNat) / 262144)
    have h2 := encodeChar_keep ((a.toNat * 65536 + b.toNat * 256 + c.toNat) / 4096)
    have h3 := encodeChar_keep ((a.toNat * 65536 + b.toNat * 256 + c.toNat) / 64)
    have h4 := encodeChar_keep (a.toNat * 65536 + b.toNat * 256 + c.toNat)
    have ih2 : ∀ x ∈ encodeChars rest, ¬x = '\n' ∧ ¬x = '\r' := by
      simpa [List.filter_eq_self] using ih
    simpa [encodeChars, h1, h2, h3, h4] using ih2

/-- The round trip `DecodeString (EncodeToString src) = src`. -/
theorem DecodeString_EncodeToString (src : List Byte) :
    DecodeString (EncodeToString src) = .ok src := by
  simp only [DecodeString, EncodeToString, String.toList]
  rw [filter_encodeChars, decodeChars_encodeChars]

/-- The only error of `DecodeString` is `CorruptInputError`. -/
theorem DecodeString_error {s : String} {e : GoError} (h : DecodeString s = .error e) :
    e = .corruptInput := by
  unfold DecodeString at h
  split at h
  · cases h
  · injection h with h
    exact h.symm

/-- The function `EncodeToString` is injective. -/
theorem EncodeToString_injective {x y : List Byte}
    (h : EncodeToString x = EncodeToString y) : x = y := by
  have hx := DecodeString_EncodeToString x
  rw [h, DecodeString_EncodeToString] at hx
  exact (Except.ok.inj hx).symm

end base64

/-! ## Theorems: internal/utils/hash.go -/

/-- On lists of equal length the comparison loop decides equality. -/
theorem compareLoop_eq_decide : ∀ (hash cmp : List Byte), hash.length = cmp.length →
    compareLoop hash cmp = decide (hash = cmp)
  | [], [], _ => by simp [compareLoop]
  | [], _ :: _, h => by simp at h
  | _ :: _, [], h => by simp at h
  | x :: xs, y :: ys, h => by
    have ih := compareLoop_eq_decide xs ys (by simpa using h)
    by_cases hxy : x = y
    · simp [compareLoop, hxy, ih]
    · simp [compareLoop, hxy]

/-- What `VerifyPassword` returns once the encoded hash decodes to `saltLen + argonKeyLen`
bytes: whether the embedded key equals the key recomputed with the embedded salt. -/
theorem VerifyPassword_of_decoded (idKey : IDKey) (password encodedHash : String)
    (combined : List Byte) (hdec : base64.DecodeString encodedHash = .ok combined)
    (hlen : combined.length = saltLen + argonKeyLen) :
    VerifyPassword idKey password encodedHash =
      .ok (decide (combined.drop saltLen =
        idKey (bytesOf password) (combined.take saltLen)
          argonTime argonMemory argonThreads argonKeyLen)) := by
  unfold VerifyPassword
  rw [hdec]
  simp only [hlen, ne_eq, not_true_eq_false, if_false]
  by_cases hl : (combined.drop saltLen).length =
      (idKey (bytesOf password) (combined.take saltLen)
        argonTime argonMemory argonThreads argonKeyLen).length
  · simp only [hl, not_true_eq_false, if_false]
    rw [compareLoop_eq_decide _ _ hl]
  · have hne : combined.drop saltLen ≠
        idKey (bytesOf password) (combined.take saltLen)
          argonTime argonMemory argonThreads argonKeyLen := by
      intro h
      exact hl (by rw [h])
    rw [if_pos hl]
    simp [hne]

/-- What `HashPassword` returns for a drawn salt, and that the result verifies. -/
theorem HashPassword_verifies (idKey : IDKey) (hk : idKey.HasKeyLen) (password : String)
    (salt : List Byte) (hs : salt.length = saltLen) :
    let key := idKey (bytesOf password) salt argonTime argonMemory argonThreads argonKeyLen
    HashPassword idKey (.ok salt) password = .ok (base64.EncodeToString (salt ++ key)) ∧
    base64.DecodeString (base64.EncodeToString (salt ++ key)) = .ok (salt ++ key) ∧
    (salt ++ key).take saltLen = salt ∧ (salt ++ key).drop saltLen = key ∧
    VerifyPassword idKey password (base64.EncodeToString (salt ++ key)) = .ok true := by
  intro key
  have hkey : key.length = argonKeyLen := hk _ _ _ _ _ _
  have htake : (salt ++ key).take saltLen = salt := by
    rw [← hs]; exact List.take_left _ _
  have hdrop : (salt ++ key).drop saltLen = key := by
    rw [← hs]; exact List.drop_left _ _
  refine ⟨rfl, base64.DecodeString_EncodeToString _, htake, hdrop, ?_⟩
  rw [VerifyPassword_of_decoded idKey password _ (salt ++ key)
    (base64.DecodeString_EncodeToString _) (by simp [hs, hkey])]
  rw [htake, hdrop]
  simp [key]

/-- C1. For every password and every 16-byte salt drawn by `HashPassword`, the call
succeeds with an encoded hash that decodes to the salt followed by the derived key, the
key recomputed from the password and the embedded salt is the embedded key, and
`VerifyPassword` on the password and that hash returns `(true, nil)`. -/
theorem C1_verify_accepts_hashed_password (idKey : IDKey) (hk : idKey.HasKeyLen)
    (password : String) (salt : List Byte) (hs : salt.length = saltLen) :
    ∃ encoded combined,
      HashPassword idKey (.ok salt) password = .ok encoded ∧
      base64.DecodeString encoded = .ok combined ∧
      combined = salt ++
        idKey (bytesOf password) salt argonTime argonMemory argonThreads argonKeyLen ∧
      idKey (bytesOf password) (combined.take saltLen)
        argonTime argonMemory argonThreads argonKeyLen = combined.drop saltLen ∧
      VerifyPassword idKey password encoded = .ok true := by
  obtain ⟨h1, h2, h3, h4, h5⟩ := HashPassword_verifies idKey hk password salt hs
  refine ⟨_, _, h1, h2, rfl, ?_, h5⟩
  rw [h3, h4]

theorem zeroKey_hasKeyLen : IDKey.HasKeyLen zeroKey := by
  intro _ _ _ _ _ keyLen
  simp [zeroKey]

/-- C1 at a concrete password and salt. -/
theorem C1_verify_accepts_hashed_password_witness :
    IDKey.HasKeyLen zeroKey ∧ (List.replicate 16 (7 : Byte)).length = saltLen ∧
    ∃ encoded combined,
      HashPassword zeroKey (.ok (List.replicate 16 7)) "secret1" = .ok encoded ∧
      base64.DecodeString encoded = .ok combined ∧
      combined = List.replicate 16 7 ++
        zeroKey (bytesOf "secret1") (List.replicate 16 7)
          argonTime argonMemory argonThreads argonKeyLen ∧
      zeroKey (bytesOf "secret1") (combined.take saltLen)
        argonTime argonMemory argonThreads argonKeyLen = combined.drop saltLen ∧
      VerifyPassword zeroKey "secret1" encoded = .ok true :=
  ⟨zeroKey_hasKeyLen, by decide,
    C1_verify_accepts_hashed_password zeroKey zeroKey_hasKeyLen "secret1"
      (List.replicate 16 7) (by decide)⟩

/-- C2. `VerifyPassword` returns an error exactly when the encoded hash is not valid
base64 or decodes to a number of bytes other than `saltLen + argonKeyLen` (48); on every
encoded hash that decodes to 48 bytes it returns no error, and its boolean says whether
the embedded key equals the key recomputed from the password and the embedded salt, so it
is `false` whenever the two differ in any byte. -/
theorem C2_verify_error_iff_malformed (idKey : IDKey) (password encodedHash : String) :
    ((∃ err, VerifyPassword idKey password encodedHash = .error err) ↔
      (base64.DecodeString encodedHash = .error .corruptInput ∨
        ∃ combined, base64.DecodeString encodedHash = .ok combined ∧
          combined.length ≠ saltLen + argonKeyLen)) ∧
    (∀ combined, base64.DecodeString encodedHash = .ok combined →
      combined.length = saltLen + argonKeyLen →
      (∃ ok, VerifyPassword idKey password encodedHash = .ok ok) ∧
      (idKey (bytesOf password) (combined.take saltLen)
          argonTime argonMemory argonThreads argonKeyLen ≠ combined.drop saltLen →
        VerifyPassword idKey password encodedHash = .ok false) ∧
      (idKey (bytesOf password) (combined.take saltLen)
          argonTime argonMemory argonThreads argonKeyLen = combined.drop saltLen →
        VerifyPassword idKey password encodedHash = .ok true)) := by
  constructor
  · constructor
    · rintro ⟨err, herr⟩
      cases hdec : base64.DecodeString encodedHash with
      | error e =>
        left
        rw [base64.DecodeString_error hdec]
      | ok combined =>
        right
        refine ⟨combined, rfl, ?_⟩
        intro hlen
        rw [VerifyPassword_of_decoded idKey password encodedHash combined hdec hlen] at herr
        cases herr
    · rintro (hdec | ⟨combined, hdec, hlen⟩)
      · exact ⟨.corruptInput, by simp [VerifyPassword, hdec]⟩
      · exact ⟨.errorf "invalid hash format", by simp [VerifyPassword, hdec, hlen]⟩
  · intro combined hdec hlen
    have h := VerifyPassword_of_decoded idKey password encodedHash combined hdec hlen
    refine ⟨⟨_, h⟩, ?_, ?_⟩
    · intro hne
      rw [h]
      have : ¬ (combined.drop saltLen = idKey (bytesOf password) (combined.take saltLen)
          argonTime argonMemory argonThreads argonKeyLen) := fun e => hne e.symm
      simp [this]
    · intro heq
      rw [h]
      simp [heq]

/-- C3. For every password and every two different 16-byte salts, the two encoded outputs
of `HashPassword` differ, each is the base64 encoding of the 16 salt bytes followed by the
32 derived-key bytes, and both verify against the password. -/
theorem C3_distinct_salts_distinct_hashes (idKey : IDKey) (hk : idKey.HasKeyLen)
    (password : String) (s1 s2 : List Byte) (h1 : s1.length = saltLen)
    (h2 : s2.length = saltLen) (hne : s1 ≠ s2) :
    ∃ e1 e2 k1 k2,
      HashPassword idKey (.ok s1) password = .ok e1 ∧
      HashPassword idKey (.ok s2) password = .ok e2 ∧
      e1 ≠ e2 ∧
      e1 = base64.EncodeToString (s1 ++ k1) ∧ e2 = base64.EncodeToString (s2 ++ k2) ∧
      k1 = idKey (bytesOf password) s1 argonTime argonMemory argonThreads argonKeyLen ∧
      k2 = idKey (bytesOf password) s2 argonTime argonMemory argonThreads argonKeyLen ∧
      s1.length = 16 ∧ s2.length = 16 ∧ k1.length = 32 ∧ k2.length = 32 ∧
      VerifyPassword idKey password e1 = .ok true ∧
      VerifyPassword idKey password e2 = .ok true := by
  obtain ⟨a1, _, _, _, a5⟩ := HashPassword_verifies idKey hk password s1 h1
  obtain ⟨b1, _, _, _, b5⟩ := HashPassword_verifies idKey hk password s2 h2
  refine ⟨_, _, _, _, a1, b1, ?_, rfl, rfl, rfl, rfl, h1, h2, hk _ _ _ _ _ _,
    hk _ _ _ _ _ _, a5, b5⟩
  intro heq
  have hcomb := base64.EncodeToString_injective heq
  have := List.append_inj_left hcomb (by rw [h1, h2])
  exact hne this

/-- C3 at a concrete password and two concrete salts. -/
theorem C3_distinct_salts_distinct_hashes_witness :
    IDKey.HasKeyLen zeroKey ∧ (List.replicate 16 (1 : Byte)).length = saltLen ∧
    (List.replicate 16 (2 : Byte)).length = saltLen ∧
    List.replicate 16 (1 : Byte) ≠ List.replicate 16 (2 : Byte) ∧
    ∃ e1 e2 k1 k2,
      HashPassword zeroKey (.ok (List.replicate 16 1)) "secret1" = .ok e1 ∧
      HashPassword zeroKey (.ok (List.replicate 16 2)) "secret1" = .ok e2 ∧
      e1 ≠ e2 ∧
      e1 = base64.EncodeToString (List.replicate 16 1 ++ k1) ∧
      e2 = base64.EncodeToString (List.replicate 16 2 ++ k2) ∧
      k1 = zeroKey (bytesOf "secret1") (List.replicate 16 1)
        argonTime argonMemory argonThreads argonKeyLen ∧
      k2 = zeroKey (bytesOf "secret1") (List.replicate 16 2)
        argonTime argonMemory argonThreads argonKeyLen ∧
      (List.replicate 16 (1 : Byte)).length = 16 ∧
      (List.replicate 16 (2 : Byte)).length = 16 ∧ k1.length = 32 ∧ k2.length = 32 ∧
      VerifyPassword zeroKey "secret1" e1 = .ok true ∧
      VerifyPassword zeroKey "secret1" e2 = .ok true :=
  ⟨zeroKey_hasKeyLen, by decide, by decide, by decide,
    C3_distinct_salts_distinct_hashes zeroKey zeroKey_hasKeyLen "secret1"
      (List.replicate 16 1) (List.replicate 16 2) (by decide) (by decide) (by decide)⟩

/-! ## Theorems: internal/utils/jwt.go -/

/-- Truncation to `jwt.TimePrecision` removes the sub-second part. -/
theorem Truncate_TimePrecision (t : Int) :
    time.Truncate t jwt.TimePrecision = t - t % 1000000000 := by
  simp only [time.Truncate, jwt.TimePrecision, time.Second, time.unixToInternal]
  rw [if_neg (by decide)]
  omega

/-- What `GenerateAccessToken` returns. -/
theorem GenerateAccessToken_eq (lib : jwt.Lib) (j : JWTManager) (now1 now2 : Int)
    (userID username : String) :
    let claims : Claims :=
      { UserID := userID
        Username := username
        ExpiresAt := some (jwt.NewNumericDate (time.Add now1 j.accessTokenExp))
        IssuedAt := some (jwt.NewNumericDate now2)
        Subject := userID }
    j.GenerateAccessToken lib now1 now2 userID username =
      .ok (.compact
        { alg := some "HS256", claims := claims,
          signingInput := lib.SigningString "HS256" claims,
          signature := lib.hmac .HS256 (bytesOf j.secret) (lib.SigningString "HS256" claims) },
        time.Add now1 j.accessTokenExp) := by
  intro claims
  rfl

/-- What `ValidateAccessToken` does with a compact token whose header names an HS method
and whose signature is the MAC under the configured secret: it depends on the claims
validation alone. -/
theorem ValidateAccessToken_of_hmac (lib : jwt.Lib) (j : JWTManager) (now : Int)
    (c : jwt.Compact) (alg : String) (method : jwt.SigningMethod)
    (halg : c.alg = some alg) (hm : jwt.GetSigningMethod alg = some method)
    (hh : method.isHMAC = true)
    (hsig : c.signature = lib.hmac method (bytesOf j.secret) c.signingInput) :
    j.ValidateAccessToken lib now (.compact c) =
      match jwt.Validate now c.claims with
      | [] => .ok c.claims
      | errs => .error (.jwt ("ErrTokenInvalidClaims" :: errs)) := by
  simp only [JWTManager.ValidateAccessToken, jwt.ParseWithClaims, halg, hm,
    JWTManager.keyFunc, hh, jwt.Verify, hsig]
  cases jwt.Validate now c.claims <;> simp

/-- The verdict of `ValidateAccessToken`, under the same secret, on a token issued by
`GenerateAccessToken`: accepted exactly before the expiry truncated to whole seconds. -/
theorem ValidateAccessToken_issued (lib : jwt.Lib) (j j2 : JWTManager)
    (hsecret : j2.secret = j.secret) (now1 now2 now : Int) (userID username : String)
    (tokenString : jwt.TokenString) (expiresAt : Int)
    (hgen : j.GenerateAccessToken lib now1 now2 userID username =
      .ok (tokenString, expiresAt)) :
    expiresAt = now1 + j.accessTokenExp ∧
    j2.ValidateAccessToken lib now tokenString =
      if now < expiresAt - expiresAt % 1000000000 then
        .ok { UserID := userID
              Username := username
              ExpiresAt := some (jwt.NewNumericDate (time.Add now1 j.accessTokenExp))
              IssuedAt := some (jwt.NewNumericDate now2)
              Subject := userID }
      else .error (.jwt ["ErrTokenInvalidClaims", "ErrTokenExpired"]) := by
  rw [GenerateAccessToken_eq] at hgen
  injection hgen with hgen
  injection hgen with h1 h2
  subst h1
  subst h2
  refine ⟨rfl, ?_⟩
  rw [ValidateAccessToken_of_hmac lib j2 now _ "HS256" .HS256 rfl (by decide) rfl
    (by rw [hsecret])]
  simp only [jwt.Validate, jwt.NewNumericDate, Truncate_TimePrecision, time.Before, time.Add]
  by_cases h : now < now1 + j.accessTokenExp - (now1 + j.accessTokenExp) % 1000000000
  · simp [h]
  · simp [h]

/-- C4 (as amended). For every user id, username, secret and clock readings, the token
returned by `GenerateAccessToken` is accepted by `ValidateAccessToken` of a manager with
the same secret at every clock reading before `expires_at` truncated to whole seconds,
yielding claims whose `UserID` and `Username` equal the inputs; at every clock reading
from the truncated expiry on, in particular at every reading after `expires_at`, it is
rejected as expired. -/
theorem C4_token_valid_until_truncated_expiry (lib : jwt.Lib) (j j2 : JWTManager)
    (hsecret : j2.secret = j.secret) (now1 now2 : Int) (userID username : String) :
    ∃ tokenString expiresAt,
      j.GenerateAccessToken lib now1 now2 userID username = .ok (tokenString, expiresAt) ∧
      expiresAt = now1 + j.accessTokenExp ∧
      ∀ now : Int,
        (now < expiresAt - expiresAt % 1000000000 →
          ∃ claims, j2.ValidateAccessToken lib now tokenString = .ok claims ∧
            claims.UserID = userID ∧ claims.Username = username) ∧
        (expiresAt - expiresAt % 1000000000 ≤ now →
          j2.ValidateAccessToken lib now tokenString =
            .error (.jwt ["ErrTokenInvalidClaims", "ErrTokenExpired"])) ∧
        (expiresAt < now →
          j2.ValidateAccessToken lib now tokenString =
            .error (.jwt ["ErrTokenInvalidClaims", "ErrTokenExpired"])) := by
  have hgen := GenerateAccessToken_eq lib j now1 now2 userID username
  refine ⟨_, _, hgen, rfl, ?_⟩
  intro now
  obtain ⟨_, hv⟩ := ValidateAccessToken_issued lib j j2 hsecret now1 now2 now userID username
    _ _ hgen
  simp only [time.Add] at hv ⊢
  refine ⟨?_, ?_, ?_⟩
  · intro h
    rw [hv, if_pos h]
    exact ⟨_, rfl, rfl, rfl⟩
  · intro h
    rw [hv, if_neg (by omega)]
  · intro h
    rw [hv, if_neg (by omega)]

/-- C4 (as amended) at the test manager and a concrete clock. -/
theorem C4_token_valid_until_truncated_expiry_witness :
    sampleManager.secret = sampleManager.secret ∧
    ∃ tokenString expiresAt,
      sampleManager.GenerateAccessToken sampleLib 1500000000 1500000000 "u1" "alice" =
        .ok (tokenString, expiresAt) ∧
      expiresAt = 1500000000 + sampleManager.accessTokenExp ∧
      ∀ now : Int,
        (now < expiresAt - expiresAt % 1000000000 →
          ∃ claims, sampleManager.ValidateAccessToken sampleLib now tokenString = .ok claims ∧
            claims.UserID = "u1" ∧ claims.Username = "alice") ∧
        (expiresAt - expiresAt % 1000000000 ≤ now →
          sampleManager.ValidateAccessToken sampleLib now tokenString =
            .error (.jwt ["ErrTokenInvalidClaims", "ErrTokenExpired"])) ∧
        (expiresAt < now →
          sampleManager.ValidateAccessToken sampleLib now tokenString =
            .error (.jwt ["ErrTokenInvalidClaims", "ErrTokenExpired"])) :=
  ⟨rfl, C4_token_valid_until_truncated_expiry sampleLib sampleManager sampleManager rfl
    1500000000 1500000000 "u1" "alice"⟩

/-- C4 as stated fails: a token issued at 1.5 s with a 15-minute lifetime is returned with
`expires_at` = 901.5 s, and at the clock reading 901.2 s, which is before `expires_at`,
`ValidateAccessToken` rejects it as expired. -/
theorem C4_rejected_before_expires_at :
    ∃ tokenString expiresAt,
      sampleManager.GenerateAccessToken sampleLib 1500000000 1500000000 "u1" "alice" =
        .ok (tokenString, expiresAt) ∧
      (901200000000 : Int) < expiresAt ∧
      sampleManager.ValidateAccessToken sampleLib 901200000000 tokenString =
        .error (.jwt ["ErrTokenInvalidClaims", "ErrTokenExpired"]) := by
  refine ⟨_, _, GenerateAccessToken_eq _ _ _ _ _ _, by decide, by decide⟩

/-- A registered method carries the name it was looked up by. -/
theorem GetSigningMethod_alg {alg : String} {method : jwt.SigningMethod}
    (h : jwt.GetSigningMethod alg = some method) : method.Alg = alg := by
  have := List.find?_some h
  simpa using this

/-- The HS methods are the ones named HS256, HS384 and HS512. -/
theorem isHMAC_alg {method : jwt.SigningMethod} (h : method.isHMAC = true) :
    method.Alg = "HS256" ∨ method.Alg = "HS384" ∨ method.Alg = "HS512" := by
  cases method <;> simp [jwt.SigningMethod.isHMAC] at h <;> simp [jwt.SigningMethod.Alg]

/-- C5 (as amended). `ValidateAccessToken` rejects every token whose header algorithm is
not one of the HMAC family HS256, HS384, HS512 (among them "none" and a missing
algorithm), whatever its signature, and every token whose signature is not the HMAC of
its signing input under the configured secret with the header's algorithm, which is the
case of a signature made with another secret whenever that secret gives another MAC. A
token whose header names HS256, HS384 or HS512 and whose signature is that HMAC under
the configured secret passes the signature check: it is accepted when its claims are
valid at the clock reading. -/
theorem C5_rejects_non_hmac_and_foreign_signatures (lib : jwt.Lib) (j : JWTManager)
    (now : Int) (c : jwt.Compact) :
    (c.alg = none → j.ValidateAccessToken lib now (.compact c) =
      .error (.jwt ["ErrTokenUnverifiable"])) ∧
    (∀ alg, c.alg = some alg → alg ≠ "HS256" → alg ≠ "HS384" → alg ≠ "HS512" →
      j.ValidateAccessToken lib now (.compact c) = .error (.jwt ["ErrTokenUnverifiable"])) ∧
    (c.alg = some "none" → j.ValidateAccessToken lib now (.compact c) =
      .error (.jwt ["ErrTokenUnverifiable"])) ∧
    (∀ alg method, c.alg = some alg → jwt.GetSigningMethod alg = some method →
      c.signature ≠ lib.hmac method (bytesOf j.secret) c.signingInput →
      ∃ err, j.ValidateAccessToken lib now (.compact c) = .error err) ∧
    (∀ alg method secret2, c.alg = some alg → jwt.GetSigningMethod alg = some method →
      c.signature = lib.hmac method (bytesOf secret2) c.signingInput →
      lib.hmac method (bytesOf secret2) c.signingInput ≠
        lib.hmac method (bytesOf j.secret) c.signingInput →
      ∃ err, j.ValidateAccessToken lib now (.compact c) = .error err) ∧
    (∀ method, method.isHMAC = true → c.alg = some method.Alg →
      c.signature = lib.hmac method (bytesOf j.secret) c.signingInput →
      jwt.Validate now c.claims = [] →
      j.ValidateAccessToken lib now (.compact c) = .ok c.claims) := by
  have hnon : ∀ alg, c.alg = some alg → alg ≠ "HS256" → alg ≠ "HS384" → alg ≠ "HS512" →
      j.ValidateAccessToken lib now (.compact c) =
        .error (.jwt ["ErrTokenUnverifiable"]) := by
    intro alg halg h1 h2 h3
    simp only [JWTManager.ValidateAccessToken, jwt.ParseWithClaims, halg]
    cases hm : jwt.GetSigningMethod alg with
    | none => rfl
    | some method =>
      have hname := GetSigningMethod_alg hm
      have hno : method.isHMAC = false := by
        cases hh : method.isHMAC with
        | false => rfl
        | true =>
          rcases isHMAC_alg hh with h | h | h
          · exact absurd (hname ▸ h) h1
          · exact absurd (hname ▸ h) h2
          · exact absurd (hname ▸ h) h3
      simp [JWTManager.keyFunc, hno]
  have hsig : ∀ alg method, c.alg = some alg → jwt.GetSigningMethod alg = some method →
      c.signature ≠ lib.hmac method (bytesOf j.secret) c.signingInput →
      ∃ err, j.ValidateAccessToken lib now (.compact c) = .error err := by
    intro alg method halg hm hne
    simp only [JWTManager.ValidateAccessToken, jwt.ParseWithClaims, halg, hm,
      JWTManager.keyFunc, jwt.Verify]
    cases hh : method.isHMAC with
    | false => exact ⟨.jwt ["ErrTokenUnverifiable"], by simp⟩
    | true => exact ⟨.jwt ["ErrTokenSignatureInvalid"], by simp [hne]⟩
  refine ⟨?_, hnon, ?_, hsig, ?_, ?_⟩
  · intro halg
    simp [JWTManager.ValidateAccessToken, jwt.ParseWithClaims, halg]
  · intro halg
    exact hnon "none" halg (by decide) (by decide) (by decide)
  · intro alg method secret2 halg hm hs hne
    exact hsig alg method halg hm (by rw [hs]; exact hne)
  · intro method hh halg hs hv
    have hm : jwt.GetSigningMethod method.Alg = some method := by
      cases method <;> rfl
    rw [ValidateAccessToken_of_hmac lib j now c method.Alg method halg hm hh hs, hv]

/-- C5 as stated fails: a token whose header algorithm is HS384, not HS256, carrying the
HS384 MAC of its signing input under the configured secret, is accepted. -/
theorem C5_accepts_HS384_token :
    sampleManager.ValidateAccessToken sampleLib 0
      (.compact
        { alg := some "HS384"
          claims := { UserID := "u1", Username := "alice", ExpiresAt := some ⟨1000000000⟩ }
          signingInput := bytesOf "x"
          signature :=
            sampleLib.hmac .HS384 (bytesOf sampleManager.secret) (bytesOf "x") }) =
      .ok { UserID := "u1", Username := "alice", ExpiresAt := some ⟨1000000000⟩ } := by
  decide

/-- C6 (as amended). For every user id, username and clock readings, `GenerateAccessToken`
returns `expires_at = now + accessTokenExp` and an HS256 token over a claim set with
`issued_at` = the clock reading truncated to whole seconds, `expires_at` =
`now + accessTokenExp` truncated to whole seconds, subject and `UserID` equal to the user
id, `Username` equal to the username and no other registered claim; the signature is the
HS256 MAC of the signing string under the secret, so the token is a function of these
inputs, the secret and the clock alone. -/
theorem C6_generated_claims_and_expiry (lib : jwt.Lib) (j : JWTManager) (now1 now2 : Int)
    (userID username : String) :
    ∃ c, j.GenerateAccessToken lib now1 now2 userID username =
        .ok (.compact c, now1 + j.accessTokenExp) ∧
      c.alg = some "HS256" ∧
      c.claims.IssuedAt = some ⟨now2 - now2 % 1000000000⟩ ∧
      c.claims.ExpiresAt =
        some ⟨now1 + j.accessTokenExp - (now1 + j.accessTokenExp) % 1000000000⟩ ∧
      c.claims.Subject = userID ∧ c.claims.UserID = userID ∧
      c.claims.Username = username ∧
      c.claims.NotBefore = none ∧ c.claims.Issuer = "" ∧ c.claims.Audience = [] ∧
      c.claims.ID = "" ∧
      c.signingInput = lib.SigningString "HS256" c.claims ∧
      c.signature = lib.hmac .HS256 (bytesOf j.secret) c.signingInput := by
  refine ⟨_, GenerateAccessToken_eq lib j now1 now2 userID username, rfl, ?_, ?_, rfl, rfl,
    rfl, rfl, rfl, rfl, rfl, rfl, rfl⟩
  · simp only [jwt.NewNumericDate, Truncate_TimePrecision]
  · simp only [jwt.NewNumericDate, Truncate_TimePrecision, time.Add]

/-- C6 as stated fails: at the clock reading 1.5 s the signed claim set has `issued_at`
1 s, not 1.5 s, and `expires_at` 901 s, not the returned 901.5 s. -/
theorem C6_claims_are_truncated :
    ∃ c expiresAt,
      sampleManager.GenerateAccessToken sampleLib 1500000000 1500000000 "u1" "alice" =
        .ok (.compact c, expiresAt) ∧
      expiresAt = 1500000000 + sampleManager.accessTokenExp ∧
      c.claims.IssuedAt = some ⟨1000000000⟩ ∧
      c.claims.IssuedAt ≠ some ⟨1500000000⟩ ∧
      c.claims.ExpiresAt = some ⟨901000000000⟩ ∧
      c.claims.ExpiresAt ≠ some ⟨expiresAt⟩ := by
  refine ⟨_, _, GenerateAccessToken_eq _ _ _ _ _ _, by decide, by decide, by decide,
    by decide, by decide⟩

/-! ## Theorems: the refresh-token table -/

theorem firstByID_mem : ∀ {rows : List RefreshTokenRow} {row : RefreshTokenRow},
    firstByID rows = some row → row ∈ rows
  | [], _, h => by simp [firstByID] at h
  | r :: rs, row, h => by
    unfold firstByID at h
    cases hrs : firstByID rs with
    | none =>
      rw [hrs] at h
      cases h
      exact List.mem_cons_self _ _
    | some best =>
      rw [hrs] at h
      simp only at h
      split at h
      · cases h
        exact List.mem_cons_of_mem _ (firstByID_mem hrs)
      · cases h
        exact List.mem_cons_self _ _

theorem firstByID_eq_none : ∀ {rows : List RefreshTokenRow},
    firstByID rows = none → rows = []
  | [], _ => rfl
  | r :: rs, h => by
    unfold firstByID at h
    cases hrs : firstByID rs with
    | none => rw [hrs] at h; cases h
    | some best =>
      rw [hrs] at h
      simp only at h
      split at h <;> cases h

/-- Under the unique index, two rows with the same token hash are the same row. -/
theorem row_eq_of_hash_eq {db : DB} (hkeys : db.TokenKeysUnique) {a b : RefreshTokenRow}
    (ha : a ∈ db.refresh_tokens) (hb : b ∈ db.refresh_tokens)
    (h : a.TokenHash = b.TokenHash) : a = b := by
  by_contra hne
  have hsymm : Symmetric (fun a b : RefreshTokenRow => a.ID ≠ b.ID ∧ a.TokenHash ≠ b.TokenHash) :=
    fun _ _ hxy => ⟨fun e => hxy.1 e.symm, fun e => hxy.2 e.symm⟩
  exact (List.Pairwise.forall hsymm hkeys ha hb hne).2 h

/-- The lookup finds nothing when every row with the hash is revoked. -/
theorem GetByTokenHash_none (db : DB) (tokenHash : String)
    (h : ∀ row ∈ db.refresh_tokens, row.TokenHash = tokenHash → row.Revoked = true) :
    TokenRepository.GetByTokenHash db none tokenHash = .error .recordNotFound := by
  have hf : db.refresh_tokens.filter
      (fun row => row.TokenHash = tokenHash ∧ row.Revoked = false) = [] := by
    rw [List.filter_eq_nil_iff]
    intro row hrow
    have := h row hrow
    by_cases hh : row.TokenHash = tokenHash
    · simp [hh, this hh]
    · simp [hh]
  simp only [TokenRepository.GetByTokenHash, hf, firstByID]

/-- The lookup finds the one row with the hash that is not revoked. -/
theorem GetByTokenHash_found (db : DB) (hkeys : db.TokenKeysUnique) (r : RefreshTokenRow)
    (hmem : r ∈ db.refresh_tokens) (hrev : r.Revoked = false) :
    TokenRepository.GetByTokenHash db none r.TokenHash =
      .ok { ID := r.ID, UserID := r.UserID, TokenHash := r.TokenHash,
            ExpiresAt := r.ExpiresAt, CreatedAt := r.CreatedAt, Revoked := r.Revoked,
            User := (db.users.find? (fun u => u.ID = r.UserID)).getD {} } := by
  have hin : r ∈ db.refresh_tokens.filter
      (fun row => row.TokenHash = r.TokenHash ∧ row.Revoked = false) := by
    simp [List.mem_filter, hmem, hrev]
  cases hfirst : firstByID (db.refresh_tokens.filter
      (fun row => row.TokenHash = r.TokenHash ∧ row.Revoked = false)) with
  | none =>
    rw [firstByID_eq_none hfirst] at hin
    cases hin
  | some row =>
    have hrow := firstByID_mem hfirst
    rw [List.mem_filter] at hrow
    have heq : row = r := row_eq_of_hash_eq hkeys hrow.1 hmem (of_decide_eq_true hrow.2).1
    subst heq
    simp only [TokenRepository.GetByTokenHash, hfirst]

/-- The preloaded user of a row whose owner exists has the row's user id. -/
theorem preload_ID (db : DB) (howners : db.TokenOwnersExist) (r : RefreshTokenRow)
    (hmem : r ∈ db.refresh_tokens) :
    ((db.users.find? (fun u => u.ID = r.UserID)).getD {}).ID = r.UserID := by
  obtain ⟨u, hu, hid⟩ := howners r hmem
  cases hfind : db.users.find? (fun u => u.ID = r.UserID) with
  | none =>
    rw [List.find?_eq_none] at hfind
    exact absurd (by simpa using hid) (hfind u hu)
  | some v =>
    have := List.find?_some hfind
    simpa using this

/-- After `RevokeToken` no row with the hash is left unrevoked. -/
theorem RevokeToken_revoked (db : DB) (tokenHash : String) :
    ∀ row ∈ (TokenRepository.RevokeToken db none tokenHash).1.refresh_tokens,
      row.TokenHash = tokenHash → row.Revoked = true := by
  intro row hrow hh
  simp only [TokenRepository.RevokeToken, List.mem_map] at hrow
  obtain ⟨row0, _, h0⟩ := hrow
  by_cases hc : row0.TokenHash = tokenHash
  · rw [if_pos hc] at h0
    rw [← h0]
  · rw [if_neg hc] at h0
    rw [← h0] at hh
    exact absurd hh hc

/-- The rotation is refused with the InvalidToken error, and the database is left as it
was, when the lookup succeeds as a query but every row with the hash is revoked. -/
theorem RefreshToken_unknown (lib : jwt.Lib) (sum256 : Sum256) (s : AuthService)
    (env : RefreshEnv) (db : DB) (raw : String) (hget : env.getFault = none)
    (h : ∀ row ∈ db.refresh_tokens,
      row.TokenHash = HashRefreshToken sum256 raw → row.Revoked = true) :
    s.RefreshToken lib sum256 env db ⟨raw⟩ =
      (.error (.errorf constants.MsgInvalidToken), db) := by
  simp only [AuthService.RefreshToken, hget, GetByTokenHash_none db _ h,
    GoError.isRecordNotFound, if_true]

theorem revokeRow_ID (tokenHash : String) (row : RefreshTokenRow) :
    (revokeRow tokenHash row).ID = row.ID := by
  unfold revokeRow; split <;> rfl

theorem revokeRow_TokenHash (tokenHash : String) (row : RefreshTokenRow) :
    (revokeRow tokenHash row).TokenHash = row.TokenHash := by
  unfold revokeRow; split <;> rfl

theorem RevokeToken_eq (db : DB) (tokenHash : String) :
    TokenRepository.RevokeToken db none tokenHash =
      ({ users := db.users, refresh_tokens := db.refresh_tokens.map (revokeRow tokenHash) },
        none) := rfl

/-- Revoking twice is revoking once. -/
theorem revokeRow_idem (tokenHash : String) (row : RefreshTokenRow) :
    revokeRow tokenHash (revokeRow tokenHash row) = revokeRow tokenHash row := by
  unfold revokeRow
  by_cases h : row.TokenHash = tokenHash <;> simp [h]

/-- An insert with a fresh primary key and a fresh token hash appends the row. -/
theorem Create_fresh (db : DB) (now : Int) (token : RefreshToken)
    (hfresh : ∀ row ∈ db.refresh_tokens,
      row.ID ≠ token.ID ∧ row.TokenHash ≠ token.TokenHash) :
    TokenRepository.Create db none now token =
      ({ users := db.users,
         refresh_tokens := db.refresh_tokens ++
          [{ ID := token.ID, UserID := token.UserID, TokenHash := token.TokenHash,
             ExpiresAt := token.ExpiresAt,
             CreatedAt := if token.CreatedAt = time.zero then now else token.CreatedAt,
             Revoked := token.Revoked }] }, none) := by
  have hany : db.refresh_tokens.any
      (fun row => row.ID = token.ID ∨ row.TokenHash = token.TokenHash) = false := by
    rw [List.any_eq_false]
    intro row hrow
    have := hfresh row hrow
    simp [this.1, this.2]
  simp only [TokenRepository.Create, hany]
  rfl

/-- What a rotation does when the lookup finds the row and the code does not take it for
expired (`now` is not after its expiry), no statement fails, and the new key and hash are
fresh. -/
theorem RefreshToken_rotates (lib : jwt.Lib) (sum256 : Sum256) (s : AuthService)
    (env : RefreshEnv) (db : DB) (raw : String) (r : RefreshTokenRow) (bytes : List Byte)
    (hkeys : db.TokenKeysUnique) (hmem : r ∈ db.refresh_tokens)
    (hhash : r.TokenHash = HashRefreshToken sum256 raw) (hrev : r.Revoked = false)
    (hnow : env.nowCheck ≤ r.ExpiresAt)
    (hget : env.getFault = none) (hrevoke : env.revokeFault = none)
    (hcreate : env.createFault = none) (hrand : env.randRefresh = .ok bytes)
    (hfresh : ∀ row ∈ db.refresh_tokens,
      row.ID ≠ GenerateUUIDv7 env.uuidNow env.uuidRand env.uuidRandRest ∧
      row.TokenHash ≠ HashRefreshToken sum256 (hex.EncodeToString bytes)) :
    ∃ resp : LoginResponse,
      s.RefreshToken lib sum256 env db ⟨raw⟩ =
        (.ok resp,
          { users := db.users,
            refresh_tokens := db.refresh_tokens.map (revokeRow r.TokenHash) ++
              [{ ID := GenerateUUIDv7 env.uuidNow env.uuidRand env.uuidRandRest,
                 UserID := ((db.users.find? (fun u => u.ID = r.UserID)).getD {}).ID,
                 TokenHash := HashRefreshToken sum256 (hex.EncodeToString bytes),
                 ExpiresAt := env.nowExpires + s.jwtManager.refreshTokenExp,
                 CreatedAt := env.nowCreate,
                 Revoked := false }] }) ∧
      resp.RefreshToken = hex.EncodeToString bytes ∧
      resp.User.ID = ((db.users.find? (fun u => u.ID = r.UserID)).getD {}).ID ∧
      s.jwtManager.GenerateAccessToken lib env.nowAccess env.nowIssued
          ((db.users.find? (fun u => u.ID = r.UserID)).getD {}).ID
          ((db.users.find? (fun u => u.ID = r.UserID)).getD {}).Username =
        .ok (resp.AccessToken, resp.ExpiresAt) := by
  have hafter : time.After env.nowCheck r.ExpiresAt = false := by
    simp only [time.After, gt_iff_lt, decide_eq_false_iff_not, not_lt]
    exact hnow
  have hfresh1 : ∀ row ∈ db.refresh_tokens.map (revokeRow r.TokenHash),
      row.ID ≠ GenerateUUIDv7 env.uuidNow env.uuidRand env.uuidRandRest ∧
      row.TokenHash ≠ HashRefreshToken sum256 (hex.EncodeToString bytes) := by
    intro row hrow
    rw [List.mem_map] at hrow
    obtain ⟨row0, h0, rfl⟩ := hrow
    rw [revokeRow_ID, revokeRow_TokenHash]
    exact hfresh row0 h0
  have hcr := Create_fresh
    { users := db.users, refresh_tokens := db.refresh_tokens.map (revokeRow r.TokenHash) }
    env.nowCreate
    { ID := GenerateUUIDv7 env.uuidNow env.uuidRand env.uuidRandRest
      UserID := ((db.users.find? (fun u => u.ID = r.UserID)).getD {}).ID
      TokenHash := HashRefreshToken sum256 (hex.EncodeToString bytes)
      ExpiresAt := time.Add env.nowExpires s.jwtManager.GetRefreshTokenExpiration }
    hfresh1
  obtain ⟨tok, exp, hgen⟩ : ∃ tok exp,
      s.jwtManager.GenerateAccessToken lib env.nowAccess env.nowIssued
        ((db.users.find? (fun u => u.ID = r.UserID)).getD {}).ID
        ((db.users.find? (fun u => u.ID = r.UserID)).getD {}).Username = .ok (tok, exp) :=
    ⟨_, _, GenerateAccessToken_eq _ _ _ _ _ _⟩
  refine ⟨{ AccessToken := tok
            RefreshToken := hex.EncodeToString bytes
            ExpiresAt := exp
            User :=
              { ID := ((db.users.find? (fun u => u.ID = r.UserID)).getD {}).ID
                Username := ((db.users.find? (fun u => u.ID = r.UserID)).getD {}).Username
                Email := ((db.users.find? (fun u => u.ID = r.UserID)).getD {}).Email
                CreatedAt := ((db.users.find? (fun u => u.ID = r.UserID)).getD {}).CreatedAt } },
    ?_, rfl, rfl, hgen⟩
  simp only [AuthService.RefreshToken, hget, ← hhash,
    GetByTokenHash_found db hkeys r hmem hrev, hafter, hgen,
    GenerateRefreshToken, hrand, hrevoke, RevokeToken_eq, hcreate, hcr]
  rfl

/-- C7. For every store state that meets its declared constraints and holds an Active
refresh-token record whose hash is `HashRefreshToken(raw)`, when no statement fails, the
entropy source delivers and the new key and hash are fresh, `RefreshToken(raw)` succeeds,
marks that record revoked, leaves every other record as it was and adds exactly one new
record: not revoked, for the same user, with `TokenHash` the hash of the returned refresh
token and expiry `now + refreshTokenExp`; a second call with the same raw value then fails
with the InvalidToken error. -/
theorem C7_rotation_is_single_use (lib : jwt.Lib) (sum256 : Sum256) (s : AuthService)
    (env : RefreshEnv) (db : DB) (raw : String) (r : RefreshTokenRow) (bytes : List Byte)
    (hkeys : db.TokenKeysUnique) (howners : db.TokenOwnersExist)
    (hmem : r ∈ db.refresh_tokens)
    (hhash : r.TokenHash = HashRefreshToken sum256 raw) (hrev : r.Revoked = false)
    (hactive : env.nowCheck < r.ExpiresAt)
    (hget : env.getFault = none) (hrevoke : env.revokeFault = none)
    (hcreate : env.createFault = none) (hrand : env.randRefresh = .ok bytes)
    (hfresh : ∀ row ∈ db.refresh_tokens,
      row.ID ≠ GenerateUUIDv7 env.uuidNow env.uuidRand env.uuidRandRest ∧
      row.TokenHash ≠ HashRefreshToken sum256 (hex.EncodeToString bytes)) :
    ∃ (resp : LoginResponse) (db2 : DB) (newRow : RefreshTokenRow),
      s.RefreshToken lib sum256 env db ⟨raw⟩ = (.ok resp, db2) ∧
      db2.users = db.users ∧
      db2.refresh_tokens =
        db.refresh_tokens.map
          (fun row => if row = r then { row with Revoked := true } else row) ++ [newRow] ∧
      { r with Revoked := true } ∈ db2.refresh_tokens ∧
      newRow ∉ db.refresh_tokens ∧
      newRow.Revoked = false ∧
      newRow.UserID = r.UserID ∧
      newRow.TokenHash = HashRefreshToken sum256 resp.RefreshToken ∧
      newRow.ExpiresAt = env.nowExpires + s.jwtManager.refreshTokenExp ∧
      resp.User.ID = r.UserID ∧
      (∀ env2 : RefreshEnv, env2.getFault = none →
        s.RefreshToken lib sum256 env2 db2 ⟨raw⟩ =
          (.error (.errorf constants.MsgInvalidToken), db2)) := by
  obtain ⟨resp, hres, htok, huser, _⟩ := RefreshToken_rotates lib sum256 s env db raw r bytes
    hkeys hmem hhash hrev (le_of_lt hactive) hget hrevoke hcreate hrand hfresh
  have hid := preload_ID db howners r hmem
  have hmap : db.refresh_tokens.map (revokeRow r.TokenHash) =
      db.refresh_tokens.map
        (fun row => if row = r then { row with Revoked := true } else row) := by
    apply List.map_congr_left
    intro row hrow
    unfold revokeRow
    by_cases hc : row = r
    · simp [hc]
    · have hne : row.TokenHash ≠ r.TokenHash :=
        fun e => hc (row_eq_of_hash_eq hkeys hrow hmem e)
      simp [hc, hne]
  refine ⟨resp,
    { users := db.users,
      refresh_tokens := db.refresh_tokens.map (revokeRow r.TokenHash) ++
        [{ ID := GenerateUUIDv7 env.uuidNow env.uuidRand env.uuidRandRest,
           UserID := ((db.users.find? (fun u => u.ID = r.UserID)).getD {}).ID,
           TokenHash := HashRefreshToken sum256 (hex.EncodeToString bytes),
           ExpiresAt := env.nowExpires + s.jwtManager.refreshTokenExp,
           CreatedAt := env.nowCreate,
           Revoked := false }] },
    { ID := GenerateUUIDv7 env.uuidNow env.uuidRand env.uuidRandRest,
      UserID := ((db.users.find? (fun u => u.ID = r.UserID)).getD {}).ID,
      TokenHash := HashRefreshToken sum256 (hex.EncodeToString bytes),
      ExpiresAt := env.nowExpires + s.jwtManager.refreshTokenExp,
      CreatedAt := env.nowCreate,
      Revoked := false },
    hres, rfl, ?_, ?_, ?_, rfl, hid, ?_, rfl, ?_, ?_⟩
  · rw [hmap]
  · apply List.mem_append_left
    rw [List.mem_map]
    exact ⟨r, hmem, by simp [revokeRow]⟩
  · intro hin
    exact (hfresh _ hin).1 rfl
  · rw [htok]
  · rw [huser, hid]
  · intro env2 hget2
    apply RefreshToken_unknown lib sum256 s env2 _ raw hget2
    intro row hrow hh
    simp only [List.mem_append, List.mem_map, List.mem_singleton] at hrow
    rcases hrow with ⟨row0, _, h0⟩ | hnew
    · subst h0
      rw [revokeRow_TokenHash] at hh
      unfold revokeRow
      rw [if_pos (by rw [hh, hhash])]
    · subst hnew
      exact absurd (hh.trans hhash.symm) (fun e => (hfresh r hmem).2 e.symm)

theorem sampleDB_keys : sampleDB.TokenKeysUnique := by
  simp [DB.TokenKeysUnique, sampleDB]

theorem sampleDB_owners : sampleDB.TokenOwnersExist := by
  intro row hrow
  simp only [sampleDB, List.mem_singleton] at hrow
  subst hrow
  exact ⟨_, List.mem_singleton.mpr rfl, rfl⟩

theorem sampleDB_fresh (now : Int) : ∀ row ∈ sampleDB.refresh_tokens,
    row.ID ≠ GenerateUUIDv7 (sampleEnv now).uuidNow (sampleEnv now).uuidRand
      (sampleEnv now).uuidRandRest ∧
    row.TokenHash ≠ HashRefreshToken sampleSum256 (hex.EncodeToString [1, 2, 3]) := by
  intro row hrow
  simp only [sampleDB, List.mem_singleton] at hrow
  subst hrow
  refine ⟨?_, by decide⟩
  intro h
  have hlen := congrArg String.length h
  have h36 : ∀ bytes : List Byte, bytes.length = 16 → (formatUUID bytes).length = 36 := by
    intro bytes hb
    match bytes, hb with
    | [_, _, _, _, _, _, _, _, _, _, _, _, _, _, _, _], _ => rfl
  rw [GenerateUUIDv7, h36 _ (by simp [PutUint64, List.length_take])] at hlen
  exact absurd hlen (by decide)

/-- C7 at the sample database: the raw value `raw`, the clock at 50, expiry at 100. -/
theorem C7_rotation_is_single_use_witness :
    ∃ (resp : LoginResponse) (db2 : DB) (newRow : RefreshTokenRow),
      sampleService.RefreshToken sampleLib sampleSum256 (sampleEnv 50) sampleDB ⟨"raw"⟩ =
        (.ok resp, db2) ∧
      db2.users = sampleDB.users ∧
      db2.refresh_tokens =
        sampleDB.refresh_tokens.map
          (fun row =>
            if row = { ID := "t1", UserID := "u1",
                       TokenHash := HashRefreshToken sampleSum256 "raw",
                       ExpiresAt := 100, CreatedAt := 0, Revoked := false }
            then { row with Revoked := true } else row) ++ [newRow] ∧
      { ID := "t1", UserID := "u1", TokenHash := HashRefreshToken sampleSum256 "raw",
        ExpiresAt := 100, CreatedAt := 0, Revoked := true } ∈ db2.refresh_tokens ∧
      newRow ∉ sampleDB.refresh_tokens ∧
      newRow.Revoked = false ∧
      newRow.UserID = "u1" ∧
      newRow.TokenHash = HashRefreshToken sampleSum256 resp.RefreshToken ∧
      newRow.ExpiresAt = (sampleEnv 50).nowExpires + sampleService.jwtManager.refreshTokenExp ∧
      resp.User.ID = "u1" ∧
      (∀ env2 : RefreshEnv, env2.getFault = none →
        sampleService.RefreshToken sampleLib sampleSum256 env2 db2 ⟨"raw"⟩ =
          (.error (.errorf constants.MsgInvalidToken), db2)) :=
  C7_rotation_is_single_use sampleLib sampleSum256 sampleService (sampleEnv 50) sampleDB "raw"
    { ID := "t1", UserID := "u1", TokenHash := HashRefreshToken sampleSum256 "raw",
      ExpiresAt := 100, CreatedAt := 0, Revoked := false }
    [1, 2, 3] sampleDB_keys sampleDB_owners (List.mem_singleton.mpr rfl) rfl rfl (by decide)
    rfl rfl rfl rfl (sampleDB_fresh 50)

/-- C8. For every raw value whose hash matches no record, or matches only revoked
records, `RefreshToken` (its lookup query being executed) fails with the InvalidToken
error, returns no response and leaves the database unchanged. -/
theorem C8_unknown_or_revoked_is_invalid (lib : jwt.Lib) (sum256 : Sum256)
    (s : AuthService) (env : RefreshEnv) (db : DB) (raw : String)
    (hget : env.getFault = none)
    (h : (∀ row ∈ db.refresh_tokens, row.TokenHash ≠ HashRefreshToken sum256 raw) ∨
      (∀ row ∈ db.refresh_tokens,
        row.TokenHash = HashRefreshToken sum256 raw → row.Revoked = true)) :
    s.RefreshToken lib sum256 env db ⟨raw⟩ =
      (.error (.errorf constants.MsgInvalidToken), db) := by
  apply RefreshToken_unknown lib sum256 s env db raw hget
  rcases h with h | h
  · intro row hrow hh
    exact absurd hh (h row hrow)
  · exact h

/-- C8 at the sample database and a raw value no record was issued for. -/
theorem C8_unknown_or_revoked_is_invalid_witness :
    (sampleEnv 50).getFault = none ∧
    ((∀ row ∈ sampleDB.refresh_tokens,
        row.TokenHash ≠ HashRefreshToken sampleSum256 "other") ∨
      (∀ row ∈ sampleDB.refresh_tokens,
        row.TokenHash = HashRefreshToken sampleSum256 "other" → row.Revoked = true)) ∧
    sampleService.RefreshToken sampleLib sampleSum256 (sampleEnv 50) sampleDB ⟨"other"⟩ =
      (.error (.errorf constants.MsgInvalidToken), sampleDB) :=
  ⟨rfl, Or.inl (by decide),
    C8_unknown_or_revoked_is_invalid sampleLib sampleSum256 sampleService (sampleEnv 50)
      sampleDB "other" rfl (Or.inl (by decide))⟩

/-- What `RefreshToken` does with a record the code takes for expired (the clock reading
is after its expiry): the TokenExpired error, the record revoked, nothing created, and
InvalidToken for the same raw value afterwards. -/
theorem RefreshToken_expired (lib : jwt.Lib) (sum256 : Sum256) (s : AuthService)
    (env : RefreshEnv) (db : DB) (raw : String) (r : RefreshTokenRow)
    (hkeys : db.TokenKeysUnique) (hmem : r ∈ db.refresh_tokens)
    (hhash : r.TokenHash = HashRefreshToken sum256 raw) (hrev : r.Revoked = false)
    (hexp : r.ExpiresAt < env.nowCheck)
    (hget : env.getFault = none) (hrevoke : env.revokeExpiredFault = none) :
    s.RefreshToken lib sum256 env db ⟨raw⟩ =
      (.error (.errorf constants.MsgTokenExpired),
        { users := db.users,
          refresh_tokens := db.refresh_tokens.map (revokeRow r.TokenHash) }) ∧
    ∀ env2 : RefreshEnv, env2.getFault = none →
      s.RefreshToken lib sum256 env2
          { users := db.users,
            refresh_tokens := db.refresh_tokens.map (revokeRow r.TokenHash) } ⟨raw⟩ =
        (.error (.errorf constants.MsgInvalidToken),
          { users := db.users,
            refresh_tokens := db.refresh_tokens.map (revokeRow r.TokenHash) }) := by
  have hafter : time.After env.nowCheck r.ExpiresAt = true := by
    simp only [time.After, gt_iff_lt, decide_eq_true_eq]
    exact hexp
  constructor
  · simp only [AuthService.RefreshToken, hget, ← hhash,
      GetByTokenHash_found db hkeys r hmem hrev, hafter, hrevoke, RevokeToken_eq, if_true]
  · intro env2 hget2
    apply RefreshToken_unknown lib sum256 s env2 _ raw hget2
    intro row hrow hh
    have := RevokeToken_revoked db r.TokenHash row (by rw [RevokeToken_eq]; exact hrow)
    exact this (by rw [hh, hhash])

/-- C9, the failing input. The sample record expires at the instant 100 and is not
revoked. At the clock reading 100, where `now >= expires_at` and `IsTokenValid` reports the
token as no longer valid, `RefreshToken` does not answer TokenExpired: it rotates the
token, returning a response and adding a second record. -/
theorem C9_rotates_at_expiry_instant :
    (∃ resp db2,
      sampleService.RefreshToken sampleLib sampleSum256 (sampleEnv 100) sampleDB ⟨"raw"⟩ =
        (.ok resp, db2) ∧ db2.refresh_tokens.length = 2) ∧
    TokenRepository.IsTokenValid sampleDB none 100 (HashRefreshToken sampleSum256 "raw") =
      .ok false := by
  constructor
  · obtain ⟨resp, hres, _⟩ := RefreshToken_rotates sampleLib sampleSum256 sampleService
      (sampleEnv 100) sampleDB "raw"
      { ID := "t1", UserID := "u1", TokenHash := HashRefreshToken sampleSum256 "raw",
        ExpiresAt := 100, CreatedAt := 0, Revoked := false }
      [1, 2, 3] sampleDB_keys (List.mem_singleton.mpr rfl) rfl rfl (by decide)
      rfl rfl rfl rfl (sampleDB_fresh 100)
    exact ⟨resp, _, hres, rfl⟩
  · decide

/-- C10. For every raw refresh-token value and every database, whether the hash matches
an active record, a revoked record or none, `Logout` (its statement being executed)
returns no error; afterwards every record with that hash is revoked, every record with
another hash is as it was and the users are untouched; and a second `Logout` with the same
value returns no error and leaves the database exactly as the first left it. -/
theorem C10_logout_is_idempotent (sum256 : Sum256) (s : AuthService) (db : DB)
    (raw : String) :
    ∃ db1 : DB,
      s.Logout sum256 none db raw = (db1, none) ∧
      (∀ row ∈ db1.refresh_tokens,
        row.TokenHash = HashRefreshToken sum256 raw → row.Revoked = true) ∧
      db1.users = db.users ∧
      db1.refresh_tokens = db.refresh_tokens.map
        (fun row =>
          if row.TokenHash = HashRefreshToken sum256 raw then { row with Revoked := true }
          else row) ∧
      (∀ row ∈ db.refresh_tokens, row.TokenHash ≠ HashRefreshToken sum256 raw →
        row ∈ db1.refresh_tokens) ∧
      (∀ row ∈ db1.refresh_tokens, row.TokenHash ≠ HashRefreshToken sum256 raw →
        row ∈ db.refresh_tokens) ∧
      s.Logout sum256 none db1 raw = (db1, none) := by
  refine ⟨(TokenRepository.RevokeToken db none (HashRefreshToken sum256 raw)).1, rfl,
    RevokeToken_revoked db _, rfl, rfl, ?_, ?_, ?_⟩
  · intro row hrow hne
    simp only [TokenRepository.RevokeToken, List.mem_map]
    exact ⟨row, hrow, by simp [hne]⟩
  · intro row hrow hne
    simp only [TokenRepository.RevokeToken, List.mem_map] at hrow
    obtain ⟨row0, h0, heq⟩ := hrow
    by_cases hc : row0.TokenHash = HashRefreshToken sum256 raw
    · rw [if_pos hc] at heq
      rw [← heq] at hne
      exact absurd hc hne
    · rw [if_neg hc] at heq
      rw [← heq]
      exact h0
  · simp only [AuthService.Logout, RevokeToken_eq, List.map_map]
    congr 2
    apply List.map_congr_left
    intro row _
    exact revokeRow_idem _ row

/-! ## Theorems: Login -/

theorem firstUserByID_mem : ∀ {rows : List User} {row : User},
    firstUserByID rows = some row → row ∈ rows
  | [], _, h => by simp [firstUserByID] at h
  | r :: rs, row, h => by
    unfold firstUserByID at h
    cases hrs : firstUserByID rs with
    | none =>
      rw [hrs] at h
      cases h
      exact List.mem_cons_self _ _
    | some best =>
      rw [hrs] at h
      simp only at h
      split at h
      · cases h
        exact List.mem_cons_of_mem _ (firstUserByID_mem hrs)
      · cases h
        exact List.mem_cons_self _ _

theorem firstUserByID_eq_none : ∀ {rows : List User}, firstUserByID rows = none → rows = []
  | [], _ => rfl
  | r :: rs, h => by
    unfold firstUserByID at h
    cases hrs : firstUserByID rs with
    | none => rw [hrs] at h; cases h
    | some best =>
      rw [hrs] at h
      simp only at h
      split at h <;> cases h

/-- Under the partial unique index, two live users with the same username are the same
row. -/
theorem user_eq_of_username_eq {db : DB} (hkeys : db.UserKeysUnique) {a b : User}
    (ha : a ∈ db.users) (hb : b ∈ db.users) (hda : a.IsDeleted = false)
    (hdb : b.IsDeleted = false) (h : a.Username = b.Username) : a = b := by
  by_contra hne
  have hsymm : Symmetric (fun a b : User => a.ID ≠ b.ID ∧
      (a.IsDeleted = false → b.IsDeleted = false →
        a.Username ≠ b.Username ∧ a.Email ≠ b.Email)) :=
    fun _ _ hxy => ⟨fun e => hxy.1 e.symm,
      fun h1 h2 => ⟨fun e => (hxy.2 h2 h1).1 e.symm, fun e => (hxy.2 h2 h1).2 e.symm⟩⟩
  exact ((List.Pairwise.forall hsymm hkeys ha hb hne).2 hda hdb).1 h

/-- The query finds nothing when every user with the username is deleted. -/
theorem GetByUsername_none (db : DB) (username : String)
    (h : ∀ row ∈ db.users, row.Username = username → row.IsDeleted = true) :
    UserRepository.GetByUsername db none username = .error .recordNotFound := by
  have hf : db.users.filter
      (fun row => row.Username = username ∧ row.IsDeleted = false) = [] := by
    rw [List.filter_eq_nil_iff]
    intro row hrow
    have := h row hrow
    by_cases hh : row.Username = username
    · simp [hh, this hh]
    · simp [hh]
  simp only [UserRepository.GetByUsername, hf, firstUserByID]

/-- The query finds the one live user with the username. -/
theorem GetByUsername_found (db : DB) (hkeys : db.UserKeysUnique) (u : User)
    (hmem : u ∈ db.users) (hdel : u.IsDeleted = false) :
    UserRepository.GetByUsername db none u.Username = .ok u := by
  have hin : u ∈ db.users.filter
      (fun row => row.Username = u.Username ∧ row.IsDeleted = false) := by
    simp [List.mem_filter, hmem, hdel]
  cases hfirst : firstUserByID (db.users.filter
      (fun row => row.Username = u.Username ∧ row.IsDeleted = false)) with
  | none =>
    rw [firstUserByID_eq_none hfirst] at hin
    cases hin
  | some row =>
    have hrow := firstUserByID_mem hfirst
    rw [List.mem_filter] at hrow
    have hp := of_decide_eq_true hrow.2
    have heq : row = u := user_eq_of_username_eq hkeys hrow.1 hmem hp.2 hdel hp.1
    subst heq
    simp only [UserRepository.GetByUsername, hfirst]

/-- C11. `Login` with a username that matches no user that is not deleted, and `Login`
with the username of an existing user and a password that `VerifyPassword` does not accept
for her hash, return the same error, the one with the InvalidCredentials message; both
return no response and leave the database, and so the refresh tokens, as it was. -/
theorem C11_login_failures_are_indistinguishable (idKey : IDKey) (lib : jwt.Lib)
    (sum256 : Sum256) (s : AuthService) (env1 env2 : LoginEnv) (db : DB)
    (req1 req2 : LoginRequest) (u : User)
    (hget1 : env1.getUserFault = none) (hget2 : env2.getUserFault = none)
    (hnone : ∀ row ∈ db.users, row.Username = req1.Username → row.IsDeleted = true)
    (hkeys : db.UserKeysUnique) (hu : u ∈ db.users) (hdel : u.IsDeleted = false)
    (hname : u.Username = req2.Username)
    (hbad : VerifyPassword idKey req2.Password u.PasswordHash = .ok false) :
    s.Login idKey lib sum256 env1 db req1 =
      (.error (.errorf constants.MsgInvalidCredentials), db) ∧
    s.Login idKey lib sum256 env2 db req2 =
      (.error (.errorf constants.MsgInvalidCredentials), db) ∧
    (s.Login idKey lib sum256 env1 db req1).1 = (s.Login idKey lib sum256 env2 db req2).1 ∧
    constants.MsgInvalidCredentials = "Invalid username or password" := by
  have h1 : s.Login idKey lib sum256 env1 db req1 =
      (.error (.errorf constants.MsgInvalidCredentials), db) := by
    simp only [AuthService.Login, hget1, GetByUsername_none db _ hnone,
      GoError.isRecordNotFound, if_true]
  have h2 : s.Login idKey lib sum256 env2 db req2 =
      (.error (.errorf constants.MsgInvalidCredentials), db) := by
    simp only [AuthService.Login, hget2, ← hname, GetByUsername_found db hkeys u hu hdel,
      hbad, Bool.not_false, if_true]
  exact ⟨h1, h2, by rw [h1, h2], rfl⟩

theorem sampleKey_hasKeyLen : IDKey.HasKeyLen sampleKey := by
  intro password salt _ _ _ keyLen
  simp only [sampleKey, List.length_take, List.length_append, List.length_replicate]
  omega

theorem sampleCredDB_keys : sampleCredDB.UserKeysUnique := by
  simp [DB.UserKeysUnique, sampleCredDB]

theorem sampleHash_eq :
    HashPassword sampleKey (.ok sampleSalt) "secret1" = .ok sampleHash := rfl

/-- The sample hash does not verify the password `wrongpw`. -/
theorem sampleHash_rejects : VerifyPassword sampleKey "wrongpw" sampleHash = .ok false := by
  rw [VerifyPassword_of_decoded sampleKey "wrongpw" sampleHash _
    (base64.DecodeString_EncodeToString _) (by decide)]
  decide

/-- C11 at the sample database: the unknown user `bob`, and `alice` with a wrong
password. -/
theorem C11_login_failures_are_indistinguishable_witness :
    sampleService.Login sampleKey sampleLib sampleSum256 (sampleLoginEnv 50) sampleCredDB
        ⟨"bob", "secret1"⟩ =
      (.error (.errorf constants.MsgInvalidCredentials), sampleCredDB) ∧
    sampleService.Login sampleKey sampleLib sampleSum256 (sampleLoginEnv 60) sampleCredDB
        ⟨"alice", "wrongpw"⟩ =
      (.error (.errorf constants.MsgInvalidCredentials), sampleCredDB) ∧
    (sampleService.Login sampleKey sampleLib sampleSum256 (sampleLoginEnv 50) sampleCredDB
        ⟨"bob", "secret1"⟩).1 =
      (sampleService.Login sampleKey sampleLib sampleSum256 (sampleLoginEnv 60) sampleCredDB
        ⟨"alice", "wrongpw"⟩).1 ∧
    constants.MsgInvalidCredentials = "Invalid username or password" :=
  C11_login_failures_are_indistinguishable sampleKey sampleLib sampleSum256 sampleService
    (sampleLoginEnv 50) (sampleLoginEnv 60) sampleCredDB ⟨"bob", "secret1"⟩
    ⟨"alice", "wrongpw"⟩
    { ID := "u1", Username := "alice", Email := "alice@x.com", PasswordHash := sampleHash }
    rfl rfl (by decide) sampleCredDB_keys (List.mem_singleton.mpr rfl) rfl rfl
    sampleHash_rejects

theorem hex_encodeChars_length : ∀ src : List Byte,
    (hex.encodeChars src).length = 2 * src.length
  | [] => rfl
  | _ :: rest => by
    simp only [hex.encodeChars, List.length_cons, hex_encodeChars_length rest]
    omega

/-- The function `hex.EncodeToString` writes two characters for each byte. -/
theorem hex_EncodeToString_length (src : List Byte) :
    (hex.EncodeToString src).length = 2 * src.length := by
  simp only [hex.EncodeToString, String.length, hex_encodeChars_length]

/-- What `Login` does for a live user whose stored hash `VerifyPassword` accepts, when
no statement fails, the entropy source delivers and the new key and hash are fresh. -/
theorem Login_succeeds (idKey : IDKey) (lib : jwt.Lib) (sum256 : Sum256) (s : AuthService)
    (env : LoginEnv) (db : DB) (req : LoginRequest) (u : User) (bytes : List Byte)
    (hkeys : db.UserKeysUnique) (hu : u ∈ db.users) (hdel : u.IsDeleted = false)
    (hname : u.Username = req.Username)
    (hpw : VerifyPassword idKey req.Password u.PasswordHash = .ok true)
    (hget : env.getUserFault = none) (hcreate : env.createFault = none)
    (hrand : env.randRefresh = .ok bytes)
    (hfresh : ∀ row ∈ db.refresh_tokens,
      row.ID ≠ GenerateUUIDv7 env.uuidNow env.uuidRand env.uuidRandRest ∧
      row.TokenHash ≠ HashRefreshToken sum256 (hex.EncodeToString bytes)) :
    ∃ tok : jwt.TokenString,
      s.jwtManager.GenerateAccessToken lib env.nowAccess env.nowIssued u.ID u.Username =
        .ok (tok, env.nowAccess + s.jwtManager.accessTokenExp) ∧
      s.Login idKey lib sum256 env db req =
        (.ok
          { AccessToken := tok
            RefreshToken := hex.EncodeToString bytes
            ExpiresAt := env.nowAccess + s.jwtManager.accessTokenExp
            User := { ID := u.ID, Username := u.Username, Email := u.Email,
                      CreatedAt := u.CreatedAt } },
          { users := db.users,
            refresh_tokens := db.refresh_tokens ++
              [{ ID := GenerateUUIDv7 env.uuidNow env.uuidRand env.uuidRandRest,
                 UserID := u.ID,
                 TokenHash := HashRefreshToken sum256 (hex.EncodeToString bytes),
                 ExpiresAt := env.nowExpires + s.jwtManager.refreshTokenExp,
                 CreatedAt := env.nowCreate,
                 Revoked := false }] }) := by
  have hgen := GenerateAccessToken_eq lib s.jwtManager env.nowAccess env.nowIssued
    u.ID u.Username
  have hcr := Create_fresh db env.nowCreate
    { ID := GenerateUUIDv7 env.uuidNow env.uuidRand env.uuidRandRest
      UserID := u.ID
      TokenHash := HashRefreshToken sum256 (hex.EncodeToString bytes)
      ExpiresAt := time.Add env.nowExpires s.jwtManager.GetRefreshTokenExpiration }
    hfresh
  refine ⟨_, hgen, ?_⟩
  simp only [AuthService.Login, hget, ← hname, GetByUsername_found db hkeys u hu hdel, hpw,
    hgen, GenerateRefreshToken, hrand, hcreate, hcr]
  rfl

/-- C12 (as amended). For every user that is registered and not deleted and the password
her stored hash was made from, `Login` (no statement failing, the entropy source
delivering 32 bytes, the new key and hash being fresh) succeeds. It returns the access
token `GenerateAccessToken` issues for her id and username, a compact token that
`ValidateAccessToken` accepts with her id and username at every clock reading before
`now + accessTokenExp` truncated to whole seconds, and reports
`ExpiresAt = now + accessTokenExp`; a refresh token of 64 characters; and her public info. It adds exactly one refresh-token record, owned by her,
not revoked, with `TokenHash` the hash of the returned refresh token and expiry
`now + refreshTokenExp`, and changes no existing record and no user. -/
theorem C12_login_issues_tokens (idKey : IDKey) (lib : jwt.Lib) (sum256 : Sum256)
    (s : AuthService) (env : LoginEnv) (db : DB) (req : LoginRequest) (u : User)
    (salt bytes : List Byte)
    (hk : idKey.HasKeyLen) (hkeys : db.UserKeysUnique) (hu : u ∈ db.users)
    (hdel : u.IsDeleted = false) (hname : u.Username = req.Username)
    (hsalt : salt.length = saltLen)
    (hhash : HashPassword idKey (.ok salt) req.Password = .ok u.PasswordHash)
    (hget : env.getUserFault = none) (hcreate : env.createFault = none)
    (hrand : env.randRefresh = .ok bytes) (hlen : bytes.length = 32)
    (hfresh : ∀ row ∈ db.refresh_tokens,
      row.ID ≠ GenerateUUIDv7 env.uuidNow env.uuidRand env.uuidRandRest ∧
      row.TokenHash ≠ HashRefreshToken sum256 (hex.EncodeToString bytes)) :
    ∃ (resp : LoginResponse) (db1 : DB) (newRow : RefreshTokenRow) (c : jwt.Compact),
      s.Login idKey lib sum256 env db req = (.ok resp, db1) ∧
      resp.AccessToken = .compact c ∧
      s.jwtManager.GenerateAccessToken lib env.nowAccess env.nowIssued u.ID u.Username =
        .ok (resp.AccessToken, resp.ExpiresAt) ∧
      c.claims.UserID = u.ID ∧ c.claims.Username = u.Username ∧
      resp.ExpiresAt = env.nowAccess + s.jwtManager.accessTokenExp ∧
      (∀ now : Int, now < resp.ExpiresAt - resp.ExpiresAt % 1000000000 →
        ∃ claims, s.jwtManager.ValidateAccessToken lib now resp.AccessToken = .ok claims ∧
          claims.UserID = u.ID ∧ claims.Username = u.Username) ∧
      resp.RefreshToken = hex.EncodeToString bytes ∧
      resp.RefreshToken.length = 64 ∧ resp.RefreshToken ≠ "" ∧
      resp.User = { ID := u.ID, Username := u.Username, Email := u.Email,
                    CreatedAt := u.CreatedAt } ∧
      db1.users = db.users ∧
      db1.refresh_tokens = db.refresh_tokens ++ [newRow] ∧
      newRow.UserID = u.ID ∧ newRow.Revoked = false ∧
      newRow.TokenHash = HashRefreshToken sum256 resp.RefreshToken ∧
      newRow.ExpiresAt = env.nowExpires + s.jwtManager.refreshTokenExp := by
  obtain ⟨hh, _, _, _, hver⟩ := HashPassword_verifies idKey hk req.Password salt hsalt
  have hpw : VerifyPassword idKey req.Password u.PasswordHash = .ok true := by
    rw [hh] at hhash
    injection hhash with hhash
    rw [← hhash]
    exact hver
  obtain ⟨tok, hgen, hlogin⟩ := Login_succeeds idKey lib sum256 s env db req u bytes hkeys hu
    hdel hname hpw hget hcreate hrand hfresh
  have hgen2 := hgen
  rw [GenerateAccessToken_eq] at hgen2
  injection hgen2 with hgen2
  injection hgen2 with htok _
  have hlen64 : (hex.EncodeToString bytes).length = 64 := by
    rw [hex_EncodeToString_length, hlen]
  refine ⟨_, _, _, _, hlogin, htok.symm, hgen, rfl, rfl, rfl, ?_, rfl, hlen64, ?_, rfl, rfl,
    rfl, rfl, rfl, rfl, rfl⟩
  · intro now hnow
    obtain ⟨_, hv⟩ := ValidateAccessToken_issued lib s.jwtManager s.jwtManager rfl
      env.nowAccess env.nowIssued now u.ID u.Username tok _ hgen
    rw [hv, if_pos hnow]
    exact ⟨_, rfl, rfl, rfl⟩
  · intro h
    have h0 : (hex.EncodeToString bytes).length = 0 := by
      rw [show hex.EncodeToString bytes = "" from h]
      rfl
    omega

/-- C12 as stated fails: `alice` logs in at 1.5 s with a 15-minute lifetime; the response
reports `ExpiresAt` = 901.5 s, yet at the clock reading 901.2 s the access token it carries
is rejected as expired. -/
theorem C12_access_token_expires_before_reported_expiry :
    ∃ resp db1,
      sampleService.Login sampleKey sampleLib sampleSum256 (sampleLoginEnv 1500000000)
        sampleCredDB ⟨"alice", "secret1"⟩ = (.ok resp, db1) ∧
      resp.ExpiresAt = 1500000000 + sampleService.jwtManager.accessTokenExp ∧
      (901200000000 : Int) < resp.ExpiresAt ∧
      sampleService.jwtManager.ValidateAccessToken sampleLib 901200000000
        resp.AccessToken = .error (.jwt ["ErrTokenInvalidClaims", "ErrTokenExpired"]) := by
  have hpw : VerifyPassword sampleKey "secret1" sampleHash = .ok true :=
    (HashPassword_verifies sampleKey sampleKey_hasKeyLen "secret1" sampleSalt
      (by decide)).2.2.2.2
  obtain ⟨tok, hgen, hlogin⟩ := Login_succeeds sampleKey sampleLib sampleSum256
    sampleService (sampleLoginEnv 1500000000) sampleCredDB ⟨"alice", "secret1"⟩
    { ID := "u1", Username := "alice", Email := "alice@x.com", PasswordHash := sampleHash }
    (List.replicate 32 9) sampleCredDB_keys (List.mem_singleton.mpr rfl) rfl rfl hpw
    rfl rfl rfl (by intro row hrow; simp [sampleCredDB] at hrow)
  have hlt : (901200000000 : Int) <
      (sampleLoginEnv 1500000000).nowAccess + sampleService.jwtManager.accessTokenExp := by
    decide
  refine ⟨_, _, hlogin, rfl, hlt, ?_⟩
  obtain ⟨_, hv⟩ := ValidateAccessToken_issued sampleLib sampleService.jwtManager
    sampleService.jwtManager rfl 1500000000 1500000000 901200000000 "u1" "alice" tok _ hgen
  rw [hv]
  decide

theorem sampleCredDB_fresh (now : Int) : ∀ row ∈ sampleCredDB.refresh_tokens,
    row.ID ≠ GenerateUUIDv7 (sampleLoginEnv now).uuidNow (sampleLoginEnv now).uuidRand
      (sampleLoginEnv now).uuidRandRest ∧
    row.TokenHash ≠
      HashRefreshToken sampleSum256 (hex.EncodeToString (List.replicate 32 9)) := by
  intro row hrow
  simp [sampleCredDB] at hrow

/-- C12 at the sample database: `alice` logs in with `secret1`. -/
theorem C12_login_issues_tokens_witness :
    ∃ (resp : LoginResponse) (db1 : DB) (newRow : RefreshTokenRow) (c : jwt.Compact),
      sampleService.Login sampleKey sampleLib sampleSum256 (sampleLoginEnv 50) sampleCredDB
        ⟨"alice", "secret1"⟩ = (.ok resp, db1) ∧
      resp.AccessToken = .compact c ∧
      sampleService.jwtManager.GenerateAccessToken sampleLib (sampleLoginEnv 50).nowAccess
        (sampleLoginEnv 50).nowIssued "u1" "alice" = .ok (resp.AccessToken, resp.ExpiresAt) ∧
      c.claims.UserID = "u1" ∧ c.claims.Username = "alice" ∧
      resp.ExpiresAt = (sampleLoginEnv 50).nowAccess + sampleService.jwtManager.accessTokenExp ∧
      (∀ now : Int, now < resp.ExpiresAt - resp.ExpiresAt % 1000000000 →
        ∃ claims, sampleService.jwtManager.ValidateAccessToken sampleLib now
            resp.AccessToken = .ok claims ∧
          claims.UserID = "u1" ∧ claims.Username = "alice") ∧
      resp.RefreshToken = hex.EncodeToString (List.replicate 32 9) ∧
      resp.RefreshToken.length = 64 ∧ resp.RefreshToken ≠ "" ∧
      resp.User = { ID := "u1", Username := "alice", Email := "alice@x.com",
                    CreatedAt := time.zero } ∧
      db1.users = sampleCredDB.users ∧
      db1.refresh_tokens = sampleCredDB.refresh_tokens ++ [newRow] ∧
      newRow.UserID = "u1" ∧ newRow.Revoked = false ∧
      newRow.TokenHash = HashRefreshToken sampleSum256 resp.RefreshToken ∧
      newRow.ExpiresAt =
        (sampleLoginEnv 50).nowExpires + sampleService.jwtManager.refreshTokenExp :=
  C12_login_issues_tokens sampleKey sampleLib sampleSum256 sampleService (sampleLoginEnv 50)
    sampleCredDB ⟨"alice", "secret1"⟩
    { ID := "u1", Username := "alice", Email := "alice@x.com", PasswordHash := sampleHash }
    sampleSalt (List.replicate 32 9) sampleKey_hasKeyLen sampleCredDB_keys
    (List.mem_singleton.mpr rfl) rfl rfl (by decide) sampleHash_eq rfl rfl rfl (by decide)
    (sampleCredDB_fresh 50)

/-! ## Theorems: Register -/

theorem ExistsByUsername_true (db : DB) (username : String)
    (h : ∃ u ∈ db.users, u.Username = username ∧ u.IsDeleted = false) :
    UserRepository.ExistsByUsername db none username = (true, none) := by
  obtain ⟨u, hu, hn, hd⟩ := h
  have hin : u ∈ db.users.filter
      (fun row => row.Username = username ∧ row.IsDeleted = false) := by
    simp [List.mem_filter, hu, hn, hd]
  have hpos := List.length_pos_of_mem hin
  simp only [UserRepository.ExistsByUsername, gt_iff_lt, hpos, decide_True]

theorem ExistsByUsername_false (db : DB) (username : String)
    (h : ∀ u ∈ db.users, u.Username = username → u.IsDeleted = true) :
    UserRepository.ExistsByUsername db none username = (false, none) := by
  have hf : db.users.filter
      (fun row => row.Username = username ∧ row.IsDeleted = false) = [] := by
    rw [List.filter_eq_nil_iff]
    intro row hrow
    have := h row hrow
    by_cases hh : row.Username = username
    · simp [hh, this hh]
    · simp [hh]
  simp only [UserRepository.ExistsByUsername, hf]
  rfl

theorem ExistsByEmail_true (db : DB) (email : String)
    (h : ∃ u ∈ db.users, u.Email = email ∧ u.IsDeleted = false) :
    UserRepository.ExistsByEmail db none email = (true, none) := by
  obtain ⟨u, hu, hn, hd⟩ := h
  have hin : u ∈ db.users.filter
      (fun row => row.Email = email ∧ row.IsDeleted = false) := by
    simp [List.mem_filter, hu, hn, hd]
  have hpos := List.length_pos_of_mem hin
  simp only [UserRepository.ExistsByEmail, gt_iff_lt, hpos, decide_True]

theorem ExistsByEmail_false (db : DB) (email : String)
    (h : ∀ u ∈ db.users, u.Email = email → u.IsDeleted = true) :
    UserRepository.ExistsByEmail db none email = (false, none) := by
  have hf : db.users.filter
      (fun row => row.Email = email ∧ row.IsDeleted = false) = [] := by
    rw [List.filter_eq_nil_iff]
    intro row hrow
    have := h row hrow
    by_cases hh : row.Email = email
    · simp [hh, this hh]
    · simp [hh]
  simp only [UserRepository.ExistsByEmail, hf]
  rfl

/-- C13. For every database and request, when the two existence queries are executed and
a user that is not deleted has the requested username, or one has the requested email,
`Register` fails with an error whose message contains "already exists" (the
UserAlreadyExists message for the username, "email already exists" for the email),
returns no response and leaves the database as it was. -/
theorem C13_register_rejects_taken_name_or_email (idKey : IDKey) (s : AuthService)
    (env : RegisterEnv) (db : DB) (req : RegisterRequest)
    (hf1 : env.existsUsernameFault = none) (hf2 : env.existsEmailFault = none)
    (htaken : (∃ u ∈ db.users, u.Username = req.Username ∧ u.IsDeleted = false) ∨
      (∃ u ∈ db.users, u.Email = req.Email ∧ u.IsDeleted = false)) :
    ∃ msg : String,
      s.Register idKey env db req = (.error (.errorf msg), db) ∧
      strings.Contains msg "already exists" = true ∧
      (msg = constants.MsgUserAlreadyExists ∨ msg = "email already exists") ∧
      ((∃ u ∈ db.users, u.Username = req.Username ∧ u.IsDeleted = false) →
        msg = constants.MsgUserAlreadyExists) := by
  have hname : (∃ u ∈ db.users, u.Username = req.Username ∧ u.IsDeleted = false) →
      s.Register idKey env db req =
        (.error (.errorf constants.MsgUserAlreadyExists), db) := by
    intro h
    simp only [AuthService.Register, hf1, ExistsByUsername_true db _ h]
  by_cases hn : ∃ u ∈ db.users, u.Username = req.Username ∧ u.IsDeleted = false
  · exact ⟨_, hname hn, by decide, Or.inl rfl, fun _ => rfl⟩
  · rcases htaken with h | h
    · exact absurd h hn
    · have hfalse : UserRepository.ExistsByUsername db none req.Username = (false, none) := by
        apply ExistsByUsername_false
        intro u hu hun
        by_contra hd
        exact hn ⟨u, hu, hun, by simpa using hd⟩
      refine ⟨"email already exists", ?_, by decide, Or.inr rfl, fun h => absurd h hn⟩
      simp only [AuthService.Register, hf1, hfalse, hf2, ExistsByEmail_true db _ h]

/-- C13 at the sample database: the username `alice` is taken. -/
theorem C13_register_rejects_taken_name_or_email_witness :
    ∃ msg : String,
      sampleService.Register sampleKey (sampleRegisterEnv 50) sampleCredDB
        ⟨"alice", "alice2@x.com", "secret2"⟩ = (.error (.errorf msg), sampleCredDB) ∧
      strings.Contains msg "already exists" = true ∧
      (msg = constants.MsgUserAlreadyExists ∨ msg = "email already exists") ∧
      ((∃ u ∈ sampleCredDB.users, u.Username = "alice" ∧ u.IsDeleted = false) →
        msg = constants.MsgUserAlreadyExists) :=
  C13_register_rejects_taken_name_or_email sampleKey sampleService (sampleRegisterEnv 50)
    sampleCredDB ⟨"alice", "alice2@x.com", "secret2"⟩ rfl rfl
    (Or.inl ⟨_, List.mem_singleton.mpr rfl, rfl, rfl⟩)

theorem formatUUID_length : ∀ bytes : List Byte, bytes.length = 16 →
    (formatUUID bytes).length = 36
  | [_, _, _, _, _, _, _, _, _, _, _, _, _, _, _, _], _ => rfl

/-- The identifier `GenerateUUIDv7` returns has 36 characters. -/
theorem GenerateUUIDv7_length (now : Int) (randBytes randRest : List Byte) :
    (GenerateUUIDv7 now randBytes randRest).length = 36 := by
  rw [GenerateUUIDv7]
  apply formatUUID_length
  simp [PutUint64, List.length_take]

theorem GenerateUUIDv7_ne_empty (now : Int) (randBytes randRest : List Byte) :
    GenerateUUIDv7 now randBytes randRest ≠ "" := by
  intro h
  have h36 := GenerateUUIDv7_length now randBytes randRest
  rw [h] at h36
  exact absurd h36 (by decide)

/-- An insert of a live user with a fresh primary key, username and email appends the
row, with the timestamps GORM fills in. -/
theorem UserCreate_fresh (db : DB) (hookID : String) (now : Int) (user : User)
    (hid : user.ID ≠ "")
    (hfresh : ∀ row ∈ db.users, row.ID ≠ user.ID)
    (hname : ∀ row ∈ db.users, row.Username = user.Username → row.IsDeleted = true)
    (hemail : ∀ row ∈ db.users, row.Email = user.Email → row.IsDeleted = true) :
    UserRepository.Create db none hookID now user =
      (({ users := db.users ++
            [{ user with
               CreatedAt := if user.CreatedAt = time.zero then now else user.CreatedAt
               UpdatedAt := if user.UpdatedAt = time.zero then now else user.UpdatedAt }],
          refresh_tokens := db.refresh_tokens },
        { user with
          CreatedAt := if user.CreatedAt = time.zero then now else user.CreatedAt
          UpdatedAt := if user.UpdatedAt = time.zero then now else user.UpdatedAt }),
        none) := by
  have hany : db.users.any (fun row => row.ID = user.ID ∨
      (user.IsDeleted = false ∧ row.IsDeleted = false ∧
        (row.Username = user.Username ∨ row.Email = user.Email))) = false := by
    rw [List.any_eq_false]
    intro row hrow
    have h1 := hfresh row hrow
    have h2 := hname row hrow
    have h3 := hemail row hrow
    intro hc
    simp only [decide_eq_true_eq] at hc
    rcases hc with hc | ⟨_, hd, hc | hc⟩
    · exact h1 hc
    · rw [h2 hc] at hd; cases hd
    · rw [h3 hc] at hd; cases hd
  simp only [UserRepository.Create, if_neg hid, hany]
  rfl

/-- What `Register` does when the username and the email are free, no statement fails,
the entropy source delivers and the new identifier is fresh. -/
theorem Register_succeeds (idKey : IDKey) (s : AuthService) (env : RegisterEnv) (db : DB)
    (req : RegisterRequest) (salt : List Byte)
    (hf1 : env.existsUsernameFault = none) (hf2 : env.existsEmailFault = none)
    (hcreate : env.createFault = none) (hrand : env.randSalt = .ok salt)
    (hname : ∀ u ∈ db.users, u.Username = req.Username → u.IsDeleted = true)
    (hemail : ∀ u ∈ db.users, u.Email = req.Email → u.IsDeleted = true)
    (hfresh : ∀ u ∈ db.users,
      u.ID ≠ GenerateUUIDv7 env.uuidNow env.uuidRand env.uuidRandRest) :
    s.Register idKey env db req =
      (.ok
        { Message := constants.MsgRegisterSuccess
          User :=
            { ID := GenerateUUIDv7 env.uuidNow env.uuidRand env.uuidRandRest
              Username := req.Username
              Email := req.Email
              CreatedAt := env.nowCreate } },
        { users := db.users ++
            [{ ID := GenerateUUIDv7 env.uuidNow env.uuidRand env.uuidRandRest
               CreatedAt := env.nowCreate
               UpdatedAt := env.nowCreate
               DeletedAt := none
               IsDeleted := false
               Username := req.Username
               Email := req.Email
               PasswordHash := base64.EncodeToString (salt ++
                 idKey (bytesOf req.Password) salt argonTime argonMemory argonThreads
                   argonKeyLen) }],
          refresh_tokens := db.refresh_tokens }) := by
  have hcr := UserCreate_fresh db env.hookID env.nowCreate
    { ID := GenerateUUIDv7 env.uuidNow env.uuidRand env.uuidRandRest
      Username := req.Username
      Email := req.Email
      PasswordHash := base64.EncodeToString (salt ++
        idKey (bytesOf req.Password) salt argonTime argonMemory argonThreads argonKeyLen) }
    (GenerateUUIDv7_ne_empty _ _ _) hfresh hname hemail
  simp only [AuthService.Register, hf1, ExistsByUsername_false db _ hname, hf2,
    ExistsByEmail_false db _ hemail, hrand, HashPassword, hcreate, hcr]
  rfl

/-- C14. For every request whose username and email no user that is not deleted has, when
no statement fails, the entropy source delivers a 16-byte salt and the new identifier is
fresh, `Register` succeeds and appends exactly one user: not deleted, with that username
and email, a non-empty identifier of 36 characters and a password hash that
`VerifyPassword` accepts for the request's password; refresh tokens and existing users are
untouched. The response carries the success message and the same id, username and email,
and is the same whatever the password and the salt are: it holds neither the password nor
its hash. -/
theorem C14_register_creates_user (idKey : IDKey) (s : AuthService) (env : RegisterEnv)
    (db : DB) (req : RegisterRequest) (salt : List Byte)
    (hk : idKey.HasKeyLen)
    (hf1 : env.existsUsernameFault = none) (hf2 : env.existsEmailFault = none)
    (hcreate : env.createFault = none) (hrand : env.randSalt = .ok salt)
    (hsalt : salt.length = saltLen)
    (hname : ∀ u ∈ db.users, u.Username = req.Username → u.IsDeleted = true)
    (hemail : ∀ u ∈ db.users, u.Email = req.Email → u.IsDeleted = true)
    (hfresh : ∀ u ∈ db.users,
      u.ID ≠ GenerateUUIDv7 env.uuidNow env.uuidRand env.uuidRandRest) :
    ∃ (resp : RegisterResponse) (db1 : DB) (newUser : User),
      s.Register idKey env db req = (.ok resp, db1) ∧
      db1.users = db.users ++ [newUser] ∧
      db1.refresh_tokens = db.refresh_tokens ∧
      newUser.Username = req.Username ∧ newUser.Email = req.Email ∧
      newUser.IsDeleted = false ∧
      newUser.ID ≠ "" ∧ newUser.ID.length = 36 ∧
      VerifyPassword idKey req.Password newUser.PasswordHash = .ok true ∧
      resp.Message = constants.MsgRegisterSuccess ∧
      resp.User.ID = newUser.ID ∧ resp.User.Username = req.Username ∧
      resp.User.Email = req.Email ∧ resp.User.CreatedAt = newUser.CreatedAt ∧
      (∀ (password2 : String) (salt2 : List Byte),
        (s.Register idKey { env with randSalt := .ok salt2 } db
          { req with Password := password2 }).1 = .ok resp) := by
  have hreg := Register_succeeds idKey s env db req salt hf1 hf2 hcreate hrand hname hemail
    hfresh
  obtain ⟨_, _, _, _, hver⟩ := HashPassword_verifies idKey hk req.Password salt hsalt
  refine ⟨_, _, _, hreg, rfl, rfl, rfl, rfl, rfl, GenerateUUIDv7_ne_empty _ _ _,
    GenerateUUIDv7_length _ _ _, hver, rfl, rfl, rfl, rfl, rfl, ?_⟩
  intro password2 salt2
  rw [Register_succeeds idKey s { env with randSalt := .ok salt2 } db
    { req with Password := password2 } salt2 hf1 hf2 hcreate rfl hname hemail hfresh]

theorem sampleCredDB_id_fresh (now : Int) : ∀ u ∈ sampleCredDB.users,
    u.ID ≠ GenerateUUIDv7 (sampleRegisterEnv now).uuidNow (sampleRegisterEnv now).uuidRand
      (sampleRegisterEnv now).uuidRandRest := by
  intro u hu h
  simp only [sampleCredDB, List.mem_singleton] at hu
  subst hu
  have h36 := GenerateUUIDv7_length (sampleRegisterEnv now).uuidNow
    (sampleRegisterEnv now).uuidRand (sampleRegisterEnv now).uuidRandRest
  rw [← h] at h36
  exact absurd h36 (by decide)

/-- C14 at the sample database: `bob` registers. -/
theorem C14_register_creates_user_witness :
    ∃ (resp : RegisterResponse) (db1 : DB) (newUser : User),
      sampleService.Register sampleKey (sampleRegisterEnv 50) sampleCredDB
        ⟨"bob", "bob@x.com", "secret2"⟩ = (.ok resp, db1) ∧
      db1.users = sampleCredDB.users ++ [newUser] ∧
      db1.refresh_tokens = sampleCredDB.refresh_tokens ∧
      newUser.Username = "bob" ∧ newUser.Email = "bob@x.com" ∧
      newUser.IsDeleted = false ∧
      newUser.ID ≠ "" ∧ newUser.ID.length = 36 ∧
      VerifyPassword sampleKey "secret2" newUser.PasswordHash = .ok true ∧
      resp.Message = constants.MsgRegisterSuccess ∧
      resp.User.ID = newUser.ID ∧ resp.User.Username = "bob" ∧
      resp.User.Email = "bob@x.com" ∧ resp.User.CreatedAt = newUser.CreatedAt ∧
      (∀ (password2 : String) (salt2 : List Byte),
        (sampleService.Register sampleKey
          { sampleRegisterEnv 50 with randSalt := .ok salt2 } sampleCredDB
          { (⟨"bob", "bob@x.com", "secret2"⟩ : RegisterRequest) with
            Password := password2 }).1 = .ok resp) :=
  C14_register_creates_user sampleKey sampleService (sampleRegisterEnv 50) sampleCredDB
    ⟨"bob", "bob@x.com", "secret2"⟩ sampleSalt sampleKey_hasKeyLen rfl rfl rfl rfl
    (by decide) (by decide) (by decide) (sampleCredDB_id_fresh 50)

/-! ## Theorems: what a sequence of calls does to existing records -/

theorem RowKept_refl (row : RefreshTokenRow) : RowKept row row := Or.inl rfl

theorem RowKept_trans {a b c : RefreshTokenRow} (hab : RowKept a b) (hbc : RowKept b c) :
    RowKept a c := by
  rcases hab with rfl | rfl
  · exact hbc
  · rcases hbc with rfl | rfl
    · exact Or.inr rfl
    · exact Or.inr rfl

theorem RowKept_revokeRow (tokenHash : String) (row : RefreshTokenRow) :
    RowKept row (revokeRow tokenHash row) := by
  unfold revokeRow
  split
  · exact Or.inr rfl
  · exact Or.inl rfl

theorem Forall₂_RowKept_refl : ∀ rows : List RefreshTokenRow,
    List.Forall₂ RowKept rows rows
  | [] => List.Forall₂.nil
  | row :: rows => List.Forall₂.cons (RowKept_refl row) (Forall₂_RowKept_refl rows)

theorem Forall₂_RowKept_revoke (tokenHash : String) : ∀ rows : List RefreshTokenRow,
    List.Forall₂ RowKept rows (rows.map (revokeRow tokenHash))
  | [] => List.Forall₂.nil
  | row :: rows =>
    List.Forall₂.cons (RowKept_revokeRow tokenHash row) (Forall₂_RowKept_revoke tokenHash rows)

theorem RowsKept_refl (rows : List RefreshTokenRow) : RowsKept rows rows :=
  ⟨rows, [], by simp, Forall₂_RowKept_refl rows⟩

theorem Forall₂_RowKept_split : ∀ (xs ys zs : List RefreshTokenRow),
    List.Forall₂ RowKept (xs ++ ys) zs →
    ∃ l1 l2, zs = l1 ++ l2 ∧ List.Forall₂ RowKept xs l1
  | [], _, zs, _ => ⟨[], zs, rfl, List.Forall₂.nil⟩
  | x :: xs, ys, zs, h => by
    rw [List.cons_append, List.forall₂_cons_left_iff] at h
    obtain ⟨z, zs1, hz, hrest, rfl⟩ := h
    obtain ⟨l1, l2, rfl, hl1⟩ := Forall₂_RowKept_split xs ys zs1 hrest
    exact ⟨z :: l1, l2, rfl, List.Forall₂.cons hz hl1⟩

theorem Forall₂_RowKept_trans : ∀ {xs ys zs : List RefreshTokenRow},
    List.Forall₂ RowKept xs ys → List.Forall₂ RowKept ys zs → List.Forall₂ RowKept xs zs
  | _, _, _, List.Forall₂.nil, List.Forall₂.nil => List.Forall₂.nil
  | _, _, _, List.Forall₂.cons h1 t1, List.Forall₂.cons h2 t2 =>
    List.Forall₂.cons (RowKept_trans h1 h2) (Forall₂_RowKept_trans t1 t2)

theorem RowsKept_trans {a b c : List RefreshTokenRow} (hab : RowsKept a b)
    (hbc : RowsKept b c) : RowsKept a c := by
  obtain ⟨k1, a1, rfl, h1⟩ := hab
  obtain ⟨k2, a2, rfl, h2⟩ := hbc
  obtain ⟨l1, l2, rfl, hl1⟩ := Forall₂_RowKept_split k1 a1 k2 h2
  exact ⟨l1, l2 ++ a2, by simp, Forall₂_RowKept_trans h1 hl1⟩

/-- Whatever the driver reports, `RevokeToken` keeps the table. -/
theorem RevokeToken_kept (db : DB) (fault : Option GoError) (tokenHash : String) :
    RowsKept db.refresh_tokens
      (TokenRepository.RevokeToken db fault tokenHash).1.refresh_tokens ∧
    (TokenRepository.RevokeToken db fault tokenHash).1.users = db.users := by
  cases fault with
  | some err => exact ⟨RowsKept_refl _, rfl⟩
  | none => exact ⟨⟨_, [], by simp [RevokeToken_eq], Forall₂_RowKept_revoke tokenHash _⟩, rfl⟩

/-- Whatever the driver reports and whatever is inserted, `Create` keeps the table. -/
theorem Create_kept (db : DB) (fault : Option GoError) (now : Int) (token : RefreshToken) :
    RowsKept db.refresh_tokens
      (TokenRepository.Create db fault now token).1.refresh_tokens := by
  unfold TokenRepository.Create
  cases fault with
  | some err => exact RowsKept_refl _
  | none =>
    simp only
    split
    · exact RowsKept_refl _
    · exact ⟨_, _, rfl, Forall₂_RowKept_refl _⟩

/-- The user insert does not touch the refresh tokens. -/
theorem UserCreate_tokens (db : DB) (fault : Option GoError) (hookID : String) (now : Int)
    (user : User) :
    (UserRepository.Create db fault hookID now user).1.1.refresh_tokens =
      db.refresh_tokens := by
  unfold UserRepository.Create
  cases fault with
  | some err => rfl
  | none =>
    simp only
    split_ifs <;> rfl

theorem Register_kept (idKey : IDKey) (s : AuthService) (env : RegisterEnv) (db : DB)
    (req : RegisterRequest) :
    (s.Register idKey env db req).2.refresh_tokens = db.refresh_tokens := by
  unfold AuthService.Register
  split
  · rfl
  · rfl
  · split
    · rfl
    · rfl
    · split
      · rfl
      · dsimp only
        split
        · rename_i h
          have h2 := congrArg (fun x => x.1.1.refresh_tokens) h
          simp only [UserCreate_tokens] at h2
          exact h2.symm
        · rename_i h
          have h2 := congrArg (fun x => x.1.1.refresh_tokens) h
          simp only [UserCreate_tokens] at h2
          exact h2.symm

theorem Login_kept (idKey : IDKey) (lib : jwt.Lib) (sum256 : Sum256) (s : AuthService)
    (env : LoginEnv) (db : DB) (req : LoginRequest) :
    RowsKept db.refresh_tokens (s.Login idKey lib sum256 env db req).2.refresh_tokens := by
  unfold AuthService.Login
  split
  · split <;> exact RowsKept_refl _
  · split
    · exact RowsKept_refl _
    · split
      · exact RowsKept_refl _
      · split
        · exact RowsKept_refl _
        · split
          · exact RowsKept_refl _
          · dsimp only
            split
            · rename_i h
              have h2 := congrArg (fun x => x.1.refresh_tokens) h
              dsimp only at h2
              rw [← h2]
              exact Create_kept _ _ _ _
            · rename_i h
              have h2 := congrArg (fun x => x.1.refresh_tokens) h
              dsimp only at h2
              rw [← h2]
              exact Create_kept _ _ _ _

theorem RefreshToken_kept (lib : jwt.Lib) (sum256 : Sum256) (s : AuthService)
    (env : RefreshEnv) (db : DB) (req : RefreshRequest) :
    RowsKept db.refresh_tokens (s.RefreshToken lib sum256 env db req).2.refresh_tokens := by
  unfold AuthService.RefreshToken
  dsimp only
  split
  · split <;> exact RowsKept_refl _
  · split
    · exact (RevokeToken_kept db _ _).1
    · split
      · exact RowsKept_refl _
      · split
        · exact RowsKept_refl _
        · split
          · rename_i h
            have h2 := congrArg (fun x => x.1.refresh_tokens) h
            dsimp only at h2
            rw [← h2]
            exact (RevokeToken_kept db _ _).1
          · rename_i h
            have h2 := congrArg (fun x => x.1.refresh_tokens) h
            dsimp only at h2
            have hk1 := (RevokeToken_kept db env.revokeFault
              (HashRefreshToken sum256 req.RefreshToken)).1
            rw [h2] at hk1
            split
            · rename_i h3
              have h4 := congrArg (fun x => x.1.refresh_tokens) h3
              dsimp only at h4
              rw [← h4]
              exact RowsKept_trans hk1 (Create_kept _ _ _ _)
            · rename_i h3
              have h4 := congrArg (fun x => x.1.refresh_tokens) h3
              dsimp only at h4
              rw [← h4]
              exact RowsKept_trans hk1 (Create_kept _ _ _ _)

theorem call_kept (idKey : IDKey) (lib : jwt.Lib) (sum256 : Sum256) (s : AuthService)
    (db : DB) (c : Call) :
    RowsKept db.refresh_tokens (s.call idKey lib sum256 db c).refresh_tokens := by
  cases c with
  | register env req =>
    simp only [AuthService.call, Register_kept]
    exact RowsKept_refl _
  | login env req => exact Login_kept idKey lib sum256 s env db req
  | refresh env req => exact RefreshToken_kept lib sum256 s env db req
  | logout fault refreshToken => exact (RevokeToken_kept db fault _).1

theorem calls_kept (idKey : IDKey) (lib : jwt.Lib) (sum256 : Sum256) (s : AuthService) :
    ∀ (cs : List Call) (db : DB),
      RowsKept db.refresh_tokens (s.calls idKey lib sum256 db cs).refresh_tokens
  | [], db => RowsKept_refl _
  | c :: cs, db => by
    have h1 := call_kept idKey lib sum256 s db c
    have h2 := calls_kept idKey lib sum256 s cs (s.call idKey lib sum256 db c)
    exact RowsKept_trans h1 h2

theorem Forall₂_RowKept_get : ∀ {xs ys : List RefreshTokenRow},
    List.Forall₂ RowKept xs ys → ∀ (i : Nat) (x : RefreshTokenRow), xs[i]? = some x →
      ∃ y, ys[i]? = some y ∧ RowKept x y
  | _, _, List.Forall₂.nil, i, x, h => by simp at h
  | _, _, List.Forall₂.cons hxy _, 0, x, h => by
    simp only [List.getElem?_cons_zero, Option.some.injEq] at h
    subst h
    exact ⟨_, List.getElem?_cons_zero, hxy⟩
  | _, _, List.Forall₂.cons _ t, i + 1, x, h => by
    simp only [List.getElem?_cons_succ] at h
    simpa using Forall₂_RowKept_get t i x h

/-- C15. Across every sequence of `Register`, `Login`, `RefreshToken` and `Logout` calls,
whatever each call reads from outside, every record the table holds before the sequence is
still at its place afterwards with the same `ID`, `UserID`, `TokenHash`, `ExpiresAt` and
`CreatedAt`; a record that was revoked is still revoked; and the record is either exactly
as it was or as it was with `revoked` set to true. -/
theorem C15_existing_records_only_get_revoked (idKey : IDKey) (lib : jwt.Lib)
    (sum256 : Sum256) (s : AuthService) (db : DB) (cs : List Call) (i : Nat)
    (row : RefreshTokenRow) (hrow : db.refresh_tokens[i]? = some row) :
    ∃ row2, (s.calls idKey lib sum256 db cs).refresh_tokens[i]? = some row2 ∧
      row2.ID = row.ID ∧ row2.UserID = row.UserID ∧ row2.TokenHash = row.TokenHash ∧
      row2.ExpiresAt = row.ExpiresAt ∧ row2.CreatedAt = row.CreatedAt ∧
      (row.Revoked = true → row2.Revoked = true) ∧
      (row2 = row ∨ row2 = { row with Revoked := true }) := by
  obtain ⟨kept, added, hafter, hall⟩ := calls_kept idKey lib sum256 s cs db
  obtain ⟨y, hy, hk⟩ := Forall₂_RowKept_get hall i row hrow
  have hi : i < kept.length := by
    have := (List.getElem?_eq_some_iff.mp hy).1
    exact this
  refine ⟨y, ?_, ?_⟩
  · rw [hafter, List.getElem?_append_left hi]
    exact hy
  · rcases hk with rfl | rfl
    · exact ⟨rfl, rfl, rfl, rfl, rfl, fun h => h, Or.inl rfl⟩
    · exact ⟨rfl, rfl, rfl, rfl, rfl, fun _ => rfl, Or.inr rfl⟩

/-- C15 at the sample database: a rotation, a logout and a login, looking at the record
the table started with. -/
theorem C15_existing_records_only_get_revoked_witness :
    ∃ row2,
      (sampleService.calls sampleKey sampleLib sampleSum256 sampleDB
        [.refresh (sampleEnv 50) ⟨"raw"⟩, .logout none "raw",
          .login (sampleLoginEnv 60) ⟨"alice", "secret1"⟩]).refresh_tokens[0]? = some row2 ∧
      row2.ID = "t1" ∧ row2.UserID = "u1" ∧
      row2.TokenHash = HashRefreshToken sampleSum256 "raw" ∧
      row2.ExpiresAt = 100 ∧ row2.CreatedAt = 0 ∧
      ((false : Bool) = true → row2.Revoked = true) ∧
      (row2 = { ID := "t1", UserID := "u1", TokenHash := HashRefreshToken sampleSum256 "raw",
                ExpiresAt := 100, CreatedAt := 0, Revoked := false } ∨
        row2 = { ID := "t1", UserID := "u1", TokenHash := HashRefreshToken sampleSum256 "raw",
                 ExpiresAt := 100, CreatedAt := 0, Revoked := true }) :=
  C15_existing_records_only_get_revoked sampleKey sampleLib sampleSum256 sampleService
    sampleDB
    [.refresh (sampleEnv 50) ⟨"raw"⟩, .logout none "raw",
      .login (sampleLoginEnv 60) ⟨"alice", "secret1"⟩]
    0
    { ID := "t1", UserID := "u1", TokenHash := HashRefreshToken sampleSum256 "raw",
      ExpiresAt := 100, CreatedAt := 0, Revoked := false }
    rfl

/-! ## Theorems: failures in the middle of a rotation -/

/-- A lookup that answers found a row with the hash. -/
theorem GetByTokenHash_ok {db : DB} {fault : Option GoError} {tokenHash : String}
    {rt : RefreshToken}
    (h : TokenRepository.GetByTokenHash db fault tokenHash = .ok rt) :
    ∃ row ∈ db.refresh_tokens, row.TokenHash = tokenHash := by
  unfold TokenRepository.GetByTokenHash at h
  cases fault with
  | some err => cases h
  | none =>
    simp only at h
    cases hfirst : firstByID (db.refresh_tokens.filter
        (fun row => row.TokenHash = tokenHash ∧ row.Revoked = false)) with
    | none => rw [hfirst] at h; cases h
    | some row =>
      have hrow := firstByID_mem hfirst
      rw [List.mem_filter] at hrow
      exact ⟨row, hrow.1, (of_decide_eq_true hrow.2).1⟩

/-- An insert leaves the database as it was, or appends one row whose hash no row had. -/
theorem Create_cases (db : DB) (fault : Option GoError) (now : Int) (token : RefreshToken) :
    ((TokenRepository.Create db fault now token).1 = db ∧
      (TokenRepository.Create db fault now token).2 ≠ none) ∨
    ((TokenRepository.Create db fault now token).2 = none ∧
      (∀ row ∈ db.refresh_tokens, row.TokenHash ≠ token.TokenHash) ∧
      ∃ newRow, newRow.TokenHash = token.TokenHash ∧
        (TokenRepository.Create db fault now token).1.refresh_tokens =
          db.refresh_tokens ++ [newRow]) := by
  unfold TokenRepository.Create
  cases fault with
  | some err => left; exact ⟨rfl, by simp⟩
  | none =>
    simp only
    split
    · left; exact ⟨rfl, by simp⟩
    · rename_i hany
      right
      refine ⟨rfl, ?_, _, rfl, rfl⟩
      intro row hrow heq
      apply hany
      rw [List.any_eq_true]
      exact ⟨row, hrow, by simp [heq]⟩

/-- What `RefreshToken` does once the lookup has found a record the code does not take
for expired and the new refresh token has been drawn: the revocation, then the insert. -/
theorem RefreshToken_after_lookup (lib : jwt.Lib) (sum256 : Sum256) (s : AuthService)
    (env : RefreshEnv) (db : DB) (req : RefreshRequest) (rt : RefreshToken)
    (bytes : List Byte)
    (hfound : TokenRepository.GetByTokenHash db env.getFault
      (HashRefreshToken sum256 req.RefreshToken) = .ok rt)
    (hnow : time.After env.nowCheck rt.ExpiresAt = false)
    (hrand : env.randRefresh = .ok bytes) :
    (∀ err, env.revokeFault = some err →
      s.RefreshToken lib sum256 env db req =
        (.error (.wrapf "error revoking old refresh token" err), db)) ∧
    (env.revokeFault = none → ∀ err,
      (TokenRepository.Create
        (TokenRepository.RevokeToken db none (HashRefreshToken sum256 req.RefreshToken)).1
        env.createFault env.nowCreate
        { ID := GenerateUUIDv7 env.uuidNow env.uuidRand env.uuidRandRest
          UserID := rt.User.ID
          TokenHash := HashRefreshToken sum256 (hex.EncodeToString bytes)
          ExpiresAt := time.Add env.nowExpires s.jwtManager.GetRefreshTokenExpiration }).2 =
        some err →
      s.RefreshToken lib sum256 env db req =
        (.error (.wrapf "error saving refresh token" err),
          { users := db.users,
            refresh_tokens := db.refresh_tokens.map
              (revokeRow (HashRefreshToken sum256 req.RefreshToken)) })) := by
  constructor
  · intro err hrev
    simp only [AuthService.RefreshToken, hfound, hnow, GenerateAccessToken_eq,
      GenerateRefreshToken, hrand, hrev, TokenRepository.RevokeToken]
    rfl
  · intro hrev err hcr
    have hc := Create_cases
      (TokenRepository.RevokeToken db none (HashRefreshToken sum256 req.RefreshToken)).1
      env.createFault env.nowCreate
      { ID := GenerateUUIDv7 env.uuidNow env.uuidRand env.uuidRandRest
        UserID := rt.User.ID
        TokenHash := HashRefreshToken sum256 (hex.EncodeToString bytes)
        ExpiresAt := time.Add env.nowExpires s.jwtManager.GetRefreshTokenExpiration }
    rcases hc with ⟨hsame, _⟩ | ⟨hnone, _⟩
    · rw [RevokeToken_eq] at hcr hsame
      simp only [AuthService.RefreshToken, hfound, hnow, GenerateAccessToken_eq,
        GenerateRefreshToken, hrand, hrev, RevokeToken_eq, Bool.false_eq_true, if_false]
      generalize TokenRepository.Create _ _ _ _ = res at hcr hsame
      obtain ⟨db2, e⟩ := res
      simp only at hcr hsame
      subst hcr
      subst hsame
      rfl
    · rw [hnone] at hcr
      cases hcr

/-- The states of a rotation begin with the database the call is given and end with the
one it leaves. -/
theorem RefreshTokenStates_ends (lib : jwt.Lib) (sum256 : Sum256) (s : AuthService)
    (env : RefreshEnv) (db : DB) (req : RefreshRequest) :
    (s.RefreshTokenStates lib sum256 env db req).head? = some db ∧
    (s.RefreshTokenStates lib sum256 env db req).getLast? =
      some (s.RefreshToken lib sum256 env db req).2 := by
  unfold AuthService.RefreshTokenStates AuthService.RefreshToken
  dsimp only
  cases TokenRepository.GetByTokenHash db env.getFault
      (HashRefreshToken sum256 req.RefreshToken) with
  | error err =>
    dsimp only
    split <;> exact ⟨rfl, rfl⟩
  | ok rt =>
    simp only [GenerateAccessToken_eq]
    by_cases hafter : time.After env.nowCheck rt.ExpiresAt = true
    · simp only [hafter, if_true]
      exact ⟨rfl, rfl⟩
    · simp only [hafter, Bool.false_eq_true, if_false]
      cases GenerateRefreshToken env.randRefresh with
      | error e => exact ⟨rfl, rfl⟩
      | ok newStr =>
        dsimp only
        cases TokenRepository.RevokeToken db env.revokeFault
            (HashRefreshToken sum256 req.RefreshToken) with
        | mk db1 e =>
          cases e with
          | some err => exact ⟨rfl, rfl⟩
          | none =>
            dsimp only
            cases TokenRepository.Create db1 env.createFault env.nowCreate
                { ID := GenerateUUIDv7 env.uuidNow env.uuidRand env.uuidRandRest
                  UserID := rt.User.ID
                  TokenHash := HashRefreshToken sum256 newStr
                  ExpiresAt := time.Add env.nowExpires
                    s.jwtManager.GetRefreshTokenExpiration } with
            | mk db2 e2 => cases e2 <;> exact ⟨rfl, rfl⟩

/-- During a rotation the table is, at every state, either the initial one with some
records revoked and nothing added, or one in which every record with the presented hash
is revoked. -/
theorem RefreshTokenStates_safe (lib : jwt.Lib) (sum256 : Sum256) (s : AuthService)
    (env : RefreshEnv) (db : DB) (req : RefreshRequest) :
    ∀ st ∈ s.RefreshTokenStates lib sum256 env db req,
      List.Forall₂ RowKept db.refresh_tokens st.refresh_tokens ∨
      (∀ row ∈ st.refresh_tokens,
        row.TokenHash = HashRefreshToken sum256 req.RefreshToken → row.Revoked = true) := by
  have hrevoke : ∀ fault, List.Forall₂ RowKept db.refresh_tokens
      (TokenRepository.RevokeToken db fault
        (HashRefreshToken sum256 req.RefreshToken)).1.refresh_tokens := by
    intro fault
    cases fault with
    | some err => exact Forall₂_RowKept_refl _
    | none => exact Forall₂_RowKept_revoke _ _
  have hself : List.Forall₂ RowKept db.refresh_tokens db.refresh_tokens :=
    Forall₂_RowKept_refl _
  unfold AuthService.RefreshTokenStates
  dsimp only
  split
  · intro st hst
    simp only [List.mem_singleton] at hst
    subst hst
    exact Or.inl hself
  · rename_i rt hfound
    split
    · intro st hst
      simp only [List.mem_cons, List.mem_singleton, List.not_mem_nil, or_false] at hst
      rcases hst with rfl | rfl
      · exact Or.inl hself
      · exact Or.inl (hrevoke _)
    · split
      · intro st hst
        simp only [List.mem_singleton] at hst
        subst hst
        exact Or.inl hself
      · split
        · intro st hst
          simp only [List.mem_singleton] at hst
          subst hst
          exact Or.inl hself
        · rename_i newStr _
          split
          · rename_i db1 err h
            intro st hst
            simp only [List.mem_cons, List.mem_singleton, List.not_mem_nil, or_false] at hst
            have h1 := hrevoke env.revokeFault
            rw [h] at h1
            rcases hst with rfl | rfl
            · exact Or.inl hself
            · exact Or.inl h1
          · rename_i db1 h
            have hf : env.revokeFault = none := by
              cases hfault : env.revokeFault with
              | none => rfl
              | some e =>
                rw [hfault] at h
                simp [TokenRepository.RevokeToken] at h
            rw [hf] at h
            have hdb1 : db1 = (TokenRepository.RevokeToken db none
                (HashRefreshToken sum256 req.RefreshToken)).1 := by rw [h]
            have hrev1 : ∀ row ∈ db1.refresh_tokens,
                row.TokenHash = HashRefreshToken sum256 req.RefreshToken →
                row.Revoked = true := by
              rw [hdb1]
              exact RevokeToken_revoked db _
            intro st hst
            simp only [List.mem_cons, List.mem_singleton, List.not_mem_nil, or_false] at hst
            rcases hst with rfl | rfl | rfl
            · exact Or.inl hself
            · right
              exact hrev1
            · right
              rcases Create_cases db1 env.createFault env.nowCreate
                { ID := GenerateUUIDv7 env.uuidNow env.uuidRand env.uuidRandRest
                  UserID := rt.User.ID
                  TokenHash := HashRefreshToken sum256 newStr
                  ExpiresAt := time.Add env.nowExpires
                    s.jwtManager.GetRefreshTokenExpiration } with
                ⟨hsame, _⟩ | ⟨_, hnew, newRow, hnh, happ⟩
              · rw [hsame]
                exact hrev1
              · rw [happ]
                intro row hrow hh
                simp only [List.mem_append, List.mem_singleton] at hrow
                rcases hrow with hrow | rfl
                · exact hrev1 row hrow hh
                · exfalso
                  obtain ⟨r0, hr0, hr0h⟩ := GetByTokenHash_ok hfound
                  have hin : revokeRow (HashRefreshToken sum256 req.RefreshToken) r0 ∈
                      db1.refresh_tokens := by
                    rw [hdb1, RevokeToken_eq]
                    exact List.mem_map.mpr ⟨r0, hr0, rfl⟩
                  apply hnew _ hin
                  rw [revokeRow_TokenHash, hr0h, ← hh, hnh]

/-- C16. In `RefreshToken`, once the lookup has found a record the code does not take for
expired and the new refresh token has been drawn: if revoking the old token fails, the
call returns an error, no tokens, and the database as it was; if persisting the new record
fails, for whatever reason, the call returns an error, no tokens, and the database with
every record of the presented hash revoked and nothing added. The states the database goes
through begin with the given one and end with the returned one, and in each of them either
nothing has been added to the initial table or every record with the presented hash is
revoked: the presented token and a replacement are never both unrevoked. -/
theorem C16_failed_rotation_never_leaves_two_live_tokens (lib : jwt.Lib) (sum256 : Sum256)
    (s : AuthService) (env : RefreshEnv) (db : DB) (req : RefreshRequest)
    (rt : RefreshToken) (bytes : List Byte)
    (hfound : TokenRepository.GetByTokenHash db env.getFault
      (HashRefreshToken sum256 req.RefreshToken) = .ok rt)
    (hnow : time.After env.nowCheck rt.ExpiresAt = false)
    (hrand : env.randRefresh = .ok bytes) :
    (∀ err, env.revokeFault = some err →
      s.RefreshToken lib sum256 env db req =
        (.error (.wrapf "error revoking old refresh token" err), db)) ∧
    (env.revokeFault = none → ∀ err,
      (TokenRepository.Create
        (TokenRepository.RevokeToken db none (HashRefreshToken sum256 req.RefreshToken)).1
        env.createFault env.nowCreate
        { ID := GenerateUUIDv7 env.uuidNow env.uuidRand env.uuidRandRest
          UserID := rt.User.ID
          TokenHash := HashRefreshToken sum256 (hex.EncodeToString bytes)
          ExpiresAt := time.Add env.nowExpires s.jwtManager.GetRefreshTokenExpiration }).2 =
        some err →
      s.RefreshToken lib sum256 env db req =
        (.error (.wrapf "error saving refresh token" err),
          { users := db.users,
            refresh_tokens := db.refresh_tokens.map
              (revokeRow (HashRefreshToken sum256 req.RefreshToken)) }) ∧
      (∀ row ∈ db.refresh_tokens.map (revokeRow (HashRefreshToken sum256 req.RefreshToken)),
        row.TokenHash = HashRefreshToken sum256 req.RefreshToken → row.Revoked = true) ∧
      (db.refresh_tokens.map
        (revokeRow (HashRefreshToken sum256 req.RefreshToken))).length =
        db.refresh_tokens.length) ∧
    (s.RefreshTokenStates lib sum256 env db req).head? = some db ∧
    (s.RefreshTokenStates lib sum256 env db req).getLast? =
      some (s.RefreshToken lib sum256 env db req).2 ∧
    (∀ st ∈ s.RefreshTokenStates lib sum256 env db req,
      List.Forall₂ RowKept db.refresh_tokens st.refresh_tokens ∨
      (∀ row ∈ st.refresh_tokens,
        row.TokenHash = HashRefreshToken sum256 req.RefreshToken → row.Revoked = true)) := by
  obtain ⟨h1, h2⟩ := RefreshToken_after_lookup lib sum256 s env db req rt bytes hfound hnow
    hrand
  obtain ⟨h3, h4⟩ := RefreshTokenStates_ends lib sum256 s env db req
  refine ⟨h1, ?_, h3, h4, RefreshTokenStates_safe lib sum256 s env db req⟩
  intro hrev err hcr
  refine ⟨h2 hrev err hcr, ?_, by simp⟩
  have := RevokeToken_revoked db (HashRefreshToken sum256 req.RefreshToken)
  rw [RevokeToken_eq] at this
  exact this

/-- C16 at the sample database, with the insert failing at the driver. -/
theorem C16_failed_rotation_never_leaves_two_live_tokens_witness :
    sampleService.RefreshToken sampleLib sampleSum256 (sampleEnvCreateFails 50) sampleDB
        ⟨"raw"⟩ =
      (.error (.wrapf "error saving refresh token" (.external "connection lost")),
        { users := sampleDB.users,
          refresh_tokens := sampleDB.refresh_tokens.map
            (revokeRow (HashRefreshToken sampleSum256 "raw")) }) ∧
    (∀ st ∈ sampleService.RefreshTokenStates sampleLib sampleSum256 (sampleEnvCreateFails 50)
        sampleDB ⟨"raw"⟩,
      List.Forall₂ RowKept sampleDB.refresh_tokens st.refresh_tokens ∨
      (∀ row ∈ st.refresh_tokens,
        row.TokenHash = HashRefreshToken sampleSum256 "raw" → row.Revoked = true)) :=
  have h := C16_failed_rotation_never_leaves_two_live_tokens sampleLib sampleSum256
    sampleService (sampleEnvCreateFails 50) sampleDB ⟨"raw"⟩
    { ID := "t1", UserID := "u1", TokenHash := HashRefreshToken sampleSum256 "raw",
      ExpiresAt := 100, CreatedAt := 0, Revoked := false,
      User := { ID := "u1", Username := "alice", Email := "alice@x.com" } }
    [1, 2, 3] (by decide) (by decide) rfl
  ⟨(h.2.1 rfl (.external "connection lost") rfl).1, h.2.2.2.2⟩

/-! ## Theorems: internal/utils/uuid.go -/

/-- C17, the failing input. At the clock reading 1700000000000 ms the 48-bit big-endian
timestamp is `018bcfe56800`, but the first six bytes of the buffer, and so the first
twelve hex digits of the identifier, are `0000018bcfe5`: the upper six of the eight bytes
`PutUint64` wrote, which the self-copy leaves in place. The identifier generated one
millisecond later with a smaller random nibble sorts before the earlier one. -/
theorem C17_first_six_bytes_are_timestamp_shifted :
    time.UnixMilli 1700000000000000000 = 1700000000000 ∧
    hex.EncodeToString ((PutUint64 1700000000000).drop 2) = "018bcfe56800" ∧
    hex.EncodeToString ((PutUint64 1700000000000).take 6) = "0000018bcfe5" ∧
    GenerateUUIDv7 1700000000000000000 [0xff, 0] [0, 0, 0, 0, 0, 0, 0] =
      "0000018b-cfe5-7f00-8000-000000000000" ∧
    GenerateUUIDv7 1700000000001000000 [0, 0] [0, 0, 0, 0, 0, 0, 0] =
      "0000018b-cfe5-7001-8000-000000000000" ∧
    (GenerateUUIDv7 1700000000001000000 [0, 0] [0, 0, 0, 0, 0, 0, 0]).toList <
      (GenerateUUIDv7 1700000000000000000 [0xff, 0] [0, 0, 0, 0, 0, 0, 0]).toList := by
  refine ⟨by decide, by decide, by decide, by decide, by decide, by decide⟩

/-! ## Theorems: IsTokenValid -/

/-- The query of `IsTokenValid` answers whether some record has the hash, is not revoked
and expires strictly after `now`. -/
theorem IsTokenValid_eq (db : DB) (now : Int) (tokenHash : String) :
    TokenRepository.IsTokenValid db none now tokenHash =
      .ok (decide (∃ row ∈ db.refresh_tokens,
        row.TokenHash = tokenHash ∧ row.Revoked = false ∧ now < row.ExpiresAt)) := by
  unfold TokenRepository.IsTokenValid
  simp only
  cases hfirst : firstByID (db.refresh_tokens.filter
      (fun row => row.TokenHash = tokenHash ∧ row.Revoked = false ∧ row.ExpiresAt > now)) with
  | none =>
    have hnil := firstByID_eq_none hfirst
    have : ¬ ∃ row ∈ db.refresh_tokens,
        row.TokenHash = tokenHash ∧ row.Revoked = false ∧ now < row.ExpiresAt := by
      rintro ⟨row, hrow, h1, h2, h3⟩
      have hin : row ∈ db.refresh_tokens.filter
          (fun row => row.TokenHash = tokenHash ∧ row.Revoked = false ∧
            row.ExpiresAt > now) := by
        rw [List.mem_filter]
        exact ⟨hrow, decide_eq_true ⟨h1, h2, h3⟩⟩
      rw [hnil] at hin
      cases hin
    simp only [this, decide_False]
  | some row =>
    have hrow := firstByID_mem hfirst
    rw [List.mem_filter] at hrow
    have hp := of_decide_eq_true hrow.2
    have : ∃ row ∈ db.refresh_tokens,
        row.TokenHash = tokenHash ∧ row.Revoked = false ∧ now < row.ExpiresAt :=
      ⟨row, hrow.1, hp.1, hp.2.1, hp.2.2⟩
    simp only [this, decide_True]

/-- Away from the expiry instant the two tests agree: for the one unrevoked record with
the hash and a clock reading other than its expiry, `IsTokenValid` is true exactly when
`RefreshToken` does not take the record for expired. -/
theorem IsTokenValid_agrees_off_the_instant (db : DB) (hkeys : db.TokenKeysUnique)
    (r : RefreshTokenRow) (hmem : r ∈ db.refresh_tokens) (hrev : r.Revoked = false)
    (now : Int) (hne : now ≠ r.ExpiresAt) :
    TokenRepository.IsTokenValid db none now r.TokenHash =
      .ok (!time.After now r.ExpiresAt) := by
  rw [IsTokenValid_eq]
  congr 1
  by_cases hlt : now < r.ExpiresAt
  · have hex : ∃ row ∈ db.refresh_tokens,
        row.TokenHash = r.TokenHash ∧ row.Revoked = false ∧ now < row.ExpiresAt :=
      ⟨r, hmem, rfl, hrev, hlt⟩
    have hna : ¬ now > r.ExpiresAt := by omega
    simp [time.After, hex, hna]
  · have hnex : ¬ ∃ row ∈ db.refresh_tokens,
        row.TokenHash = r.TokenHash ∧ row.Revoked = false ∧ now < row.ExpiresAt := by
      rintro ⟨row, hrow, h1, _, h3⟩
      have := row_eq_of_hash_eq hkeys hrow hmem h1
      subst this
      exact hlt h3
    have hgt : now > r.ExpiresAt := by omega
    simp [time.After, hnex, hgt]

/-- C18, the failing input. The sample record is not revoked and expires at the instant
100. At the clock reading 100 `IsTokenValid` answers false, as the claim's first half
says it must (the expiry is not strictly after `now`), yet `RefreshToken` passes its lookup
and its expiry check and answers with a response: the two tests disagree. -/
theorem C18_IsTokenValid_and_RefreshToken_disagree_at_expiry :
    TokenRepository.IsTokenValid sampleDB none 100 (HashRefreshToken sampleSum256 "raw") =
      .ok false ∧
    (∃ row ∈ sampleDB.refresh_tokens,
      row.TokenHash = HashRefreshToken sampleSum256 "raw" ∧ row.Revoked = false ∧
      row.ExpiresAt = 100) ∧
    time.After 100 100 = false ∧
    ∃ resp, (sampleService.RefreshToken sampleLib sampleSum256 (sampleEnv 100) sampleDB
      ⟨"raw"⟩).1 = .ok resp := by
  refine ⟨by decide, ⟨_, List.mem_singleton.mpr rfl, rfl, rfl, rfl⟩, by decide, ?_⟩
  obtain ⟨resp, hres, _⟩ := RefreshToken_rotates sampleLib sampleSum256 sampleService
    (sampleEnv 100) sampleDB "raw"
    { ID := "t1", UserID := "u1", TokenHash := HashRefreshToken sampleSum256 "raw",
      ExpiresAt := 100, CreatedAt := 0, Revoked := false }
    [1, 2, 3] sampleDB_keys (List.mem_singleton.mpr rfl) rfl rfl (by decide)
    rfl rfl rfl rfl (sampleDB_fresh 100)
  exact ⟨resp, by rw [hres]⟩

/-! ## Theorems: the comparison in VerifyPassword -/

/-- The counted loop returns what the loop returns. -/
theorem compareLoopCount_fst : ∀ (hash cmp : List Byte),
    (compareLoopCount hash cmp).1 = compareLoop hash cmp
  | [], _ => by simp [compareLoopCount, compareLoop]
  | _ :: _, [] => by simp [compareLoopCount, compareLoop]
  | x :: xs, y :: ys => by
    have ih := compareLoopCount_fst xs ys
    by_cases hxy : x = y
    · simp [compareLoopCount, compareLoop, hxy, ih]
    · simp [compareLoopCount, compareLoop, hxy]

/-- The counted `VerifyPassword` returns what `VerifyPassword` returns. -/
theorem VerifyPasswordCount_fst (idKey : IDKey) (password encodedHash : String) :
    (VerifyPasswordCount idKey password encodedHash).map Prod.fst =
      VerifyPassword idKey password encodedHash := by
  unfold VerifyPasswordCount VerifyPassword
  cases base64.DecodeString encodedHash with
  | error err => rfl
  | ok combined =>
    dsimp only
    split_ifs
    · rfl
    · rfl
    · simp only [Except.map, compareLoopCount_fst]

/-- The loop stops at the first index where the bytes differ: after a common prefix of
`n` bytes and a differing byte it has made `n + 1` comparisons. -/
theorem compareLoopCount_first_difference : ∀ (pre : List Byte) (x y : Byte)
    (t1 t2 : List Byte), x ≠ y →
    compareLoopCount (pre ++ x :: t1) (pre ++ y :: t2) = (false, pre.length + 1)
  | [], x, y, t1, t2, h => by simp [compareLoopCount, h]
  | p :: pre, x, y, t1, t2, h => by
    have ih := compareLoopCount_first_difference pre x y t1 t2 h
    simp [compareLoopCount, ih]

/-- What the counted `VerifyPassword` returns once the encoded hash decodes to 48 bytes
and the recomputed key has 32. -/
theorem VerifyPasswordCount_of_decoded (idKey : IDKey) (hk : idKey.HasKeyLen)
    (password encodedHash : String) (combined : List Byte)
    (hdec : base64.DecodeString encodedHash = .ok combined)
    (hlen : combined.length = saltLen + argonKeyLen) :
    VerifyPasswordCount idKey password encodedHash =
      .ok (compareLoopCount (combined.drop saltLen)
        (idKey (bytesOf password) (combined.take saltLen)
          argonTime argonMemory argonThreads argonKeyLen)) := by
  unfold VerifyPasswordCount
  rw [hdec]
  have hl : (combined.drop saltLen).length =
      (idKey (bytesOf password) (combined.take saltLen)
        argonTime argonMemory argonThreads argonKeyLen).length := by
    rw [hk, List.length_drop, hlen]
    rfl
  simp only [hlen, ne_eq, not_true_eq_false, if_false, hl]

/-- C19, the failing input. With the same password and salt, an embedded key that differs
from the recomputed one in its first byte costs `VerifyPassword` one byte comparison, and
one that differs only in its last byte costs it 32: the number of comparisons depends on
the position of the first differing byte. -/
theorem C19_comparison_count_depends_on_position :
    VerifyPasswordCount zeroKey "secret1"
        (base64.EncodeToString (List.replicate 16 0 ++ (1 :: List.replicate 31 0))) =
      .ok (false, 1) ∧
    VerifyPasswordCount zeroKey "secret1"
        (base64.EncodeToString (List.replicate 16 0 ++ (List.replicate 31 0 ++ [1]))) =
      .ok (false, 32) ∧
    VerifyPassword zeroKey "secret1"
        (base64.EncodeToString (List.replicate 16 0 ++ (1 :: List.replicate 31 0))) =
      .ok false ∧
    VerifyPassword zeroKey "secret1"
        (base64.EncodeToString (List.replicate 16 0 ++ (List.replicate 31 0 ++ [1]))) =
      .ok false := by
  have h1 := VerifyPasswordCount_of_decoded zeroKey zeroKey_hasKeyLen "secret1" _ _
    (base64.DecodeString_EncodeToString
      (List.replicate 16 0 ++ (1 :: List.replicate 31 0))) (by decide)
  have h2 := VerifyPasswordCount_of_decoded zeroKey zeroKey_hasKeyLen "secret1" _ _
    (base64.DecodeString_EncodeToString
      (List.replicate 16 0 ++ (List.replicate 31 0 ++ [1]))) (by decide)
  have e1 : VerifyPasswordCount zeroKey "secret1"
      (base64.EncodeToString (List.replicate 16 0 ++ (1 :: List.replicate 31 0))) =
      .ok (false, 1) := by
    rw [h1]
    decide
  have e2 : VerifyPasswordCount zeroKey "secret1"
      (base64.EncodeToString (List.replicate 16 0 ++ (List.replicate 31 0 ++ [1]))) =
      .ok (false, 32) := by
    rw [h2]
    decide
  refine ⟨e1, e2, ?_, ?_⟩
  · rw [← VerifyPasswordCount_fst, e1]
    rfl
  · rw [← VerifyPasswordCount_fst, e2]
    rfl

/-! ## Theorems: internal/config/config.go -/

/-- C20. For every process environment and `.env` file such that, once the file has been
merged in, `JWT_SECRET` is unset or empty in the environment `Load` reads, and whatever
the other variables and the two parsers are, `Load` returns an error and no
configuration. -/
theorem C20_load_fails_without_secret (Atoi ParseDuration : String → Except GoError Int)
    (dotenv : Option (String → Option String)) (procEnv : config.Environ)
    (h : config.godotenvLoad dotenv procEnv "JWT_SECRET" = none ∨
      config.godotenvLoad dotenv procEnv "JWT_SECRET" = some "") :
    ∃ err, config.Load Atoi ParseDuration dotenv procEnv = .error err := by
  have hsecret : config.getEnv (config.godotenvLoad dotenv procEnv) "JWT_SECRET" "" = "" := by
    unfold config.getEnv config.Getenv
    rcases h with h | h <;> simp [h]
  unfold config.Load
  dsimp only
  cases Atoi (config.getEnv (config.godotenvLoad dotenv procEnv) "DB_PORT" "5432") with
  | error e => exact ⟨_, rfl⟩
  | ok dbPort =>
    dsimp only
    cases ParseDuration
        (config.getEnv (config.godotenvLoad dotenv procEnv) "ACCESS_TOKEN_EXP" "15m") with
    | error e => exact ⟨_, rfl⟩
    | ok a =>
      dsimp only
      cases ParseDuration
          (config.getEnv (config.godotenvLoad dotenv procEnv) "REFRESH_TOKEN_EXP" "168h") with
      | error e => exact ⟨_, rfl⟩
      | ok r =>
        dsimp only
        by_cases hurl :
            config.getEnv (config.godotenvLoad dotenv procEnv) "DATABASE_URL" "" = ""
        · exact ⟨_, by rw [if_pos hurl]⟩
        · exact ⟨_, by rw [if_neg hurl, if_pos hsecret]⟩

/-- C20 at an environment where everything `Load` requires but the secret is set. -/
theorem C20_load_fails_without_secret_witness :
    (config.godotenvLoad none sampleEnviron "JWT_SECRET" = none ∨
      config.godotenvLoad none sampleEnviron "JWT_SECRET" = some "") ∧
    ∃ err, config.Load sampleParse sampleParse none sampleEnviron = .error err :=
  ⟨Or.inl (by decide),
    C20_load_fails_without_secret sampleParse sampleParse none sampleEnviron
      (Or.inl (by decide))⟩

/-! ## Theorems: the refresh handler's error mapping -/

theorem handler_RefreshToken_error (text : GoError → String) (lib : jwt.Lib)
    (sum256 : Sum256) (h : AuthHandler) (env : RefreshEnv) (db db1 : DB)
    (req : RefreshRequest) (err : GoError) (hreq : req.RefreshToken ≠ "")
    (hres : h.authService.RefreshToken lib sum256 env db req = (.error err, db1)) :
    h.RefreshToken text lib sum256 (.ok req) env db =
      (if strings.Contains (err.Error text) "invalid" ||
          strings.Contains (err.Error text) "expired" then
        response.Unauthorized (err.Error text)
      else response.InternalError constants.MsgInternalError, db1) := by
  simp only [AuthHandler.RefreshToken, hreq, if_false, hres]
  split <;> rfl

/-- C23, the failing input. The sample database holds no record for the raw value
"other", so `AuthService.RefreshToken` fails with the InvalidToken error, whose text is
"Invalid token". The handler looks for the lowercase substrings "invalid" and "expired"
in that text, finds neither, and answers 500 with "Internal server error" instead of 401
with the message. For the expired record (clock reading 101, raw value "raw") the text
"Token has expired" contains "expired" and the answer is 401 with that message. -/
theorem C23_invalid_token_is_answered_500 :
    sampleService.RefreshToken sampleLib sampleSum256 (sampleEnv 50) sampleDB ⟨"other"⟩ =
      (.error (.errorf constants.MsgInvalidToken), sampleDB) ∧
    (∀ text : GoError → String,
      sampleHandler.RefreshToken text sampleLib sampleSum256 (.ok ⟨"other"⟩) (sampleEnv 50)
          sampleDB =
        ({ StatusCode := 500,
           Data := .error { Error := "Internal server error", Code := "INTERNAL_ERROR" } },
          sampleDB)) ∧
    strings.Contains constants.MsgInvalidToken "invalid" = false ∧
    strings.Contains constants.MsgInvalidToken "expired" = false ∧
    (∀ text : GoError → String,
      (sampleHandler.RefreshToken text sampleLib sampleSum256 (.ok ⟨"raw"⟩) (sampleEnv 101)
          sampleDB).1 =
        { StatusCode := 401,
          Data := .error { Error := "Token has expired", Code := "UNAUTHORIZED" } }) := by
  have hunknown :
      sampleService.RefreshToken sampleLib sampleSum256 (sampleEnv 50) sampleDB ⟨"other"⟩ =
        (.error (.errorf constants.MsgInvalidToken), sampleDB) := by
    apply RefreshToken_unknown sampleLib sampleSum256 sampleService (sampleEnv 50) sampleDB
      "other" rfl
    intro row hrow hh
    simp only [sampleDB, List.mem_singleton] at hrow
    subst hrow
    revert hh
    decide
  have hexpired := (RefreshToken_expired sampleLib sampleSum256 sampleService
    (sampleEnv 101) sampleDB "raw"
    { ID := "t1", UserID := "u1", TokenHash := HashRefreshToken sampleSum256 "raw",
      ExpiresAt := 100, CreatedAt := 0, Revoked := false }
    sampleDB_keys (List.mem_singleton.mpr rfl) rfl rfl (by decide) rfl rfl).1
  refine ⟨hunknown, ?_, by decide, by decide, ?_⟩
  · intro text
    rw [handler_RefreshToken_error text sampleLib sampleSum256 sampleHandler (sampleEnv 50)
      sampleDB sampleDB ⟨"other"⟩ _ (by decide) hunknown]
    rfl
  · intro text
    rw [handler_RefreshToken_error text sampleLib sampleSum256 sampleHandler (sampleEnv 101)
      sampleDB _ ⟨"raw"⟩ _ (by decide) hexpired]
    rfl

/-! ## Theorems: refresh-token values -/

theorem hex_digit_mem (v : Nat) (h : v < 16) :
    hex.hextable.getD v '0' ∈ hex.hextable := by
  have hall : ∀ i : Fin 16, hex.hextable.getD i.val '0' ∈ hex.hextable := by decide
  exact hall ⟨v, h⟩

theorem hex_fromHexChar_digit (v : Nat) (h : v < 16) :
    hex.fromHexChar (hex.hextable.getD v '0') = some v := by
  have hall : ∀ i : Fin 16, hex.fromHexChar (hex.hextable.getD i.val '0') = some i.val := by
    decide
  exact hall ⟨v, h⟩

/-- Every character `hex.EncodeToString` writes is one of `0123456789abcdef`. -/
theorem hex_encodeChars_lower : ∀ src : List Byte, ∀ c ∈ hex.encodeChars src,
    c ∈ hex.hextable
  | [], c, hc => by simp [hex.encodeChars] at hc
  | v :: rest, c, hc => by
    have hv := base64.toNat_lt v
    simp only [hex.encodeChars, List.mem_cons] at hc
    rcases hc with h | h | h
    · rw [h]; exact hex_digit_mem _ (by omega)
    · rw [h]; exact hex_digit_mem _ (Nat.mod_lt _ (by decide))
    · exact hex_encodeChars_lower rest c h

theorem hex_decodeChars_encodeChars : ∀ src : List Byte,
    hex.decodeChars (hex.encodeChars src) = some src
  | [] => rfl
  | v :: rest => by
    have hv := base64.toNat_lt v
    have hbyte : UInt8.ofNat (v.toNat / 16 * 16 + v.toNat % 16) = v := by
      rw [Nat.div_add_mod']
      exact base64.ofNat_toNat v
    simp only [hex.encodeChars, hex.decodeChars,
      hex_fromHexChar_digit (v.toNat / 16) (by omega),
      hex_fromHexChar_digit (v.toNat % 16) (Nat.mod_lt _ (by decide)),
      hex_decodeChars_encodeChars rest, hbyte]

/-- The function `hex.DecodeString` gives back the bytes `hex.EncodeToString` was given. -/
theorem hex_DecodeString_EncodeToString (src : List Byte) :
    hex.DecodeString (hex.EncodeToString src) = .ok src := by
  simp only [hex.DecodeString, hex.EncodeToString, String.toList,
    hex_decodeChars_encodeChars]

theorem hex_EncodeToString_injective (a b : List Byte)
    (h : hex.EncodeToString a = hex.EncodeToString b) : a = b := by
  have ha := hex_DecodeString_EncodeToString a
  rw [h, hex_DecodeString_EncodeToString b] at ha
  exact (Except.ok.inj ha).symm

/-- C21. For every draw of 32 bytes `GenerateRefreshToken` returns a token of exactly 64
characters, each one of `0123456789abcdef`, that `hex.DecodeString` decodes back to the
drawn bytes, and a different draw gives a different token. With `sha256.Sum256` returning
32 bytes, `HashRefreshToken` is the function that hex-encodes the digest of the token's
bytes, so equal tokens have equal hashes, and its result has exactly 64 characters, each
one of `0123456789abcdef`. -/
theorem C21_refresh_token_and_hash_are_64_hex (sum256 : Sum256) (bytes : List Byte)
    (hsum : ∀ b : List Byte, (sum256 b).length = 32) (hlen : bytes.length = 32) :
    (∃ token : String,
      GenerateRefreshToken (.ok bytes) = .ok token ∧
      token.length = 64 ∧
      (∀ c ∈ token.toList, c ∈ "0123456789abcdef".toList) ∧
      hex.DecodeString token = .ok bytes ∧
      ∀ (bytes2 : List Byte) (token2 : String), bytes2 ≠ bytes →
        GenerateRefreshToken (.ok bytes2) = .ok token2 → token2 ≠ token) ∧
    ∀ token : String,
      HashRefreshToken sum256 token = hex.EncodeToString (sum256 (bytesOf token)) ∧
      (∀ token2 : String, token2 = token →
        HashRefreshToken sum256 token2 = HashRefreshToken sum256 token) ∧
      (HashRefreshToken sum256 token).length = 64 ∧
      ∀ c ∈ (HashRefreshToken sum256 token).toList, c ∈ "0123456789abcdef".toList := by
  constructor
  · refine ⟨hex.EncodeToString bytes, rfl, ?_, ?_, hex_DecodeString_EncodeToString bytes, ?_⟩
    · rw [hex_EncodeToString_length, hlen]
    · exact hex_encodeChars_lower bytes
    · intro bytes2 token2 hne hgen htok
      simp only [GenerateRefreshToken, Except.ok.injEq] at hgen
      rw [← hgen] at htok
      exact hne (hex_EncodeToString_injective _ _ htok)
  · intro token
    refine ⟨rfl, ?_, ?_, ?_⟩
    · intro token2 h
      rw [h]
    · simp only [HashRefreshToken]
      rw [hex_EncodeToString_length, hsum]
    · exact hex_encodeChars_lower (sum256 (bytesOf token))

theorem C21_refresh_token_and_hash_are_64_hex_witness :
    (∀ b : List Byte, (sampleSum32 b).length = 32) ∧
    (List.replicate 32 (171 : Byte)).length = 32 ∧
    GenerateRefreshToken (.ok (List.replicate 32 171)) =
      .ok "abababababababababababababababababababababababababababababababab" ∧
    (HashRefreshToken sampleSum32 "raw").length = 64 :=
  have hsum : ∀ b : List Byte, (sampleSum32 b).length = 32 := fun b => by
    simp only [sampleSum32, List.length_take, List.length_append, List.length_replicate]
    omega
  ⟨hsum, by decide, by decide,
    ((C21_refresh_token_and_hash_are_64_hex sampleSum32 (List.replicate 32 171) hsum
      (by decide)).2 "raw").2.2.1⟩

/-! ## Theorems: the layout of identifiers -/

theorem hex_hi_mem (b : Byte) : hex.hextable.getD (b.toNat / 16) '0' ∈ hex.hextable := by
  have hb := base64.toNat_lt b
  exact hex_digit_mem _ (by omega)

theorem hex_lo_mem (b : Byte) : hex.hextable.getD (b.toNat % 16) '0' ∈ hex.hextable :=
  hex_digit_mem _ (Nat.mod_lt _ (by decide))

/-- The characters `formatUUID` writes for sixteen bytes. -/
theorem formatUUID_chars (b0 b1 b2 b3 b4 b5 b6 b7 b8 b9 b10 b11 b12 b13 b14 b15 : Byte) :
    (formatUUID [b0, b1, b2, b3, b4, b5, b6, b7, b8, b9, b10, b11, b12, b13, b14, b15]).toList =
      hex.encodeChars [b0, b1, b2, b3] ++ '-' :: (hex.encodeChars [b4, b5] ++
        '-' :: (hex.encodeChars [b6, b7] ++ '-' :: (hex.encodeChars [b8, b9] ++
          '-' :: hex.encodeChars [b10, b11, b12, b13, b14, b15]))) := rfl

set_option maxRecDepth 100000 in
theorem version_nibble (r : Byte) : ((r &&& 0x0f) ||| 0x70).toNat / 16 = 7 := by
  have hall : ∀ i : Fin 256, ((UInt8.ofNat i.val &&& 0x0f) ||| 0x70).toNat / 16 = 7 := by
    decide
  have h := hall ⟨r.toNat, base64.toNat_lt r⟩
  rwa [base64.ofNat_toNat] at h

set_option maxRecDepth 100000 in
theorem variant_nibble (r : Byte) :
    ((r &&& 0x3f) ||| 0x80).toNat / 16 = 8 ∨ ((r &&& 0x3f) ||| 0x80).toNat / 16 = 9 ∨
    ((r &&& 0x3f) ||| 0x80).toNat / 16 = 10 ∨ ((r &&& 0x3f) ||| 0x80).toNat / 16 = 11 := by
  have hall : ∀ i : Fin 256,
      ((UInt8.ofNat i.val &&& 0x3f) ||| 0x80).toNat / 16 = 8 ∨
      ((UInt8.ofNat i.val &&& 0x3f) ||| 0x80).toNat / 16 = 9 ∨
      ((UInt8.ofNat i.val &&& 0x3f) ||| 0x80).toNat / 16 = 10 ∨
      ((UInt8.ofNat i.val &&& 0x3f) ||| 0x80).toNat / 16 = 11 := by
    decide
  have h := hall ⟨r.toNat, base64.toNat_lt r⟩
  rwa [base64.ofNat_toNat] at h

theorem list_length_seven {α : Type} : ∀ l : List α, l.length = 7 →
    ∃ c0 c1 c2 c3 c4 c5 c6, l = [c0, c1, c2, c3, c4, c5, c6]
  | [c0, c1, c2, c3, c4, c5, c6], _ => ⟨c0, c1, c2, c3, c4, c5, c6, rfl⟩

/-- The sixteen bytes `GenerateUUIDv7` formats: bytes 6 and 8 carry the version and the
variant bits. -/
theorem GenerateUUIDv7_bytes (now : Int) (randBytes randRest : List Byte) :
    ∃ b0 b1 b2 b3 b4 b5 b7 c0 c1 c2 c3 c4 c5 c6 : Byte,
      GenerateUUIDv7 now randBytes randRest =
        formatUUID [b0, b1, b2, b3, b4, b5, (randBytes.getD 0 0 &&& 0x0f) ||| 0x70, b7,
          (randBytes.getD 1 0 &&& 0x3f) ||| 0x80, c0, c1, c2, c3, c4, c5, c6] := by
  obtain ⟨c0, c1, c2, c3, c4, c5, c6, hc⟩ :=
    list_length_seven ((randRest ++ List.replicate 7 (0 : Byte)).take 7) (by
      simp only [List.length_take, List.length_append, List.length_replicate]
      omega)
  refine ⟨UInt8.ofNat ((time.UnixMilli now % 2 ^ 64).toNat / 2 ^ 56),
    UInt8.ofNat ((time.UnixMilli now % 2 ^ 64).toNat / 2 ^ 48),
    UInt8.ofNat ((time.UnixMilli now % 2 ^ 64).toNat / 2 ^ 40),
    UInt8.ofNat ((time.UnixMilli now % 2 ^ 64).toNat / 2 ^ 32),
    UInt8.ofNat ((time.UnixMilli now % 2 ^ 64).toNat / 2 ^ 24),
    UInt8.ofNat ((time.UnixMilli now % 2 ^ 64).toNat / 2 ^ 16),
    UInt8.ofNat (time.UnixMilli now % 2 ^ 64).toNat,
    c0, c1, c2, c3, c4, c5, c6, ?_⟩
  simp only [GenerateUUIDv7, PutUint64, hc]
  rfl

/-- Apart from the four hyphens every character `formatUUID` writes is a lower-case hex
digit. -/
theorem formatUUID_digits (b0 b1 b2 b3 b4 b5 b6 b7 b8 b9 b10 b11 b12 b13 b14 b15 : Byte)
    (i : Nat) (hi : i < 36) (h8 : i ≠ 8) (h13 : i ≠ 13) (h18 : i ≠ 18) (h23 : i ≠ 23) :
    ∃ c : Char,
      (formatUUID
        [b0, b1, b2, b3, b4, b5, b6, b7, b8, b9, b10, b11, b12, b13, b14, b15]).toList[i]? =
        some c ∧ c ∈ hex.hextable := by
  rw [formatUUID_chars]
  simp only [hex.encodeChars, List.cons_append, List.nil_append]
  interval_cases i
  all_goals first
    | exact absurd rfl h8
    | exact absurd rfl h13
    | exact absurd rfl h18
    | exact absurd rfl h23
    | exact ⟨_, rfl, hex_hi_mem _⟩
    | exact ⟨_, rfl, hex_lo_mem _⟩

/-- C22. For every input of 16 bytes `formatUUID` returns a string of 36 characters made
of five groups of 8, 4, 4, 4 and 12 characters joined by hyphens: the characters at the
indices 8, 13, 18 and 23 are hyphens and every other character is one of
`0123456789abcdef`. For every clock reading and random input `GenerateUUIDv7` returns
such a string, formatted from 16 bytes, whose character at index 14 is `7` and whose
character at index 19 is one of `8`, `9`, `a`, `b`. -/
theorem C22_uuid_layout_version_and_variant (bytes : List Byte) (now : Int)
    (randBytes randRest : List Byte) (hlen : bytes.length = 16) :
    ((formatUUID bytes).length = 36 ∧
      (∃ g1 g2 g3 g4 g5 : String,
        formatUUID bytes = g1 ++ "-" ++ g2 ++ "-" ++ g3 ++ "-" ++ g4 ++ "-" ++ g5 ∧
        g1.length = 8 ∧ g2.length = 4 ∧ g3.length = 4 ∧ g4.length = 4 ∧ g5.length = 12) ∧
      (formatUUID bytes).toList[8]? = some '-' ∧
      (formatUUID bytes).toList[13]? = some '-' ∧
      (formatUUID bytes).toList[18]? = some '-' ∧
      (formatUUID bytes).toList[23]? = some '-' ∧
      ∀ i : Nat, i < 36 → i ≠ 8 → i ≠ 13 → i ≠ 18 → i ≠ 23 →
        ∃ c : Char, (formatUUID bytes).toList[i]? = some c ∧
          c ∈ "0123456789abcdef".toList) ∧
    (∃ bytes16 : List Byte, bytes16.length = 16 ∧
      GenerateUUIDv7 now randBytes randRest = formatUUID bytes16) ∧
    (GenerateUUIDv7 now randBytes randRest).toList[14]? = some '7' ∧
    ∃ c : Char, (GenerateUUIDv7 now randBytes randRest).toList[19]? = some c ∧
      (c = '8' ∨ c = '9' ∨ c = 'a' ∨ c = 'b') := by
  constructor
  · match bytes, hlen with
    | [b0, b1, b2, b3, b4, b5, b6, b7, b8, b9, b10, b11, b12, b13, b14, b15], _ =>
      refine ⟨rfl, ⟨hex.EncodeToString [b0, b1, b2, b3], hex.EncodeToString [b4, b5],
        hex.EncodeToString [b6, b7], hex.EncodeToString [b8, b9],
        hex.EncodeToString [b10, b11, b12, b13, b14, b15], rfl, rfl, rfl, rfl, rfl, rfl⟩,
        rfl, rfl, rfl, rfl, ?_⟩
      intro i hi h8 h13 h18 h23
      exact formatUUID_digits b0 b1 b2 b3 b4 b5 b6 b7 b8 b9 b10 b11 b12 b13 b14 b15 i hi
        h8 h13 h18 h23
  · obtain ⟨b0, b1, b2, b3, b4, b5, b7, c0, c1, c2, c3, c4, c5, c6, hgen⟩ :=
      GenerateUUIDv7_bytes now randBytes randRest
    refine ⟨⟨_, ?_, hgen⟩, ?_, ?_⟩
    · rfl
    · rw [hgen, formatUUID_chars]
      show some (hex.hextable.getD
        (((randBytes.getD 0 0 &&& 0x0f) ||| 0x70).toNat / 16) '0') = some '7'
      rw [version_nibble]
      rfl
    · rw [hgen, formatUUID_chars]
      refine ⟨hex.hextable.getD
        (((randBytes.getD 1 0 &&& 0x3f) ||| 0x80).toNat / 16) '0', rfl, ?_⟩
      rcases variant_nibble (randBytes.getD 1 0) with h | h | h | h <;> rw [h]
      · exact Or.inl rfl
      · exact Or.inr (Or.inl rfl)
      · exact Or.inr (Or.inr (Or.inl rfl))
      · exact Or.inr (Or.inr (Or.inr rfl))

theorem C22_uuid_layout_version_and_variant_witness :
    ([0, 1, 2, 3, 4, 5, 6, 7, 8, 9, 10, 11, 12, 13, 14, 255] : List Byte).length = 16 ∧
    formatUUID [0, 1, 2, 3, 4, 5, 6, 7, 8, 9, 10, 11, 12, 13, 14, 255] =
      "00010203-0405-0607-0809-0a0b0c0d0eff" ∧
    GenerateUUIDv7 1700000000000000000 [255, 255] [1, 2, 3, 4, 5, 6, 7] =
      "0000018b-cfe5-7f00-bf01-020304050607" ∧
    (GenerateUUIDv7 1700000000000000000 [255, 255] [1, 2, 3, 4, 5, 6, 7]).toList[14]? =
      some '7' :=
  ⟨by decide, by decide, by decide,
    (C22_uuid_layout_version_and_variant [0, 1, 2, 3, 4, 5, 6, 7, 8, 9, 10, 11, 12, 13, 14, 255]
      1700000000000000000 [255, 255] [1, 2, 3, 4, 5, 6, 7] (by decide)).2.2.1⟩

end Authorization
